import Mathlib

set_option maxHeartbeats 1000000

namespace BibQuery

/-!
Shallow embedding of the query/retrieval core of the bibliographic-query
repository (src/build_query.py and src/wos_query.py).

Conventions of the embedding:
* Records returned by the Web of Science API are abstract (a type variable):
  the claims under verification concern control flow (retry, backoff,
  pagination, accumulation) and string rewriting, not field extraction.
* HTTP interaction is modelled by a list of responses consumed in order, one
  list element per issued request.
* Sleep calls are recorded as a list of durations; the float delays of the
  source are modelled as naturals (only the products delay * n and
  delay * 2 ^ n matter to the claims).
* Python strings are modelled as List Char.  Python's re word class and the
  case/digit character predicates are modelled over ASCII, matching the
  alphabets the repository actually uses.
-/

/-- Shape of an HTTP-200 response body as discriminated by query_wos
(wos_query.py lines 44-89). -/
inductive WosBody (α : Type) where
  | records (recs : List α)
  | singleRecord (r : α)
  | recBadType
  | emptyRecords
  | containerBadType
  | dataNotDict
  deriving DecidableEq

/-- One HTTP outcome for a single request issued by query_wos
(wos_query.py lines 33-101). -/
inductive WosResponse (α : Type) where
  | ok (body : WosBody α)
  | badJson
  | status429
  | statusOther (code : Nat)
  | netError
  deriving DecidableEq

/-- What query_wos returns on an HTTP 200: a DataFrame (here the list of
records; a single REC dict is normalized to a one-element list) or None
(wos_query.py lines 44-89).  Note an empty REC list yields an empty
DataFrame, not None. -/
def bodyResult {α : Type} : WosBody α → Option (List α)
  | .records recs => some recs
  | .singleRecord r => some [r]
  | .recBadType => none
  | .emptyRecords => none
  | .containerBadType => none
  | .dataNotDict => none

/-- The attempt loop of query_wos (wos_query.py lines 33-103).  The second
argument is the number of attempts still available (range(retries) not yet
consumed), the third the 0-based index of the current attempt.  Returns the
result together with the list of sleep durations performed, in order.
Only a 429 response continues the loop, sleeping delay * (attempt + 1)
(line 93); every other outcome returns at once, and an exhausted range
returns none (line 103). -/
def query_wosAux {α : Type} (delay : Nat) :
    List (WosResponse α) → Nat → Nat → Option (List α) × List Nat
  | _, 0, _ => (none, [])
  | [], _ + 1, _ => (none, [])
  | r :: rest, rem + 1, attempt =>
    match r with
    | .ok body => (bodyResult body, [])
    | .badJson => (none, [])
    | .statusOther _ => (none, [])
    | .netError => (none, [])
    | .status429 =>
      let out := query_wosAux delay rest rem (attempt + 1)
      (out.1, delay * (attempt + 1) :: out.2)

/-- query_wos (wos_query.py lines 6-103) on a stream of responses. -/
def query_wos {α : Type} (retries delay : Nat) (responses : List (WosResponse α)) :
    Option (List α) × List Nat :=
  query_wosAux delay responses retries 0

/-- Outcome of one call to query_wos as seen by execute_query_paginated
(wos_query.py line 151): a normal return (df or None) or a raised
exception. -/
inductive PageResult (α : Type) where
  | page (df : Option (List α))
  | exc
  deriving DecidableEq

/-- The while-loop of execute_query_paginated (wos_query.py lines 148-174),
page_size = 100 as hard-coded at line 145.  Returns the accumulated pages in
fetch order, the firstRecord value of every query_wos call made, and the
sleep durations performed.  An exception increments the failure counter,
leaves firstRecord unchanged and sleeps delay * 2 ^ attempts (lines 166-174);
a None/empty page, a short page or firstRecord > max_records stop the loop
(lines 153-160); a full page is appended, firstRecord advances by 100 and
the counter resets (lines 157-164). -/
def paginateAux {α : Type} (delay maxRecords retries : Nat) :
    List (PageResult α) → Nat → Nat → List (List α) × List Nat × List Nat
  | resps, firstRecord, attempts =>
    if maxRecords < firstRecord then ([], [], [])
    else
      match resps with
      | [] => ([], [], [])
      | PageResult.exc :: rest =>
        if retries ≤ attempts + 1 then ([], [firstRecord], [])
        else
          let out := paginateAux delay maxRecords retries rest firstRecord (attempts + 1)
          (out.1, firstRecord :: out.2.1, delay * 2 ^ (attempts + 1) :: out.2.2)
      | PageResult.page none :: _ => ([], [firstRecord], [])
      | PageResult.page (some recs) :: rest =>
        if recs.isEmpty then ([], [firstRecord], [])
        else if recs.length < 100 then ([recs], [firstRecord], [])
        else
          let out := paginateAux delay maxRecords retries rest (firstRecord + 100) 0
          (recs :: out.1, firstRecord :: out.2.1, delay :: out.2.2)
  termination_by resps _ _ => resps.length

/-- execute_query_paginated (wos_query.py lines 142-179): runs the pagination
loop from firstRecord = 1 and returns the concatenation of the accumulated
pages (pd.concat, line 177), or none if no page was accumulated (line 179),
together with the call trace and sleep trace. -/
def execute_query_paginated {α : Type} (delay maxRecords retries : Nat)
    (responses : List (PageResult α)) : Option (List α) × List Nat × List Nat :=
  let out := paginateAux delay maxRecords retries responses 1 0
  ((if out.1.isEmpty then none else some out.1.flatten), out.2.1, out.2.2)

/-! ### String model for build_query.py

Python strings are List Char.  The regular expressions of build_query.py are
small and deterministic, so each is modelled by a dedicated scanner that
follows Python re semantics (leftmost match, greedy digit runs,
first-matching alternative, word boundaries; re.sub continues scanning after
the end of each replaced match). -/

/-- Python str.strip whitespace class (ASCII part). -/
def isWS (c : Char) : Bool :=
  c = ' ' || c = '\t' || c = '\n' || c = '\r' || c = '\x0b' || c = '\x0c'

/-- Python re word class (ASCII part): letters, digits, underscore. -/
def wordChar (c : Char) : Bool := c.isAlphanum || c = '_'

/-- Python str.strip: drop whitespace from both ends. -/
def pyStrip (s : List Char) : List Char := (s.dropWhile isWS).rdropWhile isWS

/-- Python str.lower (ASCII). -/
def pyLower (s : List Char) : List Char := s.map Char.toLower

/-- pat is a prefix of s. -/
def leadsWith : List Char → List Char → Bool
  | [], _ => true
  | _ :: _, [] => false
  | a :: pat, b :: s => a = b && leadsWith pat s

/-- pat occurs as a contiguous substring of s (Python "in"). -/
def containsSub (pat : List Char) : List Char → Bool
  | [] => pat.isEmpty
  | c :: rest => leadsWith pat (c :: rest) || containsSub pat rest

/-- pat is a suffix of s. -/
def endsWith (pat s : List Char) : Bool := leadsWith pat.reverse s.reverse

/-- The string, stripped of trailing whitespace, still ends in a dangling
boolean operator AND or OR. -/
def endsInOp (s : List Char) : Bool :=
  endsWith ("AND").data (pyStrip s) || endsWith ("OR").data (pyStrip s)

/-- Python str.replace(old, new): replace every non-overlapping occurrence,
scanning left to right.  A match emits the replacement and skips the rest of
the matched occurrence via the skip counter (first argument), which keeps
the recursion structural. -/
def replaceAllAux (pat rep : List Char) : Nat → List Char → List Char
  | _, [] => []
  | skip + 1, _ :: rest => replaceAllAux pat rep skip rest
  | 0, c :: rest =>
    if 0 < pat.length ∧ leadsWith pat (c :: rest) = true then
      rep ++ replaceAllAux pat rep (pat.length - 1) rest
    else c :: replaceAllAux pat rep 0 rest

/-- Python str.replace(old, new). -/
def replaceAll (pat rep s : List Char) : List Char := replaceAllAux pat rep 0 s

/-- Match a literal, returning the rest of the input. -/
def matchLit : List Char → List Char → Option (List Char)
  | [], s => some s
  | _ :: _, [] => none
  | a :: pat, b :: s => if a = b then matchLit pat s else none

/-- Split off the maximal leading run of ASCII digits. -/
def takeDigits : List Char → List Char × List Char
  | [] => ([], [])
  | c :: rest =>
    if c.isDigit then
      let out := takeDigits rest
      (c :: out.1, out.2)
    else ([], c :: rest)

/-- Greedy nonempty digit run, as the regex atom (backslash d)+ matches it. -/
def matchDigits (s : List Char) : Option (List Char × List Char) :=
  let out := takeDigits s
  if out.1.isEmpty then none else some (out.1, out.2)

/-- Match of the pattern PUBYEAR AFT (digits) AND PUBYEAR BEF (digits) at the
start of the input (build_query.py lines 122 and 155): returns the two digit
groups and the rest.  The greedy digit runs are exact: each is followed by a
non-digit literal or by the end of the pattern, so regex backtracking never
shortens them. -/
def matchYearRange (s : List Char) : Option (List Char × List Char × List Char) :=
  match matchLit ("PUBYEAR AFT ").data s with
  | none => none
  | some s1 =>
    match matchDigits s1 with
    | none => none
    | some (d1, s2) =>
      match matchLit (" AND PUBYEAR BEF ").data s2 with
      | none => none
      | some s3 =>
        match matchDigits s3 with
        | none => none
        | some (d2, s4) => some (d1, d2, s4)

/-- re.search of the year-range pattern: leftmost match, returning its two
digit groups. -/
def searchYearRange : List Char → Option (List Char × List Char)
  | [] => none
  | c :: rest =>
    match matchYearRange (c :: rest) with
    | some (d1, d2, _) => some (d1, d2)
    | none => searchYearRange rest

/-- One alternative of (AFT digits | BEF digits | =digits), returning the
number of characters consumed and the rest.  The alternatives start with
pairwise distinct characters, so trying them in order without backtracking
is exact. -/
def matchYearAlt (s : List Char) : Option (Nat × List Char) :=
  match matchLit ("AFT ").data s with
  | some s1 => (matchDigits s1).map (fun out => (4 + out.1.length, out.2))
  | none =>
    match matchLit ("BEF ").data s with
    | some s1 => (matchDigits s1).map (fun out => (4 + out.1.length, out.2))
    | none =>
      match matchLit ("=").data s with
      | some s1 => (matchDigits s1).map (fun out => (1 + out.1.length, out.2))
      | none => none

/-- Word-boundary test for the position before the given rest of input, when
the previous character is a word character (every alternative ends in a
digit). -/
def boundaryOk : List Char → Bool
  | [] => true
  | c :: _ => !wordChar c

/-- Match of the remove_year_clause pattern (build_query.py line 95) at the
start of the input: word boundary, PUBYEAR, one alternative, an optional
AND PUBYEAR alternative group, and a trailing word boundary.  prevWord says
whether the character before the current position is a word character.  If
the trailing boundary fails after the optional group matched, the regex
engine retries without the group; shortening a greedy digit run can never
produce a boundary, so no other backtracking applies. -/
def matchYearClause (prevWord : Bool) (s : List Char) : Option (Nat × List Char) :=
  if prevWord then none
  else
    match matchLit ("PUBYEAR ").data s with
    | none => none
    | some s1 =>
      match matchYearAlt s1 with
      | none => none
      | some (n1, s2) =>
        match (matchLit (" AND PUBYEAR ").data s2).bind matchYearAlt with
        | some (n2, s3) =>
          if boundaryOk s3 then some (8 + n1 + 13 + n2, s3)
          else if boundaryOk s2 then some (8 + n1, s2)
          else none
        | none => if boundaryOk s2 then some (8 + n1, s2) else none

/-- re.sub of the remove_year_clause pattern with the empty replacement:
scan left to right, delete each leftmost match and continue after it.  A
match deletes its characters by setting the skip counter (first argument);
after a match the previous character is the last character of the match,
always a digit, hence a word character, so the skipping equations pass true
as the word-state. -/
def removeYearAux : Nat → Bool → List Char → List Char
  | _, _, [] => []
  | skip + 1, _, _ :: rest => removeYearAux skip true rest
  | 0, p, c :: rest =>
    match matchYearClause p (c :: rest) with
    | some (k, _) => removeYearAux (k - 1) true rest
    | none => c :: removeYearAux 0 (wordChar c) rest

/-- remove_year_clause (build_query.py lines 85-96): re.sub of the year
pattern with the empty string, then strip. -/
def remove_year_clause (q : List Char) : List Char := pyStrip (removeYearAux 0 false q)

/-- re.sub of the year-range pattern with a fixed replacement string: replace
every non-overlapping leftmost match, scanning left to right.  A match
consumes 12 + start digits + 17 + end digits characters, skipped via the
skip counter (first argument after rep). -/
def subAllYearRange (rep : List Char) : Nat → List Char → List Char
  | _, [] => []
  | skip + 1, _ :: rest => subAllYearRange rep skip rest
  | 0, c :: rest =>
    match matchYearRange (c :: rest) with
    | some (d1, d2, _) =>
      rep ++ subAllYearRange rep (12 + d1.length + 17 + d2.length - 1) rest
    | none => c :: subAllYearRange rep 0 rest

/-- replace_years_with_scopus_format (build_query.py lines 144-161): if the
year pattern occurs, every occurrence is replaced by the clause
AND PUBYEAR > start AND PUBYEAR < end built from the first occurrence's
groups; otherwise the query is returned unchanged.  Note the leading AND of
the replacement (line 159). -/
def replace_years_with_scopus_format (q : List Char) : List Char :=
  match searchYearRange q with
  | some (d1, d2) =>
    subAllYearRange (("AND PUBYEAR > ").data ++ d1 ++ (" AND PUBYEAR < ").data ++ d2) 0 q
  | none => q

/-- The suffix is a (possibly empty) concatenation of the blocks
- AND - and - OR - (each block with one surrounding space on both sides).
The two blocks start with distinct second characters, so the decomposition
is deterministic. -/
def chainOps : List Char → Bool
  | [] => true
  | ' ' :: 'A' :: 'N' :: 'D' :: ' ' :: rest => chainOps rest
  | ' ' :: 'O' :: 'R' :: ' ' :: rest => chainOps rest
  | _ => false

/-- re.sub of the anchored pattern (one or more operator blocks, then end of
string) with the empty replacement: delete from the leftmost position whose
whole suffix is a nonempty chain of operator blocks. -/
def opSubEnd : List Char → List Char
  | [] => []
  | c :: rest => if chainOps (c :: rest) then [] else c :: opSubEnd rest

/-- clean_boolean_query (build_query.py lines 129-142): strip, then re.sub of
the trailing-operator pattern.  The pattern requires the string to end in a
space, which the preceding strip has removed, so the re.sub step never
changes a stripped string; the model keeps it nevertheless. -/
def clean_boolean_query (q : List Char) : List Char := opSubEnd (pyStrip q)

/-- extract_term_query (build_query.py lines 98-109). -/
def extract_term_query (q : List Char) : List Char :=
  clean_boolean_query (("TS=(").data ++ remove_year_clause q ++ [')'])

/-- extract_year_query_wos (build_query.py lines 111-127): the first
year-range match is rewritten to PY=start-end; no match gives None. -/
def extract_year_query_wos (q : List Char) : Option (List Char) :=
  (searchYearRange q).map (fun out => ("PY=").data ++ out.1 ++ '-' :: out.2)

/-- Decimal digit character, 48 + d in ASCII. -/
def digitChar (d : Nat) : Char := Char.ofNat (48 + d)

/-- Decimal rendering of a natural number, most significant digit first,
modelling Python str on a nonnegative int.  The first argument is fuel,
always sufficient when natDigits is used. -/
def natDigitsAux : Nat → Nat → List Char
  | 0, _ => []
  | fuel + 1, n =>
    if n < 10 then [digitChar n]
    else natDigitsAux fuel (n / 10) ++ [digitChar (n % 10)]

/-- Decimal rendering of a natural number (Python str of a year). -/
def natDigits (n : Nat) : List Char := natDigitsAux (n + 1) n

/-- add_quotes inside build_search_query (build_query.py lines 18-22): terms
containing a wildcard star are left unquoted, all others are wrapped in
double quotes. -/
def add_quotes (t : List Char) : List Char :=
  if '*' ∈ t then t else '"' :: (t ++ ['"'])

/-- format_terms inside build_search_query (build_query.py lines 24-25). -/
def format_terms (ts : List (List Char)) : List (List Char) := ts.map add_quotes

/-- The parenthesized OR-clause built for a term list by build_search_query
(build_query.py lines 27-28); the empty list (a falsy argument) gives the
empty clause. -/
def orClause (ts : List (List Char)) : List Char :=
  if ts.isEmpty then []
  else '(' :: (List.intercalate ((" OR ").data) (format_terms ts) ++ [')'])

/-- The year clause of build_search_query (build_query.py lines 30-34);
none (a falsy argument) gives the empty clause. -/
def when_clause : Option (Nat × Nat) → List Char
  | some (s, e) =>
    ("PUBYEAR AFT ").data ++ natDigits s ++ (" AND PUBYEAR BEF ").data ++ natDigits e
  | none => []

/-- The year clause text PUBYEAR AFT ds AND PUBYEAR BEF de over explicit digit
strings; when_clause (some (s, e)) produces it with the rendered years.  Used
only in lemma statements and proofs. -/
def yearClauseOf (ds de : List Char) : List Char :=
  ("PUBYEAR AFT ").data ++ ds ++ (" AND PUBYEAR BEF ").data ++ de

/-- The combined location-and-topic clause of build_search_query
(build_query.py lines 36-37): the nonempty clauses joined with AND. -/
def combined_query (w t : List (List Char)) : List Char :=
  List.intercalate ((" AND ").data)
    (([orClause w, orClause t]).filter (fun c => !c.isEmpty))

/-- build_search_query (build_query.py lines 5-39): the stripped combined
clause, a separating space, and the year clause. -/
def build_search_query (w t : List (List Char)) (when : Option (Nat × Nat)) : List Char :=
  pyStrip (combined_query w t) ++ ' ' :: when_clause when

/-- convert_query_for_database (build_query.py lines 43-83).  The raised
ValueError for an unsupported database is modelled as an Except error
carrying the database identifier; the three recognized identifiers are
matched after str.lower. -/
def convert_query_for_database (q db : List Char) : Except (List Char) (List Char) :=
  if pyLower db = ("google_scholar").data then
    Except.ok (pyStrip (remove_year_clause
      (replaceAll ((" OR ").data) [' '] (replaceAll ((" AND ").data) [' '] q))))
  else if pyLower db = ("wos").data then
    let tq0 := extract_term_query q
    let tq := if tq0.isEmpty then [] else clean_boolean_query tq0
    let yq :=
      match extract_year_query_wos q with
      | none => []
      | some y => if y.isEmpty then [] else clean_boolean_query y
    let wq :=
      if !tq.isEmpty && !yq.isEmpty then tq ++ (" AND ").data ++ yq
      else if !tq.isEmpty then tq
      else if !yq.isEmpty then yq
      else []
    Except.ok (clean_boolean_query wq)
  else if pyLower db = ("scopus").data then
    Except.ok (replace_years_with_scopus_format q)
  else
    Except.error db

/-- The word-character state of the scanner after passing over a segment:
the last character's class, or the incoming state for an empty segment.
Used only to state lemmas about removeYearAux. -/
def prevW (p : Bool) (seg : List Char) : Bool :=
  match seg.getLast? with
  | none => p
  | some c => wordChar c

/-- The first character of the list is an ASCII digit.  Used to state that a
greedy digit run cannot extend into the following text. -/
def headIsDigit : List Char → Bool
  | [] => false
  | c :: _ => c.isDigit

/-- Characters that can occur inside a match of either year pattern: the
letters of the literals PUBYEAR, AFT, BEF, AND, the equals sign, the space,
and the digits.  Used only in lemma statements. -/
def yearChar (c : Char) : Bool := c ∈ ("PUBYEARFTND= ").data || c.isDigit

/-! ### Lemmas about the pagination loop -/

theorem paginateAux_page_step {α : Type} (delay maxR retries : Nat) (p : List α)
    (rest : List (PageResult α)) (fr att : Nat) (hp : p.length = 100) (hfr : fr ≤ maxR) :
    paginateAux delay maxR retries (PageResult.page (some p) :: rest) fr att =
      (p :: (paginateAux delay maxR retries rest (fr + 100) 0).1,
       fr :: (paginateAux delay maxR retries rest (fr + 100) 0).2.1,
       delay :: (paginateAux delay maxR retries rest (fr + 100) 0).2.2) := by
  rw [paginateAux]
  have h1 : ¬ maxR < fr := by omega
  have h2 : p.isEmpty = false := by
    cases p with
    | nil => simp at hp
    | cons a l => rfl
  have h3 : ¬ p.length < 100 := by omega
  simp [h1, h2, h3]

theorem paginateAux_short_stop {α : Type} (delay maxR retries : Nat) (p : List α)
    (rest : List (PageResult α)) (fr att : Nat) (hne : p ≠ []) (hp : p.length < 100)
    (hfr : fr ≤ maxR) :
    paginateAux delay maxR retries (PageResult.page (some p) :: rest) fr att =
      ([p], [fr], []) := by
  rw [paginateAux]
  have h1 : ¬ maxR < fr := by omega
  have h2 : p.isEmpty = false := by
    cases p with
    | nil => simp at hne
    | cons a l => rfl
  simp [h1, h2, hp]

theorem paginateAux_none_stop {α : Type} (delay maxR retries : Nat)
    (rest : List (PageResult α)) (fr att : Nat) (hfr : fr ≤ maxR) :
    paginateAux delay maxR retries (PageResult.page none :: rest) fr att =
      ([], [fr], []) := by
  rw [paginateAux]
  have h1 : ¬ maxR < fr := by omega
  simp [h1]

theorem paginateAux_max_stop {α : Type} (delay maxR retries : Nat)
    (resps : List (PageResult α)) (fr att : Nat) (hfr : maxR < fr) :
    paginateAux delay maxR retries resps fr att = ([], [], []) := by
  rw [paginateAux.eq_def]
  simp [hfr]

theorem paginateAux_exc_step {α : Type} (delay maxR retries : Nat)
    (rest : List (PageResult α)) (fr att : Nat) (hfr : fr ≤ maxR)
    (hret : ¬ retries ≤ att + 1) :
    paginateAux delay maxR retries (PageResult.exc :: rest) fr att =
      ((paginateAux delay maxR retries rest fr (att + 1)).1,
       fr :: (paginateAux delay maxR retries rest fr (att + 1)).2.1,
       delay * 2 ^ (att + 1) :: (paginateAux delay maxR retries rest fr (att + 1)).2.2) := by
  rw [paginateAux]
  have h1 : ¬ maxR < fr := by omega
  simp [h1, hret]

theorem paginateAux_exc_break {α : Type} (delay maxR retries : Nat)
    (rest : List (PageResult α)) (fr att : Nat) (hfr : fr ≤ maxR)
    (hret : retries ≤ att + 1) :
    paginateAux delay maxR retries (PageResult.exc :: rest) fr att = ([], [fr], []) := by
  rw [paginateAux]
  have h1 : ¬ maxR < fr := by omega
  simp [h1, hret]

theorem range_map_pow_shift (delay a m : Nat) :
    delay * 2 ^ (a + 1) :: (List.range m).map (fun i => delay * 2 ^ (a + 1 + 1 + i)) =
      (List.range (m + 1)).map (fun i => delay * 2 ^ (a + 1 + i)) := by
  rw [List.range_succ_eq_map, List.map_cons, List.map_map]
  refine congrArg₂ _ (by norm_num) ?_
  refine List.map_congr_left fun i _ => ?_
  simp only [Function.comp_apply]
  congr 2
  omega

theorem range_map_fr_shift (fr m : Nat) :
    fr :: (List.range m).map (fun i => fr + 100 + 100 * i) =
      (List.range (m + 1)).map (fun i => fr + 100 * i) := by
  rw [List.range_succ_eq_map, List.map_cons, List.map_map]
  refine congrArg₂ _ (by norm_num) ?_
  refine List.map_congr_left fun i _ => ?_
  simp only [Function.comp_apply]
  omega

theorem range_map_lin_shift (delay a m : Nat) :
    delay * (a + 1) :: (List.range m).map (fun i => delay * (a + 1 + 1 + i)) =
      (List.range (m + 1)).map (fun i => delay * (a + 1 + i)) := by
  rw [List.range_succ_eq_map, List.map_cons, List.map_map]
  refine congrArg₂ _ (by norm_num) ?_
  refine List.map_congr_left fun i _ => ?_
  simp only [Function.comp_apply]
  congr 1
  omega

theorem paginateAux_empty_stop {α : Type} (delay maxR retries : Nat)
    (rest : List (PageResult α)) (fr att : Nat) (hfr : fr ≤ maxR) :
    paginateAux delay maxR retries (PageResult.page (some ([] : List α)) :: rest) fr att =
      ([], [fr], []) := by
  rw [paginateAux]
  have h1 : ¬ maxR < fr := by omega
  simp [h1]

theorem paginateAux_exc_term {α : Type} (delay maxR retries : Nat)
    (junk : List (PageResult α)) (m : Nat) :
    ∀ fr att : Nat, fr ≤ maxR → 1 ≤ m → att + m = retries →
    paginateAux delay maxR retries (List.replicate m PageResult.exc ++ junk) fr att =
      ([], List.replicate m fr,
       (List.range (m - 1)).map (fun i => delay * 2 ^ (att + 1 + i))) := by
  induction m with
  | zero => intro fr att _ hm _; omega
  | succ m ih =>
    intro fr att hfr _ hat
    rw [List.replicate_succ, List.cons_append]
    rcases Nat.eq_zero_or_pos m with h0 | hpos
    · subst h0
      have h2 : retries ≤ att + 1 := by omega
      rw [paginateAux_exc_break delay maxR retries _ fr att hfr h2]
      simp
    · have h2 : ¬ retries ≤ att + 1 := by omega
      rw [paginateAux_exc_step delay maxR retries _ fr att hfr h2,
        ih fr (att + 1) hfr hpos (by omega)]
      dsimp only
      rw [Nat.add_sub_cancel, ← List.replicate_succ,
        range_map_pow_shift delay att (m - 1), show m - 1 + 1 = m from by omega]

theorem paginateAux_exc_cont {α : Type} (delay maxR retries : Nat)
    (rest : List (PageResult α)) (m : Nat) :
    ∀ fr att : Nat, fr ≤ maxR → att + m < retries →
    paginateAux delay maxR retries (List.replicate m PageResult.exc ++ rest) fr att =
      ((paginateAux delay maxR retries rest fr (att + m)).1,
       List.replicate m fr ++ (paginateAux delay maxR retries rest fr (att + m)).2.1,
       (List.range m).map (fun i => delay * 2 ^ (att + 1 + i)) ++
         (paginateAux delay maxR retries rest fr (att + m)).2.2) := by
  induction m with
  | zero => intro fr att _ _; simp
  | succ m ih =>
    intro fr att hfr hat
    rw [List.replicate_succ, List.cons_append]
    have h2 : ¬ retries ≤ att + 1 := by omega
    rw [paginateAux_exc_step delay maxR retries _ fr att hfr h2,
      ih fr (att + 1) hfr (by omega)]
    dsimp only
    rw [show att + 1 + m = att + (m + 1) from by omega]
    rw [← List.cons_append, ← List.replicate_succ]
    rw [← List.cons_append, range_map_pow_shift delay att m]

theorem paginateAux_run {α : Type} (delay maxR retries : Nat) (gs : List (List α)) :
    ∀ (rest : List (PageResult α)) (fr : Nat), (∀ p ∈ gs, p.length = 100) →
    fr + 100 * gs.length ≤ maxR + 100 →
    paginateAux delay maxR retries (gs.map (fun p => PageResult.page (some p)) ++ rest) fr 0 =
      (gs ++ (paginateAux delay maxR retries rest (fr + 100 * gs.length) 0).1,
       (List.range gs.length).map (fun i => fr + 100 * i) ++
         (paginateAux delay maxR retries rest (fr + 100 * gs.length) 0).2.1,
       List.replicate gs.length delay ++
         (paginateAux delay maxR retries rest (fr + 100 * gs.length) 0).2.2) := by
  induction gs with
  | nil => intro rest fr _ _; simp
  | cons g gs ih =>
    intro rest fr hlen hmax
    rw [List.map_cons, List.cons_append,
      paginateAux_page_step delay maxR retries g _ fr 0 (hlen g (by simp))
        (by simp [List.length_cons] at hmax; omega),
      ih rest (fr + 100) (fun p hp => hlen p (by simp [hp]))
        (by simp [List.length_cons] at hmax ⊢; omega)]
    have harith : fr + 100 + 100 * gs.length = fr + 100 * (g :: gs).length := by
      simp only [List.length_cons]; ring
    rw [harith]
    dsimp only
    simp only [List.length_cons]
    rw [← List.cons_append, ← List.cons_append, ← List.cons_append,
      ← List.replicate_succ, range_map_fr_shift fr gs.length]

theorem query_wosAux_429run {α : Type} (delay : Nat) (rest : List (WosResponse α)) (k : Nat) :
    ∀ rem att : Nat, k ≤ rem →
    query_wosAux delay (List.replicate k WosResponse.status429 ++ rest) rem att =
      ((query_wosAux delay rest (rem - k) (att + k)).1,
       (List.range k).map (fun i => delay * (att + 1 + i)) ++
         (query_wosAux delay rest (rem - k) (att + k)).2) := by
  induction k with
  | zero => intro rem att _; simp
  | succ k ih =>
    intro rem att hk
    cases rem with
    | zero => omega
    | succ rem =>
      rw [List.replicate_succ, List.cons_append, query_wosAux]
      rw [ih rem (att + 1) (by omega)]
      dsimp only
      rw [show rem + 1 - (k + 1) = rem - k from by omega,
        show att + 1 + k = att + (k + 1) from by omega,
        ← List.cons_append, range_map_lin_shift delay att k]

/-- C1: execute_query_paginated advances firstRecord by the page size (100)
after each successful full page, preserves fetch order in the returned
concatenation, and stops exactly at a None page, an empty page, a short
page, or when firstRecord exceeds max_records; for pages of sizes
100, 100, 37 it returns the 237 records in page order with calls at
firstRecord 1, 101, 201, ignoring any responses after the short page. -/
theorem C1_pagination {α : Type} (delay : Nat) (p1 p2 p3 : List α)
    (junk : List (PageResult α)) (h1 : p1.length = 100) (h2 : p2.length = 100)
    (h3 : p3.length = 37) :
    execute_query_paginated delay 5000 5
        (PageResult.page (some p1) :: PageResult.page (some p2) ::
          PageResult.page (some p3) :: junk) =
      (some (p1 ++ (p2 ++ p3)), [1, 101, 201], [delay, delay]) ∧
    (p1 ++ (p2 ++ p3)).length = 237 ∧
    execute_query_paginated delay 5000 5
        (PageResult.page (some p1) :: PageResult.page none :: junk) =
      (some p1, [1, 101], [delay]) ∧
    execute_query_paginated delay 5000 5
        (PageResult.page (some p1) :: PageResult.page (some ([] : List α)) :: junk) =
      (some p1, [1, 101], [delay]) ∧
    execute_query_paginated delay 100 5 (PageResult.page (some p1) :: junk) =
      (some p1, [1], [delay]) := by
  have hne3 : p3 ≠ [] := by intro h; rw [h] at h3; simp at h3
  refine ⟨?_, ?_, ?_, ?_, ?_⟩
  · simp only [execute_query_paginated]
    rw [paginateAux_page_step delay 5000 5 p1 _ 1 0 h1 (by norm_num),
      paginateAux_page_step delay 5000 5 p2 _ 101 0 h2 (by norm_num),
      paginateAux_short_stop delay 5000 5 p3 _ 201 0 hne3 (by omega) (by norm_num)]
    simp
  · rw [List.length_append, List.length_append, h1, h2, h3]
  · simp only [execute_query_paginated]
    rw [paginateAux_page_step delay 5000 5 p1 _ 1 0 h1 (by norm_num),
      paginateAux_none_stop delay 5000 5 _ 101 0 (by norm_num)]
    simp
  · simp only [execute_query_paginated]
    rw [paginateAux_page_step delay 5000 5 p1 _ 1 0 h1 (by norm_num),
      paginateAux_empty_stop delay 5000 5 _ 101 0 (by norm_num)]
    simp
  · simp only [execute_query_paginated]
    rw [paginateAux_page_step delay 100 5 p1 _ 1 0 h1 (by norm_num),
      paginateAux_max_stop delay 100 5 junk 101 0 (by norm_num)]
    simp

theorem C1_pagination_witness :
    execute_query_paginated 1 5000 5
        (PageResult.page (some (List.replicate 100 (0 : Nat))) ::
          PageResult.page (some (List.replicate 100 (0 : Nat))) ::
          PageResult.page (some (List.replicate 37 (0 : Nat))) :: [PageResult.exc]) =
      (some (List.replicate 100 (0 : Nat) ++
        (List.replicate 100 (0 : Nat) ++ List.replicate 37 (0 : Nat))),
       [1, 101, 201], [1, 1]) :=
  (C1_pagination 1 (List.replicate 100 0) (List.replicate 100 0) (List.replicate 37 0)
    [PageResult.exc] (by simp) (by simp) (by simp)).1

/-- C2: when the failure counter reaches the retry ceiling,
execute_query_paginated stops and returns the concatenation of all pages
accumulated so far, never discarding earlier successful pages, and returns
none when zero pages succeeded; each exception retries the same firstRecord
after sleeping delay * 2 ^ attempts.  The call trace shows the full pages
followed by retries attempts at the same firstRecord, and the sleep trace
the per-page delay sleeps followed by the exponential backoff sleeps. -/
theorem C2_partial_failure {α : Type} (delay maxR retries : Nat) (gs : List (List α))
    (junk : List (PageResult α)) (hlen : ∀ p ∈ gs, p.length = 100)
    (hmax : 100 * gs.length < maxR) (hr : 1 ≤ retries) :
    execute_query_paginated delay maxR retries
        (gs.map (fun p => PageResult.page (some p)) ++
          (List.replicate retries PageResult.exc ++ junk)) =
      ((if gs.isEmpty then none else some gs.flatten),
       (List.range gs.length).map (fun i => 1 + 100 * i) ++
         List.replicate retries (1 + 100 * gs.length),
       List.replicate gs.length delay ++
         (List.range (retries - 1)).map (fun i => delay * 2 ^ (1 + i))) := by
  simp only [execute_query_paginated]
  rw [paginateAux_run delay maxR retries gs _ 1 hlen (by omega),
    paginateAux_exc_term delay maxR retries junk retries (1 + 100 * gs.length) 0
      (by omega) hr (by omega)]
  dsimp only
  have hmap : (List.range (retries - 1)).map (fun i => delay * 2 ^ (0 + 1 + i)) =
      (List.range (retries - 1)).map (fun i => delay * 2 ^ (1 + i)) :=
    List.map_congr_left fun i _ => by norm_num
  rw [hmap]
  simp only [List.append_nil]

theorem C2_partial_failure_witness :
    execute_query_paginated 1 5000 1
        ([List.replicate 100 (0 : Nat)].map (fun p => PageResult.page (some p)) ++
          (List.replicate 1 PageResult.exc ++ [])) =
      ((if [List.replicate 100 (0 : Nat)].isEmpty then none
        else some [List.replicate 100 (0 : Nat)].flatten),
       (List.range 1).map (fun i => 1 + 100 * i) ++
         List.replicate 1 (1 + 100 * [List.replicate 100 (0 : Nat)].length),
       List.replicate [List.replicate 100 (0 : Nat)].length 1 ++
         (List.range 0).map (fun i => 1 * 2 ^ (1 + i))) :=
  C2_partial_failure 1 5000 1 [List.replicate 100 (0 : Nat)] []
    (by simp) (by norm_num) (by norm_num)

/-- C3: in the single-page attempt loop of query_wos, a 429 is the only
retried condition, sleeping delay * attemptNumber (linear backoff) before
each retry; exhausting all attempts on 429s returns none; and a non-200
non-429 status, a JSON decode failure, a malformed body shape, or a network
exception returns none at once with no sleeps and without consuming further
responses. -/
theorem C3_single_page_retry {α : Type} (delay retries k : Nat) (recs : List α)
    (junk : List (WosResponse α)) :
    (k < retries →
      query_wos retries delay
          (List.replicate k WosResponse.status429 ++
            WosResponse.ok (WosBody.records recs) :: junk) =
        (some recs, (List.range k).map (fun i => delay * (i + 1)))) ∧
    query_wos retries delay (List.replicate retries WosResponse.status429 ++ junk) =
      (none, (List.range retries).map (fun i => delay * (i + 1))) ∧
    (1 ≤ retries →
      query_wos retries delay (WosResponse.badJson :: junk) = (none, []) ∧
      query_wos retries delay (WosResponse.netError :: junk) = (none, []) ∧
      (∀ code, query_wos retries delay (WosResponse.statusOther code :: junk) =
        (none, [])) ∧
      query_wos retries delay (WosResponse.ok WosBody.dataNotDict :: junk) = (none, []) ∧
      query_wos retries delay (WosResponse.ok WosBody.recBadType :: junk) = (none, []) ∧
      query_wos retries delay (WosResponse.ok WosBody.emptyRecords :: junk) = (none, []) ∧
      query_wos retries delay (WosResponse.ok WosBody.containerBadType :: junk) =
        (none, [])) := by
  have hmap : ∀ n, (List.range n).map (fun i => delay * (0 + 1 + i)) =
      (List.range n).map (fun i => delay * (i + 1)) :=
    fun n => List.map_congr_left fun i _ => by congr 1; omega
  refine ⟨?_, ?_, ?_⟩
  · intro hk
    simp only [query_wos]
    rw [query_wosAux_429run delay _ k retries 0 (by omega)]
    obtain ⟨d, hd⟩ : ∃ d, retries - k = d + 1 := ⟨retries - k - 1, by omega⟩
    rw [hd, query_wosAux]
    dsimp only [bodyResult]
    rw [hmap k]
    simp
  · simp only [query_wos]
    rw [query_wosAux_429run delay junk retries retries 0 le_rfl]
    rw [Nat.sub_self, hmap retries]
    have h0 : query_wosAux delay junk 0 (0 + retries) = (none, []) := by
      rw [query_wosAux.eq_def]
      cases junk <;> rfl
    rw [h0]
    simp
  · intro hr
    obtain ⟨d, hd⟩ : ∃ d, retries = d + 1 := ⟨retries - 1, by omega⟩
    subst hd
    exact ⟨by rw [query_wos, query_wosAux], by rw [query_wos, query_wosAux],
      fun code => by rw [query_wos, query_wosAux],
      by rw [query_wos, query_wosAux]; rfl, by rw [query_wos, query_wosAux]; rfl,
      by rw [query_wos, query_wosAux]; rfl, by rw [query_wos, query_wosAux]; rfl⟩

theorem C3_single_page_retry_witness :
    query_wos 3 1
        (List.replicate 2 WosResponse.status429 ++
          WosResponse.ok (WosBody.records [(7 : Nat)]) :: []) =
      (some [7], (List.range 2).map (fun i => 1 * (i + 1))) :=
  (C3_single_page_retry 1 3 2 [(7 : Nat)] []).1 (by norm_num)

/-- C10: the failure counter of execute_query_paginated resets after every
successful page, so the retry ceiling bounds only consecutive failures: a
run with retries - 1 exceptions, a full page, retries - 1 further
exceptions and a short page succeeds and returns both pages, although its
total of 2 * (retries - 1) exceptions is at least retries; the call trace
shows that an exception leaves firstRecord unchanged, so the same page is
refetched. -/
theorem C10_counter_reset {α : Type} (delay retries : Nat) (p q : List α)
    (junk : List (PageResult α)) (hr : 2 ≤ retries) (hp : p.length = 100)
    (hq : q.length = 37) :
    execute_query_paginated delay 5000 retries
        (List.replicate (retries - 1) PageResult.exc ++ PageResult.page (some p) ::
          (List.replicate (retries - 1) PageResult.exc ++
            (PageResult.page (some q) :: junk))) =
      (some (p ++ q),
       List.replicate (retries - 1) 1 ++
         1 :: (List.replicate (retries - 1) 101 ++ [101]),
       (List.range (retries - 1)).map (fun i => delay * 2 ^ (1 + i)) ++
         delay :: (List.range (retries - 1)).map (fun i => delay * 2 ^ (1 + i))) ∧
    retries ≤ 2 * (retries - 1) := by
  have hneq : q ≠ [] := by intro h; rw [h] at hq; simp at hq
  have hmap : (List.range (retries - 1)).map (fun i => delay * 2 ^ (0 + 1 + i)) =
      (List.range (retries - 1)).map (fun i => delay * 2 ^ (1 + i)) :=
    List.map_congr_left fun i _ => by norm_num
  constructor
  · simp only [execute_query_paginated]
    rw [paginateAux_exc_cont delay 5000 retries _ (retries - 1) 1 0 (by norm_num)
        (by omega)]
    dsimp only
    rw [paginateAux_page_step delay 5000 retries p _ 1 (0 + (retries - 1)) hp
        (by norm_num)]
    rw [paginateAux_exc_cont delay 5000 retries _ (retries - 1) 101 0 (by norm_num)
        (by omega)]
    dsimp only
    rw [paginateAux_short_stop delay 5000 retries q _ 101 (0 + (retries - 1)) hneq
        (by omega) (by norm_num)]
    rw [hmap]
    simp
  · omega

theorem C10_counter_reset_witness :
    execute_query_paginated 1 5000 2
        (List.replicate 1 PageResult.exc ++
          PageResult.page (some (List.replicate 100 (0 : Nat))) ::
          (List.replicate 1 PageResult.exc ++
            (PageResult.page (some (List.replicate 37 (0 : Nat))) :: []))) =
      (some (List.replicate 100 (0 : Nat) ++ List.replicate 37 (0 : Nat)),
       List.replicate 1 1 ++ 1 :: (List.replicate 1 101 ++ [101]),
       (List.range 1).map (fun i => 1 * 2 ^ (1 + i)) ++
         1 :: (List.range 1).map (fun i => 1 * 2 ^ (1 + i))) ∧
    2 ≤ 2 * (2 - 1) :=
  C10_counter_reset 1 2 (List.replicate 100 0) (List.replicate 37 0) []
    (by norm_num) (by simp) (by simp)

/-- C8: convert_query_for_database signals the unsupported-database error to
its caller exactly when the lowercased identifier is none of the three
recognized ones (google_scholar, wos, scopus); for a recognized identifier,
matched case-insensitively, it returns a result and no error; for the
identifier unknown it errors. -/
theorem C8_unsupported_database (q db : List Char) :
    ((convert_query_for_database q db).isOk = true ↔
      (pyLower db = ("google_scholar").data ∨ pyLower db = ("wos").data ∨
        pyLower db = ("scopus").data)) ∧
    (convert_query_for_database q db = Except.error db ↔
      ¬(pyLower db = ("google_scholar").data ∨ pyLower db = ("wos").data ∨
        pyLower db = ("scopus").data)) ∧
    convert_query_for_database q (("unknown").data) = Except.error (("unknown").data) ∧
    (convert_query_for_database q (("WoS").data)).isOk = true ∧
    (convert_query_for_database q (("SCOPUS").data)).isOk = true ∧
    (convert_query_for_database q (("Google_Scholar").data)).isOk = true := by
  refine ⟨?_, ?_, ?_, ?_, ?_, ?_⟩
  · unfold convert_query_for_database
    by_cases h1 : pyLower db = ("google_scholar").data
    · simp [h1, Except.isOk, Except.toBool]
    · by_cases h2 : pyLower db = ("wos").data
      · simp [h1, h2, Except.isOk, Except.toBool]
      · by_cases h3 : pyLower db = ("scopus").data
        · simp [h1, h2, h3, Except.isOk, Except.toBool]
        · simp [h1, h2, h3, Except.isOk, Except.toBool]
  · unfold convert_query_for_database
    by_cases h1 : pyLower db = ("google_scholar").data
    · simp [h1]
    · by_cases h2 : pyLower db = ("wos").data
      · simp [h1, h2]
      · by_cases h3 : pyLower db = ("scopus").data
        · simp [h1, h2, h3]
        · simp [h1, h2, h3]
  · rfl
  · rfl
  · rfl
  · rfl

/-- C9: build_search_query joins the location and topic OR-clauses with AND
when both term lists are nonempty, uses the single clause alone when only
one is nonempty, produces the empty combined clause when both are empty,
and with all inputs absent degrades without error to a whitespace-only
query with empty clauses. -/
theorem C9_build_clause_join (w t : List (List Char)) :
    (w ≠ [] → t ≠ [] →
      combined_query w t = orClause w ++ (" AND ").data ++ orClause t) ∧
    (w ≠ [] → combined_query w [] = orClause w) ∧
    (t ≠ [] → combined_query [] t = orClause t) ∧
    combined_query [] [] = [] ∧
    build_search_query [] [] none = [' '] ∧
    pyStrip (build_search_query [] [] none) = [] := by
  refine ⟨?_, ?_, ?_, rfl, rfl, rfl⟩
  · intro hw ht
    have e1 : (orClause w).isEmpty = false := by
      cases w with
      | nil => exact absurd rfl hw
      | cons a l => rfl
    have e2 : (orClause t).isEmpty = false := by
      cases t with
      | nil => exact absurd rfl ht
      | cons a l => rfl
    have hf : List.filter (fun c => !c.isEmpty) [orClause w, orClause t] =
        [orClause w, orClause t] := by
      simp [List.filter_cons, e1, e2]
    rw [combined_query, hf]
    simp [List.intercalate, List.intersperse]
  · intro hw
    have e1 : (orClause w).isEmpty = false := by
      cases w with
      | nil => exact absurd rfl hw
      | cons a l => rfl
    have hf : List.filter (fun c => !c.isEmpty) [orClause w, orClause []] =
        [orClause w] := by
      simp [List.filter_cons, e1]
      rfl
    rw [combined_query, hf]
    simp [List.intercalate, List.intersperse]
  · intro ht
    have e2 : (orClause t).isEmpty = false := by
      cases t with
      | nil => exact absurd rfl ht
      | cons a l => rfl
    have hf : List.filter (fun c => !c.isEmpty) [orClause [], orClause t] =
        [orClause t] := by
      simp [List.filter_cons, e2]
      rfl
    rw [combined_query, hf]
    simp [List.intercalate, List.intersperse]

theorem C9_build_clause_join_witness :
    combined_query [[('a' : Char)]] [[('b' : Char)]] =
      orClause [[('a' : Char)]] ++ (" AND ").data ++ orClause [[('b' : Char)]] :=
  (C9_build_clause_join [['a']] [['b']]).1 (by simp) (by simp)

/-- C4 counterexample: clean_boolean_query does not strip a trailing AND
block from the input, because the strip performed first removes the trailing
space that the operator regex requires: on the input with a trailing
operator the output still ends in the dangling operator AND. -/
theorem C4_clean_cex :
    clean_boolean_query (("A AND ").data) = ("A AND").data ∧
    endsInOp (clean_boolean_query (("A AND ").data)) = true :=
  ⟨rfl, rfl⟩

/-- C5 counterexample: a neutral query built with year range (2018, 2022)
whose topic term itself contains a year-range pattern translates for WoS to
a query whose PY clause comes from the term, not the range, so the result
does not contain the substring PY=2018-2022. -/
theorem C5_wos_cex :
    convert_query_for_database
        (build_search_query [] [("PUBYEAR AFT 1 AND PUBYEAR BEF 2").data]
          (some (2018, 2022))) (("wos").data) =
      Except.ok (("TS=((\"\")) AND PY=1-2").data) ∧
    containsSub (("PY=2018-2022").data) (("TS=((\"\")) AND PY=1-2").data) = false :=
  ⟨rfl, by decide⟩

/-- C6 counterexample: replace_years_with_scopus_format rewrites the year
clause to AND PUBYEAR > 2018 AND PUBYEAR < 2022, with a leading AND that the
claim's replacement string lacks, so the claimed byte-identical in-place
replacement by PUBYEAR > 2018 AND PUBYEAR < 2022 is wrong. -/
theorem C6_scopus_cex :
    replace_years_with_scopus_format (("PUBYEAR AFT 2018 AND PUBYEAR BEF 2022").data) =
      ("AND PUBYEAR > 2018 AND PUBYEAR < 2022").data ∧
    ("AND PUBYEAR > 2018 AND PUBYEAR < 2022").data ≠
      ("PUBYEAR > 2018 AND PUBYEAR < 2022").data :=
  ⟨rfl, by decide⟩

/-- C7 counterexample: a neutral query whose topic term is the literal text
PUBYEAR keeps that text verbatim in the Google Scholar translation (the
year-clause regex requires an AFT, BEF or = part after PUBYEAR), so the
translation contains the substring PUBYEAR. -/
theorem C7_scholar_cex :
    convert_query_for_database (build_search_query [] [("PUBYEAR").data] none)
        (("google_scholar").data) =
      Except.ok (("(\"PUBYEAR\")").data) ∧
    containsSub (("PUBYEAR").data) (("(\"PUBYEAR\")").data) = true :=
  ⟨rfl, by decide⟩

/-! ### Basic lemmas about leadsWith, containsSub and endsWith -/

theorem leadsWith_iff (p : List Char) : ∀ s, leadsWith p s = true ↔ ∃ t, s = p ++ t := by
  induction p with
  | nil => intro s; simp [leadsWith]
  | cons a p ih =>
    intro s
    cases s with
    | nil => simp [leadsWith]
    | cons b s' =>
      simp only [leadsWith, Bool.and_eq_true, decide_eq_true_eq, ih s', List.cons_append,
        List.cons.injEq]
      constructor
      · rintro ⟨rfl, t, rfl⟩; exact ⟨t, rfl, rfl⟩
      · rintro ⟨t, rfl, rfl⟩; exact ⟨rfl, t, rfl⟩

theorem leadsWith_append (p t : List Char) : leadsWith p (p ++ t) = true :=
  (leadsWith_iff p (p ++ t)).mpr ⟨t, rfl⟩

theorem leadsWith_length {p s : List Char} (h : leadsWith p s = true) :
    p.length ≤ s.length := by
  obtain ⟨t, rfl⟩ := (leadsWith_iff p s).mp h
  simp

theorem leadsWith_head {a b : Char} {p s : List Char}
    (h : leadsWith (a :: p) (b :: s) = true) : a = b := by
  simp only [leadsWith, Bool.and_eq_true, decide_eq_true_eq] at h
  exact h.1

theorem containsSub_cons_tail {p : List Char} {c : Char} {rest : List Char}
    (h : containsSub p rest = true) : containsSub p (c :: rest) = true := by
  simp [containsSub, h]

theorem containsSub_of_leadsWith {p s : List Char} (h : leadsWith p s = true) :
    containsSub p s = true := by
  cases s with
  | nil =>
    obtain ⟨t, ht⟩ := (leadsWith_iff p []).mp h
    have : p = [] := by
      cases p with
      | nil => rfl
      | cons a l => simp at ht
    simp [containsSub, this]
  | cons c rest => simp [containsSub, h]

theorem containsSub_append_right {p v : List Char} (u : List Char)
    (h : containsSub p v = true) : containsSub p (u ++ v) = true := by
  induction u with
  | nil => simpa using h
  | cons c u ih => exact containsSub_cons_tail ih

theorem containsSub_append_left {p u : List Char} (v : List Char)
    (h : containsSub p u = true) : containsSub p (u ++ v) = true := by
  induction u with
  | nil =>
    simp only [containsSub, List.isEmpty_iff] at h
    subst h
    cases v with
    | nil => simp [containsSub]
    | cons c rest => simp [containsSub, leadsWith]
  | cons c u ih =>
    simp only [containsSub, Bool.or_eq_true] at h
    rcases h with h | h
    · obtain ⟨t, ht⟩ := (leadsWith_iff p (c :: u)).mp h
      have hlw : leadsWith p (c :: u ++ v) = true := by
        rw [leadsWith_iff]
        refine ⟨t ++ v, ?_⟩
        have : (c :: u) ++ v = (p ++ t) ++ v := by rw [ht]
        simpa [List.append_assoc] using this
      simp only [List.cons_append] at hlw
      simp [containsSub, hlw]
    · exact containsSub_cons_tail (ih h)

theorem containsSub_length {p s : List Char} (h : containsSub p s = true) :
    p.length ≤ s.length := by
  induction s with
  | nil =>
    simp only [containsSub, List.isEmpty_iff] at h
    simp [h]
  | cons c rest ih =>
    simp only [containsSub, Bool.or_eq_true] at h
    rcases h with h | h
    · exact leadsWith_length h
    · exact le_trans (ih h) (by simp)

theorem endsWith_iff (p s : List Char) : endsWith p s = true ↔ ∃ t, s = t ++ p := by
  rw [endsWith, leadsWith_iff]
  constructor
  · rintro ⟨t, ht⟩
    refine ⟨t.reverse, ?_⟩
    have := congrArg List.reverse ht
    simpa using this
  · rintro ⟨t, rfl⟩
    exact ⟨t.reverse, by simp⟩

theorem endsWith_concat_eq {b : Char} {p z : List Char} {a : Char}
    (h : endsWith (p ++ [a]) (z ++ [b]) = true) : a = b := by
  rw [endsWith] at h
  simp only [List.reverse_append, List.reverse_cons, List.reverse_nil, List.nil_append,
    List.cons_append] at h
  exact leadsWith_head h

theorem endsWith_mem {w s : List Char} (h : endsWith w s = true) : ∀ c ∈ w, c ∈ s := by
  obtain ⟨t, rfl⟩ := (endsWith_iff w s).mp h
  intro c hc
  exact List.mem_append_right t hc

theorem containsSub_self (p : List Char) : containsSub p p = true :=
  containsSub_of_leadsWith ((leadsWith_iff p p).mpr ⟨[], (List.append_nil p).symm⟩)

theorem containsSub_of_endsWith {w s : List Char} (h : endsWith w s = true) :
    containsSub w s = true := by
  obtain ⟨t, rfl⟩ := (endsWith_iff w s).mp h
  exact containsSub_append_right t (containsSub_self w)

theorem containsSub_trans {p q s : List Char} (hpq : containsSub p q = true)
    (hqs : containsSub q s = true) : containsSub p s = true := by
  induction s with
  | nil =>
    simp only [containsSub, List.isEmpty_iff] at hqs ⊢
    subst hqs
    simp only [containsSub, List.isEmpty_iff] at hpq
    exact hpq
  | cons c rest ih =>
    simp only [containsSub, Bool.or_eq_true] at hqs ⊢
    rcases hqs with h | h
    · obtain ⟨t, ht⟩ := (leadsWith_iff q (c :: rest)).mp h
      -- p occurs in q, q is a prefix of c :: rest
      have : containsSub p (q ++ t) = true := containsSub_append_left t hpq
      rw [← ht] at this
      simp only [containsSub, Bool.or_eq_true] at this
      exact this
    · exact Or.inr (ih h)

theorem containsSub_append_split {p : List Char} :
    ∀ {u v : List Char}, containsSub p (u ++ v) = true →
    containsSub p u = true ∨ containsSub p v = true ∨
      ∃ k, 0 < k ∧ k < p.length ∧ endsWith (p.take k) u = true ∧
        leadsWith (p.drop k) v = true := by
  intro u
  induction u with
  | nil => intro v h; exact Or.inr (Or.inl (by simpa using h))
  | cons c u ih =>
    intro v h
    simp only [List.cons_append, containsSub, Bool.or_eq_true] at h
    rcases h with h | h
    · obtain ⟨t, ht0⟩ := (leadsWith_iff p _).mp h
      have ht : (c :: u) ++ v = p ++ t := by simpa using ht0
      by_cases hlen : p.length ≤ (c :: u).length
      · left
        obtain ⟨m, hm⟩ : ∃ m, (c :: u).length = p.length + m :=
          ⟨(c :: u).length - p.length, by omega⟩
        have h1 : ((c :: u) ++ v).take (c :: u).length = c :: u := List.take_left _ _
        rw [ht, hm, List.take_append] at h1
        have hlw : leadsWith p (c :: u) = true := by
          rw [leadsWith_iff]
          exact ⟨t.take m, h1.symm⟩
        simp [containsSub, hlw]
      · right; right
        push_neg at hlen
        have h1 : ((c :: u) ++ v).take (c :: u).length = c :: u := List.take_left _ _
        rw [ht, List.take_append_of_le_length (le_of_lt hlen)] at h1
        have h3 : ((c :: u) ++ v).drop (c :: u).length = v := List.drop_left _ _
        rw [ht, List.drop_append_of_le_length (le_of_lt hlen)] at h3
        refine ⟨(c :: u).length, by simp, hlen, ?_, ?_⟩
        · rw [h1, endsWith_iff]
          exact ⟨[], rfl⟩
        · rw [leadsWith_iff]
          exact ⟨t, h3.symm⟩
    · rcases ih h with h1 | h1 | ⟨k, hk1, hk2, hk3, hk4⟩
      · exact Or.inl (containsSub_cons_tail h1)
      · exact Or.inr (Or.inl h1)
      · refine Or.inr (Or.inr ⟨k, hk1, hk2, ?_, hk4⟩)
        obtain ⟨t, ht⟩ := (endsWith_iff (p.take k) u).mp hk3
        rw [endsWith_iff]
        exact ⟨c :: t, by rw [ht]; rfl⟩

theorem containsSub_all_digits {p s : List Char} {h0 : Char}
    (hs : ∀ c ∈ s, c.isDigit = true) (hp : p.head? = some h0)
    (hd : h0.isDigit = false) : containsSub p s = false := by
  induction s with
  | nil =>
    cases p with
    | nil => simp at hp
    | cons a l => rfl
  | cons c rest ih =>
    have h1 : leadsWith p (c :: rest) = false := by
      cases p with
      | nil => simp at hp
      | cons a l =>
        simp only [List.head?_cons, Option.some.injEq] at hp
        subst hp
        by_contra hcon
        rw [Bool.not_eq_false] at hcon
        have hac := leadsWith_head hcon
        rw [hac, hs c (by simp)] at hd
        exact absurd hd (by simp)
    simp only [containsSub, h1, Bool.false_or]
    exact ih fun x hx => hs x (by simp [hx])

/-! ### Lemmas about pyStrip, chainOps and opSubEnd -/

theorem dropWhile_concat_ne (x : List Char) {b : Char} (hb : isWS b = false) :
    ∃ z, (x ++ [b]).dropWhile isWS = z ++ [b] := by
  induction x with
  | nil =>
    refine ⟨[], ?_⟩
    rw [List.nil_append, List.dropWhile_cons_of_neg (by simp [hb])]
  | cons c x ih =>
    by_cases hc : isWS c = true
    · obtain ⟨z, hz⟩ := ih
      exact ⟨z, by rw [List.cons_append, List.dropWhile_cons_of_pos hc, hz]⟩
    · exact ⟨c :: x, by rw [List.cons_append, List.dropWhile_cons_of_neg hc]⟩

theorem pyStrip_concat (x : List Char) {b : Char} (hb : isWS b = false) :
    ∃ z, pyStrip (x ++ [b]) = z ++ [b] := by
  obtain ⟨z, hz⟩ := dropWhile_concat_ne x hb
  exact ⟨z, by rw [pyStrip, hz, List.rdropWhile_concat_neg _ _ _ (by simp [hb])]⟩

theorem rdropWhile_ws_append (x w : List Char) (hw : ∀ c ∈ w, isWS c = true) :
    (x ++ w).rdropWhile isWS = x.rdropWhile isWS := by
  induction w using List.reverseRecOn with
  | nil => rw [List.append_nil]
  | append_singleton w a ih =>
    rw [← List.append_assoc, List.rdropWhile_concat_pos _ _ _ (hw a (by simp))]
    exact ih fun c hc => hw c (by simp [hc])

theorem pyStrip_ws_append (x w : List Char) (hw : ∀ c ∈ w, isWS c = true) :
    pyStrip (x ++ w) = pyStrip x := by
  rw [pyStrip, pyStrip, List.dropWhile_append]
  by_cases hx : (x.dropWhile isWS).isEmpty = true
  · rw [if_pos hx]
    rw [List.isEmpty_iff] at hx
    rw [hx, List.rdropWhile_nil]
    have : w.dropWhile isWS = [] := by
      rw [List.dropWhile_eq_nil_iff]
      exact fun c hc => hw c hc
    rw [this, List.rdropWhile_nil]
  · rw [if_neg hx]
    exact rdropWhile_ws_append _ w hw

theorem chainOps_last : ∀ s, chainOps s = true → s ≠ [] → s.getLast? = some ' ' := by
  intro s
  induction s using chainOps.induct with
  | case1 => intro _ h; exact absurd rfl h
  | case2 rest ih =>
    intro hc _
    rw [chainOps] at hc
    show ((" AND ").data ++ rest).getLast? = some ' '
    cases hr : rest with
    | nil => rfl
    | cons a l =>
      rw [List.getLast?_append_of_ne_nil _ (by simp)]
      rw [hr] at ih hc
      exact ih hc (by simp)
  | case3 rest ih =>
    intro hc _
    rw [chainOps] at hc
    show ((" OR ").data ++ rest).getLast? = some ' '
    cases hr : rest with
    | nil => rfl
    | cons a l =>
      rw [List.getLast?_append_of_ne_nil _ (by simp)]
      rw [hr] at ih hc
      exact ih hc (by simp)
  | case4 t h1 h2 h3 =>
    intro hc _
    rw [chainOps.eq_def] at hc
    split at hc
    · exact (h1 rfl).elim
    · next rest heq => exact (h2 rest rfl).elim
    · next rest heq => exact (h3 rest rfl).elim
    · exact absurd hc (by simp)

theorem opSubEnd_eq_self : ∀ (s : List Char) (b : Char), s.getLast? = some b →
    b ≠ ' ' → opSubEnd s = s := by
  intro s
  induction s with
  | nil => intro b hb _; simp at hb
  | cons c rest ih =>
    intro b hb hbne
    have hchain : chainOps (c :: rest) = false := by
      by_contra hc
      rw [Bool.not_eq_false] at hc
      have := chainOps_last (c :: rest) hc (by simp)
      rw [hb] at this
      exact hbne (Option.some.inj this)
    rw [opSubEnd, if_neg (by simp [hchain])]
    cases rest with
    | nil => rfl
    | cons a l =>
      rw [List.getLast?_cons_cons] at hb
      rw [ih b hb hbne]

/-- C4 key fact: because clean_boolean_query strips before applying its
trailing-operator regex, and the regex can only match a suffix ending in a
space, clean_boolean_query coincides with strip on every input. -/
theorem clean_boolean_query_eq_pyStrip (q : List Char) :
    clean_boolean_query q = pyStrip q := by
  rw [clean_boolean_query]
  cases hs : pyStrip q with
  | nil => rfl
  | cons c rest =>
    have hne : pyStrip q ≠ [] := by rw [hs]; simp
    have hlast : ∃ b, (pyStrip q).getLast? = some b ∧ isWS b = false := by
      refine ⟨(pyStrip q).getLast hne, List.getLast?_eq_getLast _ hne, ?_⟩
      have := List.rdropWhile_last_not isWS (q.dropWhile isWS) (by rw [← pyStrip]; exact hne)
      simpa [pyStrip] using this
    obtain ⟨b, hb1, hb2⟩ := hlast
    rw [← hs]
    exact opSubEnd_eq_self (pyStrip q) b hb1 (by intro h; subst h; simp [isWS] at hb2)

theorem endsWith_AND_concat {z : List Char} {b : Char}
    (h : endsWith (("AND").data) (z ++ [b]) = true) : b = 'D' := by
  have heq : ("AND").data = ("AN").data ++ ['D'] := rfl
  rw [heq] at h
  exact (endsWith_concat_eq h).symm

theorem endsWith_OR_concat {z : List Char} {b : Char}
    (h : endsWith (("OR").data) (z ++ [b]) = true) : b = 'R' := by
  have heq : ("OR").data = ("O").data ++ ['R'] := rfl
  rw [heq] at h
  exact (endsWith_concat_eq h).symm

theorem endsInOp_concat_false (z : List Char) {b : Char} (hb : isWS b = false)
    (hD : b ≠ 'D') (hR : b ≠ 'R') : endsInOp (z ++ [b]) = false := by
  obtain ⟨z', hz'⟩ := pyStrip_concat z hb
  rw [endsInOp, hz']
  have hA : endsWith (("AND").data) (z' ++ [b]) = false := by
    by_contra hc
    rw [Bool.not_eq_false] at hc
    exact hD (endsWith_AND_concat hc)
  have hO : endsWith (("OR").data) (z' ++ [b]) = false := by
    by_contra hc
    rw [Bool.not_eq_false] at hc
    exact hR (endsWith_OR_concat hc)
  rw [hA, hO]
  rfl

theorem endsInOp_strip_nil {s : List Char} (h : pyStrip s = []) :
    endsInOp s = false := by
  rw [endsInOp, h]
  rfl

/-! ### Lemmas about the pattern matchers -/

theorem matchLit_iff (lit : List Char) : ∀ s r, matchLit lit s = some r ↔ s = lit ++ r := by
  induction lit with
  | nil =>
    intro s r
    simp only [matchLit, Option.some.injEq, List.nil_append]
  | cons a lit ih =>
    intro s r
    cases s with
    | nil => simp [matchLit]
    | cons b s' =>
      rw [matchLit]
      by_cases hab : a = b
      · subst hab
        rw [if_pos rfl, ih]
        simp
      · rw [if_neg hab]
        simp only [List.cons_append, List.cons.injEq]
        constructor
        · intro h; exact absurd h (by simp)
        · rintro ⟨h1, _⟩; exact absurd h1.symm hab

theorem matchLit_append (lit r : List Char) : matchLit lit (lit ++ r) = some r :=
  (matchLit_iff lit (lit ++ r) r).mpr rfl

theorem matchLit_ne_head {a b : Char} (l s : List Char) (h : a ≠ b) :
    matchLit (a :: l) (b :: s) = none := by
  rw [matchLit, if_neg h]

theorem takeDigits_spec : ∀ s : List Char, s = (takeDigits s).1 ++ (takeDigits s).2 ∧
    (∀ c ∈ (takeDigits s).1, c.isDigit = true) ∧ headIsDigit (takeDigits s).2 = false := by
  intro s
  induction s with
  | nil => exact ⟨rfl, by simp [takeDigits], rfl⟩
  | cons c rest ih =>
    by_cases hc : c.isDigit = true
    · rw [takeDigits, if_pos hc]
      exact ⟨by rw [List.cons_append, ← ih.1], by
        intro x hx
        simp only [List.mem_cons] at hx
        rcases hx with rfl | hx
        · exact hc
        · exact ih.2.1 x hx, ih.2.2⟩
    · rw [takeDigits, if_neg hc]
      refine ⟨rfl, by simp, ?_⟩
      simpa [headIsDigit] using hc

theorem takeDigits_of : ∀ d r : List Char, (∀ c ∈ d, c.isDigit = true) →
    headIsDigit r = false → takeDigits (d ++ r) = (d, r) := by
  intro d
  induction d with
  | nil =>
    intro r _ hr
    cases r with
    | nil => rfl
    | cons c rest =>
      simp only [headIsDigit] at hr
      rw [List.nil_append, takeDigits, if_neg (by simp [hr])]
  | cons a d ih =>
    intro r hd hr
    rw [List.cons_append, takeDigits, if_pos (hd a (by simp)), ih r
      (fun c hc => hd c (by simp [hc])) hr]

theorem matchDigits_of (d r : List Char) (hd : ∀ c ∈ d, c.isDigit = true)
    (hne : d ≠ []) (hr : headIsDigit r = false) : matchDigits (d ++ r) = some (d, r) := by
  rw [matchDigits, takeDigits_of d r hd hr]
  simp [hne]

theorem matchDigits_spec {s d r : List Char} (h : matchDigits s = some (d, r)) :
    s = d ++ r ∧ d ≠ [] ∧ (∀ c ∈ d, c.isDigit = true) ∧ headIsDigit r = false := by
  rw [matchDigits] at h
  by_cases he : (takeDigits s).1.isEmpty = true
  · rw [if_pos he] at h
    exact absurd h (by simp)
  · rw [if_neg he] at h
    obtain ⟨h1, h2⟩ : (takeDigits s).1 = d ∧ (takeDigits s).2 = r := by
      constructor <;> injection h with h3 <;> [skip; skip] <;> first
        | exact congrArg Prod.fst h3 | exact congrArg Prod.snd h3
    obtain ⟨hs, hdig, hhd⟩ := takeDigits_spec s
    rw [h1] at hs hdig
    rw [h2] at hs hhd
    refine ⟨hs, ?_, hdig, hhd⟩
    intro hcon
    rw [h1, hcon] at he
    exact he rfl

theorem matchYearRange_of (d1 d2 r : List Char) (h1 : ∀ c ∈ d1, c.isDigit = true)
    (h1n : d1 ≠ []) (h2 : ∀ c ∈ d2, c.isDigit = true) (h2n : d2 ≠ [])
    (hr : headIsDigit r = false) :
    matchYearRange (("PUBYEAR AFT ").data ++
      (d1 ++ ((" AND PUBYEAR BEF ").data ++ (d2 ++ r)))) = some (d1, d2, r) := by
  have s2 : matchDigits (d1 ++ ((" AND PUBYEAR BEF ").data ++ (d2 ++ r))) =
      some (d1, (" AND PUBYEAR BEF ").data ++ (d2 ++ r)) :=
    matchDigits_of _ _ h1 h1n rfl
  have s4 : matchDigits (d2 ++ r) = some (d2, r) := matchDigits_of _ _ h2 h2n hr
  simp only [matchYearRange, matchLit_append, s2, s4]

theorem matchYearRange_spec {s d1 d2 r : List Char}
    (h : matchYearRange s = some (d1, d2, r)) :
    s = ("PUBYEAR AFT ").data ++ (d1 ++ ((" AND PUBYEAR BEF ").data ++ (d2 ++ r))) ∧
    d1 ≠ [] ∧ d2 ≠ [] ∧ (∀ c ∈ d1, c.isDigit = true) ∧ (∀ c ∈ d2, c.isDigit = true) ∧
    headIsDigit r = false := by
  simp only [matchYearRange] at h
  cases hm1 : matchLit (("PUBYEAR AFT ").data) s with
  | none => simp only [hm1] at h; exact absurd h (by simp)
  | some s1 =>
    simp only [hm1] at h
    cases hm2 : matchDigits s1 with
    | none => simp only [hm2] at h; exact absurd h (by simp)
    | some out2 =>
      obtain ⟨e1, s2⟩ := out2
      simp only [hm2] at h
      cases hm3 : matchLit ((" AND PUBYEAR BEF ").data) s2 with
      | none => simp only [hm3] at h; exact absurd h (by simp)
      | some s3 =>
        simp only [hm3] at h
        cases hm4 : matchDigits s3 with
        | none => simp only [hm4] at h; exact absurd h (by simp)
        | some out4 =>
          obtain ⟨e2, s4⟩ := out4
          simp only [hm4] at h
          simp only [Option.some.injEq, Prod.mk.injEq] at h
          obtain ⟨hd1, hd2, hr4⟩ := h
          subst hd1; subst hd2; subst hr4
          obtain ⟨hs1, hne1, hdig1, hhd1⟩ := matchDigits_spec hm2
          obtain ⟨hs3, hne3, hdig3, hhd3⟩ := matchDigits_spec hm4
          rw [(matchLit_iff _ _ _).mp hm1, hs1, (matchLit_iff _ _ _).mp hm3, hs3]
          exact ⟨by simp [List.append_assoc], hne1, hne3, hdig1, hdig3, hhd3⟩

theorem matchYearAlt_spec {s : List Char} {n : Nat} {r : List Char}
    (h : matchYearAlt s = some (n, r)) :
    ∃ pre, s = pre ++ r ∧ pre.length = n ∧ 0 < n ∧ ∀ c ∈ pre, yearChar c = true := by
  simp only [matchYearAlt] at h
  cases hm1 : matchLit (("AFT ").data) s with
  | some s1 =>
    simp only [hm1] at h
    cases hd : matchDigits s1 with
    | none => simp only [hd] at h; exact absurd h (by simp)
    | some out =>
      obtain ⟨d, r'⟩ := out
      simp only [hd] at h
      simp only [Option.map_some', Option.some.injEq, Prod.mk.injEq] at h
      obtain ⟨hn, hr⟩ := h
      subst hn; subst hr
      obtain ⟨hs1, hne, hdig, _⟩ := matchDigits_spec hd
      refine ⟨("AFT ").data ++ d, ?_, by rw [List.length_append]; rfl, by simp, ?_⟩
      · rw [(matchLit_iff _ _ _).mp hm1, hs1, List.append_assoc]
      · intro c hc
        rw [List.mem_append] at hc
        rcases hc with hc | hc
        · have hall : ∀ x ∈ ("AFT ").data, yearChar x = true := by decide
          exact hall c hc
        · simp [yearChar, hdig c hc]
  | none =>
    simp only [hm1] at h
    cases hm2 : matchLit (("BEF ").data) s with
    | some s1 =>
      simp only [hm2] at h
      cases hd : matchDigits s1 with
      | none => simp only [hd] at h; exact absurd h (by simp)
      | some out =>
        obtain ⟨d, r'⟩ := out
        simp only [hd] at h
        simp only [Option.map_some', Option.some.injEq, Prod.mk.injEq] at h
        obtain ⟨hn, hr⟩ := h
        subst hn; subst hr
        obtain ⟨hs1, hne, hdig, _⟩ := matchDigits_spec hd
        refine ⟨("BEF ").data ++ d, ?_, by rw [List.length_append]; rfl, by simp, ?_⟩
        · rw [(matchLit_iff _ _ _).mp hm2, hs1, List.append_assoc]
        · intro c hc
          rw [List.mem_append] at hc
          rcases hc with hc | hc
          · have hall : ∀ x ∈ ("BEF ").data, yearChar x = true := by decide
            exact hall c hc
          · simp [yearChar, hdig c hc]
    | none =>
      simp only [hm2] at h
      cases hm3 : matchLit (("=").data) s with
      | none => simp only [hm3] at h; exact absurd h (by simp)
      | some s1 =>
        simp only [hm3] at h
        cases hd : matchDigits s1 with
        | none => simp only [hd] at h; exact absurd h (by simp)
        | some out =>
          obtain ⟨d, r'⟩ := out
          simp only [hd] at h
          simp only [Option.map_some', Option.some.injEq, Prod.mk.injEq] at h
          obtain ⟨hn, hr⟩ := h
          subst hn; subst hr
          obtain ⟨hs1, hne, hdig, _⟩ := matchDigits_spec hd
          refine ⟨("=").data ++ d, ?_, by rw [List.length_append]; rfl, by simp, ?_⟩
          · rw [(matchLit_iff _ _ _).mp hm3, hs1, List.append_assoc]
          · intro c hc
            rw [List.mem_append] at hc
            rcases hc with hc | hc
            · have hall : ∀ x ∈ ("=").data, yearChar x = true := by decide
              exact hall c hc
            · simp [yearChar, hdig c hc]

theorem matchYearClause_spec {p : Bool} {s : List Char} {k : Nat} {r : List Char}
    (h : matchYearClause p s = some (k, r)) :
    ∃ pre, s = pre ++ r ∧ pre.length = k ∧ 0 < k ∧ (∀ c ∈ pre, yearChar c = true) ∧
      leadsWith (("PUBYEAR").data) s = true ∧ p = false := by
  simp only [matchYearClause] at h
  by_cases hp : p
  · simp only [if_pos hp] at h; exact absurd h (by simp)
  · simp only [if_neg hp] at h
    cases hm1 : matchLit (("PUBYEAR ").data) s with
    | none => simp only [hm1] at h; exact absurd h (by simp)
    | some s1 =>
      simp only [hm1] at h
      have hs : s = ("PUBYEAR ").data ++ s1 := (matchLit_iff _ _ _).mp hm1
      have hlead : leadsWith (("PUBYEAR").data) s = true := by
        rw [leadsWith_iff]
        exact ⟨' ' :: s1, by rw [hs]; rfl⟩
      cases hm2 : matchYearAlt s1 with
      | none => simp only [hm2] at h; exact absurd h (by simp)
      | some out2 =>
        obtain ⟨n1, s2⟩ := out2
        simp only [hm2] at h
        obtain ⟨pre1, hpre1, hlen1, hpos1, hyear1⟩ := matchYearAlt_spec hm2
        cases hg : (matchLit ((" AND PUBYEAR ").data) s2).bind matchYearAlt with
        | some out3 =>
          obtain ⟨n2, s3⟩ := out3
          simp only [hg] at h
          obtain ⟨s2', hga, hgb⟩ := Option.bind_eq_some.mp hg
          obtain ⟨pre2, hpre2, hlen2, hpos2, hyear2⟩ := matchYearAlt_spec hgb
          by_cases hb3 : boundaryOk s3 = true
          · simp only [if_pos hb3] at h
            simp only [Option.some.injEq, Prod.mk.injEq] at h
            obtain ⟨hk, hr⟩ := h
            subst hk; subst hr
            refine ⟨("PUBYEAR ").data ++ pre1 ++ ((" AND PUBYEAR ").data ++ pre2),
              ?_, ?_, by omega, ?_, hlead, by simp [hp]⟩
            · rw [hs, hpre1, (matchLit_iff _ _ _).mp hga, hpre2]
              simp [List.append_assoc]
            · simp only [List.length_append, List.length_cons, List.length_nil,
                hlen1, hlen2]
              omega
            · intro c hc
              simp only [List.append_assoc, List.mem_append] at hc
              have hall1 : ∀ x ∈ ("PUBYEAR ").data, yearChar x = true := by decide
              have hall2 : ∀ x ∈ (" AND PUBYEAR ").data, yearChar x = true := by decide
              rcases hc with hc | hc | hc | hc
              · exact hall1 c hc
              · exact hyear1 c hc
              · exact hall2 c hc
              · exact hyear2 c hc
          · simp only [if_neg hb3] at h
            by_cases hb2 : boundaryOk s2 = true
            · simp only [if_pos hb2] at h
              simp only [Option.some.injEq, Prod.mk.injEq] at h
              obtain ⟨hk, hr⟩ := h
              subst hk; subst hr
              refine ⟨("PUBYEAR ").data ++ pre1, ?_, ?_, by omega, ?_, hlead,
                by simp [hp]⟩
              · rw [hs, hpre1, List.append_assoc]
              · simp only [List.length_append, List.length_cons, List.length_nil,
                  hlen1]
              · intro c hc
                rw [List.mem_append] at hc
                have hall1 : ∀ x ∈ ("PUBYEAR ").data, yearChar x = true := by decide
                rcases hc with hc | hc
                · exact hall1 c hc
                · exact hyear1 c hc
            · simp only [if_neg hb2] at h
              exact absurd h (by simp)
        | none =>
          simp only [hg] at h
          by_cases hb2 : boundaryOk s2 = true
          · simp only [if_pos hb2] at h
            simp only [Option.some.injEq, Prod.mk.injEq] at h
            obtain ⟨hk, hr⟩ := h
            subst hk; subst hr
            refine ⟨("PUBYEAR ").data ++ pre1, ?_, ?_, by omega, ?_, hlead,
              by simp [hp]⟩
            · rw [hs, hpre1, List.append_assoc]
            · simp only [List.length_append, List.length_cons, List.length_nil,
                hlen1]
            · intro c hc
              rw [List.mem_append] at hc
              have hall1 : ∀ x ∈ ("PUBYEAR ").data, yearChar x = true := by decide
              rcases hc with hc | hc
              · exact hall1 c hc
              · exact hyear1 c hc
          · simp only [if_neg hb2] at h
            exact absurd h (by simp)

/-! ### Step and region lemmas for the scanners -/

theorem replaceAllAux_skip (pat rep : List Char) :
    ∀ (s : List Char) (k : Nat),
    replaceAllAux pat rep k s = replaceAllAux pat rep 0 (s.drop k) := by
  intro s
  induction s with
  | nil => intro k; cases k <;> rfl
  | cons c rest ih =>
    intro k
    cases k with
    | zero => rfl
    | succ k => rw [replaceAllAux, ih k, List.drop_succ_cons]

theorem removeYearAux_skip :
    ∀ (s : List Char) (k : Nat),
    removeYearAux k true s = removeYearAux 0 true (s.drop k) := by
  intro s
  induction s with
  | nil => intro k; cases k <;> rfl
  | cons c rest ih =>
    intro k
    cases k with
    | zero => rfl
    | succ k => rw [removeYearAux, ih k, List.drop_succ_cons]

theorem subAllYearRange_skip (rep : List Char) :
    ∀ (s : List Char) (k : Nat),
    subAllYearRange rep k s = subAllYearRange rep 0 (s.drop k) := by
  intro s
  induction s with
  | nil => intro k; cases k <;> rfl
  | cons c rest ih =>
    intro k
    cases k with
    | zero => rfl
    | succ k => rw [subAllYearRange, ih k, List.drop_succ_cons]

theorem drop_pred_cons_eq {c : Char} {rest pre r : List Char} (h : c :: rest = pre ++ r)
    (hlen : 0 < pre.length) : rest.drop (pre.length - 1) = r := by
  have h1 : (c :: rest).drop pre.length = r := by rw [h]; exact List.drop_left _ _
  cases hp : pre.length with
  | zero => omega
  | succ n =>
    rw [hp, List.drop_succ_cons] at h1
    simpa using h1

theorem replaceAllAux_no {pat rep : List Char} {c : Char} {rest : List Char}
    (h : leadsWith pat (c :: rest) = false) :
    replaceAllAux pat rep 0 (c :: rest) = c :: replaceAllAux pat rep 0 rest := by
  rw [replaceAllAux, if_neg]
  simp [h]

theorem replaceAllAux_match (pat rep v : List Char) (hne : pat ≠ []) :
    replaceAllAux pat rep 0 (pat ++ v) = rep ++ replaceAllAux pat rep 0 v := by
  cases pat with
  | nil => exact absurd rfl hne
  | cons a pat' =>
    rw [List.cons_append, replaceAllAux, if_pos]
    · rw [replaceAllAux_skip,
        @drop_pred_cons_eq a (pat' ++ v) (a :: pat') v (by rw [List.cons_append])
          (by simp)]
    · refine ⟨by simp, ?_⟩
      have := leadsWith_append (a :: pat') v
      simpa using this

theorem removeYearAux_no {p : Bool} {c : Char} {rest : List Char}
    (h : matchYearClause p (c :: rest) = none) :
    removeYearAux 0 p (c :: rest) = c :: removeYearAux 0 (wordChar c) rest := by
  simp only [removeYearAux, h]

theorem removeYearAux_match {p : Bool} {c : Char} {rest : List Char} {k : Nat}
    {r : List Char} (h : matchYearClause p (c :: rest) = some (k, r)) :
    removeYearAux 0 p (c :: rest) = removeYearAux 0 true r := by
  obtain ⟨pre, hpre, hlen, hpos, _⟩ := matchYearClause_spec h
  simp only [removeYearAux, h]
  rw [removeYearAux_skip]
  congr 1
  rw [← hlen]
  exact drop_pred_cons_eq hpre (by omega)

theorem subAllYearRange_no {rep : List Char} {c : Char} {rest : List Char}
    (h : matchYearRange (c :: rest) = none) :
    subAllYearRange rep 0 (c :: rest) = c :: subAllYearRange rep 0 rest := by
  simp only [subAllYearRange, h]

theorem subAllYearRange_match {rep : List Char} {c : Char} {rest d1 d2 r : List Char}
    (h : matchYearRange (c :: rest) = some (d1, d2, r)) :
    subAllYearRange rep 0 (c :: rest) = rep ++ subAllYearRange rep 0 r := by
  obtain ⟨hs, _, _, _, _, _⟩ := matchYearRange_spec h
  simp only [subAllYearRange, h]
  rw [subAllYearRange_skip]
  congr 2
  have hpre : c :: rest =
      (("PUBYEAR AFT ").data ++ d1 ++ ((" AND PUBYEAR BEF ").data ++ d2)) ++ r := by
    rw [hs]; simp [List.append_assoc]
  have hplen : (("PUBYEAR AFT ").data ++ d1 ++
      ((" AND PUBYEAR BEF ").data ++ d2)).length = 12 + d1.length + 17 + d2.length := by
    simp only [List.length_append, List.length_cons, List.length_nil]
    omega
  rw [← hplen]
  exact drop_pred_cons_eq hpre (by rw [hplen]; omega)

theorem searchYearRange_no {c : Char} {rest : List Char}
    (h : matchYearRange (c :: rest) = none) :
    searchYearRange (c :: rest) = searchYearRange rest := by
  simp only [searchYearRange, h]

theorem searchYearRange_some {c : Char} {rest d1 d2 r : List Char}
    (h : matchYearRange (c :: rest) = some (d1, d2, r)) :
    searchYearRange (c :: rest) = some (d1, d2) := by
  simp only [searchYearRange, h]

theorem leadsWith_take_aug {pat : List Char} {c : Char} {u v : List Char}
    (h : leadsWith pat (c :: (u ++ v)) = true) :
    leadsWith pat ((c :: u) ++ v.take (pat.length - 1)) = true := by
  obtain ⟨t, ht⟩ := (leadsWith_iff _ _).mp h
  have hn : pat = ((c :: u) ++ v).take pat.length := by
    have h2 : (c :: u) ++ v = pat ++ t := by simpa using ht
    rw [h2, List.take_left]
  have htake : ((c :: u) ++ v.take (pat.length - 1)).take pat.length =
      ((c :: u) ++ v).take pat.length := by
    rw [List.take_append_eq_append_take, List.take_append_eq_append_take,
      List.take_take]
    congr 2
    simp only [List.length_cons]
    omega
  rw [leadsWith_iff]
  refine ⟨((c :: u) ++ v.take (pat.length - 1)).drop pat.length, ?_⟩
  conv_lhs => rw [← List.take_append_drop pat.length ((c :: u) ++ v.take (pat.length - 1))]
  rw [htake, ← hn]

theorem prevW_cons (p : Bool) (c : Char) (u : List Char) :
    prevW p (c :: u) = prevW (wordChar c) u := by
  cases hu : u with
  | nil => rfl
  | cons a l =>
    rw [prevW, prevW, List.getLast?_cons_cons,
      List.getLast?_eq_getLast (a :: l) (by simp)]

theorem replaceAll_region (pat rep : List Char) :
    ∀ (u v : List Char), containsSub pat (u ++ v.take (pat.length - 1)) = false →
    replaceAllAux pat rep 0 (u ++ v) = u ++ replaceAllAux pat rep 0 v := by
  intro u
  induction u with
  | nil => intro v _; rfl
  | cons c u ih =>
    intro v hno
    have hl : leadsWith pat (c :: (u ++ v)) = false := by
      by_contra hc
      rw [Bool.not_eq_false] at hc
      have h3 : containsSub pat ((c :: u) ++ v.take (pat.length - 1)) = true :=
        containsSub_of_leadsWith (leadsWith_take_aug hc)
      rw [h3] at hno
      exact absurd hno (by simp)
    have hno2 : containsSub pat (u ++ v.take (pat.length - 1)) = false := by
      by_contra hcc
      rw [Bool.not_eq_false] at hcc
      have h4 := containsSub_cons_tail (c := c) hcc
      rw [List.cons_append] at hno
      rw [h4] at hno
      exact absurd hno (by simp)
    calc replaceAllAux pat rep 0 ((c :: u) ++ v)
        = c :: replaceAllAux pat rep 0 (u ++ v) := replaceAllAux_no hl
      _ = c :: (u ++ replaceAllAux pat rep 0 v) := by rw [ih v hno2]
      _ = (c :: u) ++ replaceAllAux pat rep 0 v := rfl

theorem replaceAll_id (pat rep s : List Char) (h : containsSub pat s = false) :
    replaceAllAux pat rep 0 s = s := by
  have h0 := replaceAll_region pat rep s [] (by simpa using h)
  rw [List.append_nil] at h0
  rw [h0, show replaceAllAux pat rep 0 [] = [] from rfl, List.append_nil]

theorem pubyear_data_split :
    ("PUBYEAR AFT ").data = ("PUBYEAR").data ++ (" AFT ").data := rfl

theorem pubyear_len_pred : (("PUBYEAR").data).length - 1 = 6 := rfl

theorem no_PUBYEAR_head {c : Char} {u v : List Char}
    (hno : containsSub (("PUBYEAR").data) ((c :: u) ++ v.take 6) = false)
    (h : leadsWith (("PUBYEAR").data) (c :: (u ++ v)) = true) : False := by
  have h2 := leadsWith_take_aug h
  rw [pubyear_len_pred] at h2
  have h4 := containsSub_of_leadsWith h2
  rw [h4] at hno
  exact absurd hno (by simp)

theorem matchYearRange_leadsWith {s d1 d2 r : List Char}
    (h : matchYearRange s = some (d1, d2, r)) :
    leadsWith (("PUBYEAR").data) s = true := by
  obtain ⟨hs, _⟩ := matchYearRange_spec h
  rw [leadsWith_iff]
  refine ⟨(" AFT ").data ++ (d1 ++ ((" AND PUBYEAR BEF ").data ++ (d2 ++ r))), ?_⟩
  rw [hs, pubyear_data_split, List.append_assoc]

theorem removeYearAux_region : ∀ (u : List Char) (p : Bool) (v : List Char),
    containsSub (("PUBYEAR").data) (u ++ v.take 6) = false →
    removeYearAux 0 p (u ++ v) = u ++ removeYearAux 0 (prevW p u) v := by
  intro u
  induction u with
  | nil => intro p v _; rfl
  | cons c u ih =>
    intro p v hno
    have hno2 : containsSub (("PUBYEAR").data) (u ++ v.take 6) = false := by
      by_contra hcc
      rw [Bool.not_eq_false] at hcc
      have h4 := containsSub_cons_tail (c := c) hcc
      rw [List.cons_append] at hno
      rw [h4] at hno
      exact absurd hno (by simp)
    have hm : matchYearClause p (c :: (u ++ v)) = none := by
      cases hmc : matchYearClause p (c :: (u ++ v)) with
      | none => rfl
      | some out =>
        obtain ⟨k, r⟩ := out
        obtain ⟨pre, _, _, _, _, hlead, _⟩ := matchYearClause_spec hmc
        exact (no_PUBYEAR_head hno hlead).elim
    calc removeYearAux 0 p ((c :: u) ++ v)
        = c :: removeYearAux 0 (wordChar c) (u ++ v) := removeYearAux_no hm
      _ = c :: (u ++ removeYearAux 0 (prevW (wordChar c) u) v) := by
          rw [ih (wordChar c) v hno2]
      _ = (c :: u) ++ removeYearAux 0 (prevW p (c :: u)) v := by rw [prevW_cons]; rfl

theorem removeYearAux_id (p : Bool) (s : List Char)
    (h : containsSub (("PUBYEAR").data) s = false) : removeYearAux 0 p s = s := by
  have h0 := removeYearAux_region s p [] (by simpa using h)
  rw [List.append_nil] at h0
  rw [h0, show ∀ b, removeYearAux 0 b [] = [] from fun b => rfl, List.append_nil]

theorem searchYearRange_region : ∀ (u v : List Char),
    containsSub (("PUBYEAR").data) (u ++ v.take 6) = false →
    searchYearRange (u ++ v) = searchYearRange v := by
  intro u
  induction u with
  | nil => intro v _; rfl
  | cons c u ih =>
    intro v hno
    have hno2 : containsSub (("PUBYEAR").data) (u ++ v.take 6) = false := by
      by_contra hcc
      rw [Bool.not_eq_false] at hcc
      have h4 := containsSub_cons_tail (c := c) hcc
      rw [List.cons_append] at hno
      rw [h4] at hno
      exact absurd hno (by simp)
    have hm : matchYearRange (c :: (u ++ v)) = none := by
      cases hmc : matchYearRange (c :: (u ++ v)) with
      | none => rfl
      | some out =>
        obtain ⟨d1, d2, r⟩ := out
        exact (no_PUBYEAR_head hno (matchYearRange_leadsWith hmc)).elim
    calc searchYearRange ((c :: u) ++ v)
        = searchYearRange (u ++ v) := searchYearRange_no hm
      _ = searchYearRange v := ih v hno2

theorem searchYearRange_none (s : List Char)
    (h : containsSub (("PUBYEAR").data) s = false) : searchYearRange s = none := by
  have h0 := searchYearRange_region s [] (by simpa using h)
  simpa [searchYearRange] using h0

theorem subAllYearRange_region (rep : List Char) : ∀ (u v : List Char),
    containsSub (("PUBYEAR").data) (u ++ v.take 6) = false →
    subAllYearRange rep 0 (u ++ v) = u ++ subAllYearRange rep 0 v := by
  intro u
  induction u with
  | nil => intro v _; rfl
  | cons c u ih =>
    intro v hno
    have hno2 : containsSub (("PUBYEAR").data) (u ++ v.take 6) = false := by
      by_contra hcc
      rw [Bool.not_eq_false] at hcc
      have h4 := containsSub_cons_tail (c := c) hcc
      rw [List.cons_append] at hno
      rw [h4] at hno
      exact absurd hno (by simp)
    have hm : matchYearRange (c :: (u ++ v)) = none := by
      cases hmc : matchYearRange (c :: (u ++ v)) with
      | none => rfl
      | some out =>
        obtain ⟨d1, d2, r⟩ := out
        exact (no_PUBYEAR_head hno (matchYearRange_leadsWith hmc)).elim
    calc subAllYearRange rep 0 ((c :: u) ++ v)
        = c :: subAllYearRange rep 0 (u ++ v) := subAllYearRange_no hm
      _ = c :: (u ++ subAllYearRange rep 0 v) := by rw [ih v hno2]
      _ = (c :: u) ++ subAllYearRange rep 0 v := rfl

theorem subAllYearRange_id (rep s : List Char)
    (h : containsSub (("PUBYEAR").data) s = false) : subAllYearRange rep 0 s = s := by
  have h0 := subAllYearRange_region rep s [] (by simpa using h)
  rw [List.append_nil] at h0
  rw [h0, show subAllYearRange rep 0 [] = [] from rfl, List.append_nil]

/-! ### Further string toolkit -/

theorem leadsWith_ne_head {a b : Char} (l s : List Char) (h : a ≠ b) :
    leadsWith (a :: l) (b :: s) = false := by
  rw [leadsWith]
  simp [h]

theorem containsSub_mem {p s : List Char} (h : containsSub p s = true) :
    ∀ c ∈ p, c ∈ s := by
  induction s with
  | nil =>
    rw [containsSub, List.isEmpty_iff] at h
    subst h
    intro c hc
    exact absurd hc (by simp)
  | cons a rest ih =>
    rw [containsSub, Bool.or_eq_true] at h
    intro c hc
    rcases h with h | h
    · obtain ⟨t, ht⟩ := (leadsWith_iff _ _).mp h
      rw [ht]
      exact List.mem_append_left _ hc
    · exact List.mem_cons_of_mem a (ih h c hc)

theorem containsSub_weaken {p q s : List Char} (hpq : containsSub p q = true)
    (h : containsSub p s = false) : containsSub q s = false := by
  by_contra hc
  rw [Bool.not_eq_false] at hc
  rw [containsSub_trans hpq hc] at h
  exact absurd h (by simp)

theorem no_digit_mem {c : Char} (hc : c.isDigit = true) {lit : List Char}
    (hall : ∀ x ∈ lit, x.isDigit = false) : c ∉ lit := by
  intro hm
  rw [hall c hm] at hc
  exact absurd hc (by simp)

theorem ne_of_digit {c b : Char} (h : c.isDigit = true) (hb : b.isDigit = false) :
    c ≠ b := by
  intro he
  rw [he] at h
  rw [h] at hb
  exact absurd hb (by simp)

theorem isWS_of_digit {c : Char} (h : c.isDigit = true) : isWS c = false := by
  by_contra hc
  rw [Bool.not_eq_false] at hc
  simp only [isWS, Bool.or_eq_true, decide_eq_true_eq] at hc
  rcases hc with ((((rfl | rfl) | rfl) | rfl) | rfl) | rfl <;> exact absurd h (by decide)

theorem endsWith_last_mem {w x d : List Char} (h : endsWith w (x ++ d) = true)
    (hw : w ≠ []) (hd : d ≠ []) : ∃ b, b ∈ w ∧ b ∈ d := by
  obtain ⟨t, ht⟩ := (endsWith_iff _ _).mp h
  refine ⟨d.getLast hd, ?_, List.getLast_mem hd⟩
  have h1 : (x ++ d).getLast? = some (d.getLast hd) := by
    rw [List.getLast?_append_of_ne_nil x hd, List.getLast?_eq_getLast d hd]
  rw [ht, List.getLast?_append_of_ne_nil t hw, List.getLast?_eq_getLast w hw] at h1
  simp only [Option.some.injEq] at h1
  rw [← h1]
  exact List.getLast_mem hw

theorem containsSub_sep {p x d y : List Char} (hp : p ≠ []) (hd : d ≠ [])
    (hdp : ∀ c ∈ d, c ∉ p) (hx : containsSub p x = false)
    (hy : containsSub p y = false) : containsSub p (x ++ (d ++ y)) = false := by
  by_contra hc
  rw [Bool.not_eq_false] at hc
  have hassoc : x ++ (d ++ y) = (x ++ d) ++ y := by rw [List.append_assoc]
  rw [hassoc] at hc
  rcases containsSub_append_split hc with h1 | h1 | ⟨k, hk1, hk2, hk3, hk4⟩
  · rcases containsSub_append_split h1 with h2 | h2 | ⟨k, hk1, hk2, hk3, hk4⟩
    · rw [h2] at hx; exact absurd hx (by simp)
    · obtain ⟨c, ct, hct⟩ : ∃ c ct, p = c :: ct := by
        cases p with
        | nil => exact absurd rfl hp
        | cons c ct => exact ⟨c, ct, rfl⟩
      have hcp : c ∈ p := by rw [hct]; simp
      exact hdp c (containsSub_mem h2 c hcp) hcp
    · have hdrop : p.drop k ≠ [] := by
        intro hnil
        rw [List.drop_eq_nil_iff] at hnil
        omega
      obtain ⟨c, ct, hct⟩ : ∃ c ct, p.drop k = c :: ct := by
        cases hcase : p.drop k with
        | nil => exact absurd hcase hdrop
        | cons c ct => exact ⟨c, ct, rfl⟩
      obtain ⟨c2, ct2, hct2⟩ : ∃ c2 ct2, d = c2 :: ct2 := by
        cases d with
        | nil => exact absurd rfl hd
        | cons c2 ct2 => exact ⟨c2, ct2, rfl⟩
      rw [hct, hct2] at hk4
      have hcc := leadsWith_head hk4
      have hcmem : c ∈ p := by
        have : c ∈ p.drop k := by rw [hct]; simp
        exact List.drop_subset k p this
      subst hcc
      exact hdp c (by rw [hct2]; simp) hcmem
  · rw [h1] at hy; exact absurd hy (by simp)
  · have htk : p.take k ≠ [] := by
      intro hnil
      rw [List.take_eq_nil_iff] at hnil
      rcases hnil with h | h
      · omega
      · exact hp h
    obtain ⟨b, hb1, hb2⟩ := endsWith_last_mem hk3 htk hd
    exact hdp b hb2 (List.take_subset k p hb1)

theorem containsSub_sep2 {p x d : List Char} (hp : p ≠ []) (hd : d ≠ [])
    (hdp : ∀ c ∈ d, c ∉ p) (hx : containsSub p x = false) :
    containsSub p (x ++ d) = false := by
  have h := containsSub_sep hp hd hdp hx
    (show containsSub p [] = false by
      cases p with
      | nil => exact absurd rfl hp
      | cons c ct => rfl)
  rw [List.append_nil] at h
  exact h

theorem dropWhile_head_not {s : List Char} {c : Char} {t : List Char}
    (h : s.dropWhile isWS = c :: t) : isWS c = false := by
  induction s with
  | nil => exact absurd h (by simp)
  | cons a s ih =>
    by_cases ha : isWS a = true
    · rw [List.dropWhile_cons_of_pos ha] at h
      exact ih h
    · rw [List.dropWhile_cons_of_neg ha] at h
      injection h with h1 _
      subst h1
      simpa using ha

theorem pyStrip_idem (s : List Char) : pyStrip (pyStrip s) = pyStrip s := by
  have hd : (pyStrip s).dropWhile isWS = pyStrip s := by
    cases hy : pyStrip s with
    | nil => rfl
    | cons c t =>
      obtain ⟨t2, ht2⟩ := List.rdropWhile_prefix isWS (s.dropWhile isWS)
      have hy2 : pyStrip s ++ t2 = s.dropWhile isWS := ht2
      rw [hy] at hy2
      have hc : isWS c = false :=
        dropWhile_head_not (show s.dropWhile isWS = c :: (t ++ t2) by
          rw [← hy2]; rfl)
      rw [List.dropWhile_cons_of_neg (by simp [hc])]
  show ((pyStrip s).dropWhile isWS).rdropWhile isWS = pyStrip s
  rw [hd]
  show ((s.dropWhile isWS).rdropWhile isWS).rdropWhile isWS = pyStrip s
  rw [List.rdropWhile_idempotent]
  rfl

theorem containsSub_strip_mono {p s : List Char} (h : containsSub p (pyStrip s) = true) :
    containsSub p s = true := by
  obtain ⟨t2, ht2⟩ := List.rdropWhile_prefix isWS (s.dropWhile isWS)
  have h2 : containsSub p (s.dropWhile isWS) = true := by
    rw [← ht2]
    exact containsSub_append_left _ h
  rw [← List.takeWhile_append_dropWhile isWS s]
  exact containsSub_append_right _ h2

theorem containsSub_strip_not {p s : List Char} (h : containsSub p s = false) :
    containsSub p (pyStrip s) = false := by
  by_contra hc
  rw [Bool.not_eq_false] at hc
  rw [containsSub_strip_mono hc] at h
  exact absurd h (by simp)

theorem pyStrip_cons_concat {c : Char} (m : List Char) {b : Char} (hc : isWS c = false)
    (hb : isWS b = false) : pyStrip (c :: (m ++ [b])) = c :: (m ++ [b]) := by
  rw [pyStrip, List.dropWhile_cons_of_neg (by simp [hc])]
  show ((c :: m) ++ [b]).rdropWhile isWS = c :: (m ++ [b])
  rw [List.rdropWhile_concat_neg isWS (c :: m) b (by simp [hb])]
  rfl

theorem endsInOp_of_strip_concat {s z : List Char} {b : Char}
    (h : pyStrip s = z ++ [b]) (hD : b ≠ 'D') (hR : b ≠ 'R') :
    endsInOp s = false := by
  rw [endsInOp, h]
  have hA : endsWith (("AND").data) (z ++ [b]) = false := by
    by_contra hc
    rw [Bool.not_eq_false] at hc
    exact hD (endsWith_AND_concat hc)
  have hO : endsWith (("OR").data) (z ++ [b]) = false := by
    by_contra hc
    rw [Bool.not_eq_false] at hc
    exact hR (endsWith_OR_concat hc)
  rw [hA, hO]
  rfl

/-! ### Digit rendering and matcher evaluation lemmas -/

theorem when_clause_eq (s e : Nat) :
    when_clause (some (s, e)) = yearClauseOf (natDigits s) (natDigits e) := rfl

theorem digitChar_isDigit {d : Nat} (h : d < 10) : (digitChar d).isDigit = true := by
  interval_cases d <;> decide

theorem natDigitsAux_facts : ∀ (fuel n : Nat), n < fuel →
    natDigitsAux fuel n ≠ [] ∧ ∀ c ∈ natDigitsAux fuel n, c.isDigit = true := by
  intro fuel
  induction fuel with
  | zero => intro n h; omega
  | succ fuel ih =>
    intro n h
    rw [natDigitsAux]
    by_cases h10 : n < 10
    · rw [if_pos h10]
      refine ⟨by simp, ?_⟩
      intro c hc
      simp only [List.mem_singleton] at hc
      subst hc
      exact digitChar_isDigit h10
    · rw [if_neg h10]
      have hlt : n / 10 < fuel := by omega
      obtain ⟨h1, h2⟩ := ih (n / 10) hlt
      refine ⟨by simp, ?_⟩
      intro c hc
      rw [List.mem_append] at hc
      rcases hc with hc | hc
      · exact h2 c hc
      · simp only [List.mem_singleton] at hc
        subst hc
        exact digitChar_isDigit (by omega)

theorem natDigits_ne_nil (n : Nat) : natDigits n ≠ [] :=
  (natDigitsAux_facts (n + 1) n (by omega)).1

theorem natDigits_digits (n : Nat) : ∀ c ∈ natDigits n, c.isDigit = true :=
  (natDigitsAux_facts (n + 1) n (by omega)).2

theorem matchYearClause_prevWord (s : List Char) : matchYearClause true s = none := by
  rw [matchYearClause, if_pos rfl]

theorem matchYearClause_ne_head {c : Char} (p : Bool) (s : List Char) (hc : c ≠ 'P') :
    matchYearClause p (c :: s) = none := by
  cases p with
  | true => exact matchYearClause_prevWord _
  | false =>
    rw [matchYearClause, if_neg (by simp)]
    simp only [show ("PUBYEAR ").data = 'P' :: ("UBYEAR ").data from rfl,
      matchLit_ne_head _ _ (show ('P' : Char) ≠ c from fun h => hc h.symm)]

theorem matchYearRange_ne_head {c : Char} (s : List Char) (hc : c ≠ 'P') :
    matchYearRange (c :: s) = none := by
  rw [matchYearRange]
  simp only [show ("PUBYEAR AFT ").data = 'P' :: ("UBYEAR AFT ").data from rfl,
    matchLit_ne_head _ _ (show ('P' : Char) ≠ c from fun h => hc h.symm)]

theorem matchYearClause_head_not_year {z : Char} {p : Bool} {v : List Char}
    (hz : yearChar z = false) : matchYearClause p (z :: v) = none := by
  cases hm : matchYearClause p (z :: v) with
  | none => rfl
  | some out =>
    obtain ⟨k, r⟩ := out
    obtain ⟨pre, hpre, hlen, hpos, hyear, _, _⟩ := matchYearClause_spec hm
    cases pre with
    | nil =>
      rw [List.length_nil] at hlen
      exact absurd hpos (by omega)
    | cons a pre1 =>
      rw [List.cons_append] at hpre
      injection hpre with h1 _
      have hy := hyear a (by simp)
      rw [← h1] at hy
      rw [hy] at hz
      exact absurd hz (by simp)

theorem matchYearRange_head_not_year {z : Char} {v : List Char}
    (hz : yearChar z = false) : matchYearRange (z :: v) = none := by
  cases hm : matchYearRange (z :: v) with
  | none => rfl
  | some out =>
    obtain ⟨d1, d2, r⟩ := out
    obtain ⟨hs, _⟩ := matchYearRange_spec hm
    rw [show ("PUBYEAR AFT ").data = 'P' :: ("UBYEAR AFT ").data from rfl,
      List.cons_append] at hs
    injection hs with h1 _
    rw [h1] at hz
    exact absurd hz (by decide)

theorem matchYearRange_clause (ds de r : List Char) (h1 : ∀ c ∈ ds, c.isDigit = true)
    (h1n : ds ≠ []) (h2 : ∀ c ∈ de, c.isDigit = true) (h2n : de ≠ [])
    (hr : headIsDigit r = false) :
    matchYearRange (yearClauseOf ds de ++ r) = some (ds, de, r) := by
  have h := matchYearRange_of ds de r h1 h1n h2 h2n hr
  rw [show ("PUBYEAR AFT ").data ++ (ds ++ ((" AND PUBYEAR BEF ").data ++ (de ++ r))) =
    yearClauseOf ds de ++ r by rw [yearClauseOf]; simp [List.append_assoc]] at h
  exact h

theorem yearClauseOf_cons (ds de : List Char) :
    yearClauseOf ds de =
      'P' :: (("UBYEAR AFT ").data ++ ds ++ (" AND PUBYEAR BEF ").data ++ de) := by
  rw [yearClauseOf]
  rfl

theorem matchDigits_nil_right {d : List Char} (hd : ∀ c ∈ d, c.isDigit = true)
    (hn : d ≠ []) : matchDigits d = some (d, []) := by
  conv_lhs => rw [← List.append_nil d]
  exact matchDigits_of d [] hd hn rfl

theorem matchYearAlt_AFT (ds r : List Char) (h1 : ∀ c ∈ ds, c.isDigit = true)
    (h1n : ds ≠ []) (hr : headIsDigit r = false) :
    matchYearAlt (("AFT ").data ++ (ds ++ r)) = some (4 + ds.length, r) := by
  rw [matchYearAlt]
  simp only [matchLit_append, matchDigits_of ds r h1 h1n hr, Option.map_some']

theorem matchYearAlt_BEF (de : List Char) (h2 : ∀ c ∈ de, c.isDigit = true)
    (h2n : de ≠ []) : matchYearAlt (("BEF ").data ++ de) = some (4 + de.length, []) := by
  have f1 : matchLit (("AFT ").data) (("BEF ").data ++ de) = none := by
    rw [show ("AFT ").data = 'A' :: ("FT ").data from rfl,
      show ("BEF ").data ++ de = 'B' :: (("EF ").data ++ de) from rfl]
    exact matchLit_ne_head _ _ (by decide)
  have f2 : matchDigits de = some (de, []) := matchDigits_nil_right h2 h2n
  rw [matchYearAlt]
  simp only [f1, matchLit_append, f2, Option.map_some']

theorem matchYearClause_clause (ds de : List Char) (h1 : ∀ c ∈ ds, c.isDigit = true)
    (h1n : ds ≠ []) (h2 : ∀ c ∈ de, c.isDigit = true) (h2n : de ≠ []) :
    matchYearClause false (yearClauseOf ds de) =
      some (8 + (4 + ds.length) + 13 + (4 + de.length), []) := by
  have e1 : matchLit (("PUBYEAR ").data) (yearClauseOf ds de) =
      some (("AFT ").data ++ (ds ++ ((" AND PUBYEAR ").data ++ (("BEF ").data ++ de)))) := by
    rw [matchLit_iff, yearClauseOf]
    simp [List.append_assoc]
  have e2 := matchYearAlt_AFT ds ((" AND PUBYEAR ").data ++ (("BEF ").data ++ de))
    h1 h1n rfl
  have e3 := matchYearAlt_BEF de h2 h2n
  rw [matchYearClause, if_neg (by simp)]
  simp only [e1, e2, matchLit_append, Option.some_bind, e3]
  exact if_pos rfl

theorem matchYearClause_half1 (ds de : List Char) (h1 : ∀ c ∈ ds, c.isDigit = true)
    (h1n : ds ≠ []) :
    matchYearClause false
        (("PUBYEAR AFT ").data ++ ds ++ (' ' :: (("PUBYEAR BEF ").data ++ de))) =
      some (8 + (4 + ds.length), ' ' :: (("PUBYEAR BEF ").data ++ de)) := by
  have e1 : matchLit (("PUBYEAR ").data)
      (("PUBYEAR AFT ").data ++ ds ++ (' ' :: (("PUBYEAR BEF ").data ++ de))) =
      some (("AFT ").data ++ (ds ++ (' ' :: (("PUBYEAR BEF ").data ++ de)))) := by
    rw [matchLit_iff]
    simp [List.append_assoc]
  have e2 := matchYearAlt_AFT ds (' ' :: (("PUBYEAR BEF ").data ++ de)) h1 h1n rfl
  have e3 : matchLit ((" AND PUBYEAR ").data)
      (' ' :: (("PUBYEAR BEF ").data ++ de)) = none := by
    rw [show (" AND PUBYEAR ").data = ' ' :: ("AND PUBYEAR ").data from rfl, matchLit,
      if_pos rfl]
    rw [show ("AND PUBYEAR ").data = 'A' :: ("ND PUBYEAR ").data from rfl,
      show ("PUBYEAR BEF ").data ++ de = 'P' :: (("UBYEAR BEF ").data ++ de) from rfl]
    exact matchLit_ne_head _ _ (by decide)
  rw [matchYearClause, if_neg (by simp)]
  simp only [e1, e2, e3, Option.none_bind]
  exact if_pos rfl

theorem matchYearClause_half2 (de : List Char) (h2 : ∀ c ∈ de, c.isDigit = true)
    (h2n : de ≠ []) :
    matchYearClause false (("PUBYEAR BEF ").data ++ de) =
      some (8 + (4 + de.length), []) := by
  have e1 : matchLit (("PUBYEAR ").data) (("PUBYEAR BEF ").data ++ de) =
      some (("BEF ").data ++ de) := by
    rw [matchLit_iff]
    simp [List.append_assoc]
  have e2 := matchYearAlt_BEF de h2 h2n
  have e3 : matchLit ((" AND PUBYEAR ").data) ([] : List Char) = none := rfl
  rw [matchYearClause, if_neg (by simp)]
  simp only [e1, e2, e3, Option.none_bind]
  exact if_pos rfl

/-! ### Scanner evaluations on the year tail of a built query -/

theorem removeYear_sp_clause (p : Bool) (ds de : List Char)
    (h1 : ∀ c ∈ ds, c.isDigit = true) (h1n : ds ≠ [])
    (h2 : ∀ c ∈ de, c.isDigit = true) (h2n : de ≠ []) :
    removeYearAux 0 p (' ' :: yearClauseOf ds de) = [' '] := by
  rw [removeYearAux_no (matchYearClause_ne_head p _ (by decide))]
  have hm : matchYearClause (wordChar ' ') (yearClauseOf ds de) =
      some (8 + (4 + ds.length) + 13 + (4 + de.length), []) := by
    rw [show wordChar ' ' = false from rfl]
    exact matchYearClause_clause ds de h1 h1n h2 h2n
  rw [yearClauseOf_cons] at hm ⊢
  rw [removeYearAux_match hm]
  rfl

theorem removeYear_sp_replaced (p : Bool) (ds de : List Char)
    (h1 : ∀ c ∈ ds, c.isDigit = true) (h1n : ds ≠ [])
    (h2 : ∀ c ∈ de, c.isDigit = true) (h2n : de ≠ []) :
    removeYearAux 0 p
        (' ' :: (("PUBYEAR AFT ").data ++ ds ++ (' ' :: (("PUBYEAR BEF ").data ++ de)))) =
      [' ', ' '] := by
  rw [removeYearAux_no (matchYearClause_ne_head p _ (by decide))]
  have hm1 : matchYearClause (wordChar ' ')
      (("PUBYEAR AFT ").data ++ ds ++ (' ' :: (("PUBYEAR BEF ").data ++ de))) =
      some (8 + (4 + ds.length), ' ' :: (("PUBYEAR BEF ").data ++ de)) := by
    rw [show wordChar ' ' = false from rfl]
    exact matchYearClause_half1 ds de h1 h1n
  rw [show ("PUBYEAR AFT ").data ++ ds ++ (' ' :: (("PUBYEAR BEF ").data ++ de)) =
    'P' :: (("UBYEAR AFT ").data ++ ds ++ (' ' :: (("PUBYEAR BEF ").data ++ de)))
    from rfl] at hm1 ⊢
  rw [removeYearAux_match hm1]
  rw [removeYearAux_no (matchYearClause_prevWord _)]
  have hm2 : matchYearClause (wordChar ' ') (("PUBYEAR BEF ").data ++ de) =
      some (8 + (4 + de.length), []) := by
    rw [show wordChar ' ' = false from rfl]
    exact matchYearClause_half2 de h2 h2n
  rw [show ("PUBYEAR BEF ").data ++ de = 'P' :: (("UBYEAR BEF ").data ++ de)
    from rfl] at hm2 ⊢
  rw [removeYearAux_match hm2]
  rfl

theorem subAll_sp_clause (rep ds de : List Char)
    (h1 : ∀ c ∈ ds, c.isDigit = true) (h1n : ds ≠ [])
    (h2 : ∀ c ∈ de, c.isDigit = true) (h2n : de ≠ []) :
    subAllYearRange rep 0 (' ' :: yearClauseOf ds de) = ' ' :: rep := by
  rw [subAllYearRange_no (matchYearRange_ne_head _ (by decide))]
  have hm : matchYearRange (yearClauseOf ds de) = some (ds, de, []) := by
    have h := matchYearRange_clause ds de [] h1 h1n h2 h2n rfl
    rwa [List.append_nil] at h
  rw [yearClauseOf_cons] at hm ⊢
  rw [subAllYearRange_match hm]
  rw [show subAllYearRange rep 0 [] = [] from rfl, List.append_nil]

theorem search_sp_clause (ds de : List Char)
    (h1 : ∀ c ∈ ds, c.isDigit = true) (h1n : ds ≠ [])
    (h2 : ∀ c ∈ de, c.isDigit = true) (h2n : de ≠ []) :
    searchYearRange (' ' :: yearClauseOf ds de) = some (ds, de) := by
  rw [searchYearRange_no (matchYearRange_ne_head _ (by decide))]
  have hm : matchYearRange (yearClauseOf ds de) = some (ds, de, []) := by
    have h := matchYearRange_clause ds de [] h1 h1n h2 h2n rfl
    rwa [List.append_nil] at h
  rw [yearClauseOf_cons] at hm ⊢
  exact searchYearRange_some hm

theorem replaceAND_sp_clause (ds de : List Char)
    (h1 : ∀ c ∈ ds, c.isDigit = true) (h1n : ds ≠ [])
    (h2 : ∀ c ∈ de, c.isDigit = true) (h2n : de ≠ []) :
    replaceAllAux ((" AND ").data) [' '] 0 (' ' :: yearClauseOf ds de) =
      ' ' :: (("PUBYEAR AFT ").data ++ ds ++ (' ' :: (("PUBYEAR BEF ").data ++ de))) := by
  have hsplit : ' ' :: yearClauseOf ds de =
      (' ' :: (("PUBYEAR AFT ").data ++ ds)) ++ ((" AND PUBYEAR BEF ").data ++ de) := by
    rw [yearClauseOf]
    simp [List.append_assoc]
  have hno : containsSub ((" AND ").data)
      ((' ' :: (("PUBYEAR AFT ").data ++ ds)) ++
        ((" AND PUBYEAR BEF ").data ++ de).take (((" AND ").data).length - 1)) = false := by
    rw [show ((" AND ").data).length - 1 = 4 from rfl,
      List.take_append_of_le_length (by decide),
      show ((" AND PUBYEAR BEF ").data).take 4 = (" AND").data from rfl]
    have h0 : containsSub ((" AND ").data)
        ((' ' :: ("PUBYEAR AFT ").data) ++ (ds ++ (" AND").data)) = false :=
      containsSub_sep (by decide) h1n
        (fun c hc => no_digit_mem (h1 c hc) (by decide)) (by decide) (by decide)
    rw [show (' ' :: ("PUBYEAR AFT ").data) ++ (ds ++ (" AND").data) =
      (' ' :: (("PUBYEAR AFT ").data ++ ds)) ++ (" AND").data by simp] at h0
    exact h0
  rw [hsplit, replaceAll_region ((" AND ").data) [' ']
    (' ' :: (("PUBYEAR AFT ").data ++ ds)) ((" AND PUBYEAR BEF ").data ++ de) hno]
  have hmatch : replaceAllAux ((" AND ").data) [' '] 0 ((" AND PUBYEAR BEF ").data ++ de) =
      [' '] ++ replaceAllAux ((" AND ").data) [' '] 0 (("PUBYEAR BEF ").data ++ de) := by
    rw [show (" AND PUBYEAR BEF ").data ++ de =
      (" AND ").data ++ (("PUBYEAR BEF ").data ++ de) from rfl]
    exact replaceAllAux_match _ _ _ (by decide)
  rw [hmatch]
  have hno2 : containsSub ((" AND ").data)
      ((("PUBYEAR BEF ").data) ++ de.take (((" AND ").data).length - 1)) = false := by
    rw [show ((" AND ").data).length - 1 = 4 from rfl]
    have hdne : de.take 4 ≠ [] := by
      rw [Ne, List.take_eq_nil_iff]
      push_neg
      exact ⟨by omega, h2n⟩
    exact containsSub_sep2 (by decide) hdne
      (fun c hc => no_digit_mem (h2 c (List.take_subset 4 de hc)) (by decide)) (by decide)
  rw [replaceAll_region ((" AND ").data) [' '] (("PUBYEAR BEF ").data) de hno2]
  rw [replaceAll_id _ _ de (containsSub_all_digits h2
    (show (((" AND ").data).head?) = some ' ' from rfl) (by decide))]
  simp [List.append_assoc]

theorem replaceOR_sp_id (ds de : List Char)
    (h1 : ∀ c ∈ ds, c.isDigit = true) (h1n : ds ≠ [])
    (h2 : ∀ c ∈ de, c.isDigit = true) (h2n : de ≠ []) :
    replaceAllAux ((" OR ").data) [' '] 0
        (' ' :: (("PUBYEAR AFT ").data ++ ds ++ (' ' :: (("PUBYEAR BEF ").data ++ de)))) =
      ' ' :: (("PUBYEAR AFT ").data ++ ds ++ (' ' :: (("PUBYEAR BEF ").data ++ de))) := by
  apply replaceAll_id
  have h1b : containsSub ((" OR ").data) ((' ' :: ("PUBYEAR BEF ").data) ++ de) = false :=
    containsSub_sep2 (by decide) h2n
      (fun c hc => no_digit_mem (h2 c hc) (by decide)) (by decide)
  rw [show (' ' :: ("PUBYEAR BEF ").data) ++ de =
    ' ' :: (("PUBYEAR BEF ").data ++ de) by simp] at h1b
  have h0 : containsSub ((" OR ").data)
      ((' ' :: ("PUBYEAR AFT ").data) ++
        (ds ++ (' ' :: (("PUBYEAR BEF ").data ++ de)))) = false :=
    containsSub_sep (by decide) h1n
      (fun c hc => no_digit_mem (h1 c hc) (by decide)) (by decide) h1b
  rw [show (' ' :: ("PUBYEAR AFT ").data) ++ (ds ++ (' ' :: (("PUBYEAR BEF ").data ++ de))) =
    ' ' :: (("PUBYEAR AFT ").data ++ ds ++ (' ' :: (("PUBYEAR BEF ").data ++ de)))
    by simp] at h0
  exact h0

/-! ### Survival of the last closing parenthesis under the scanners -/

theorem match_pre_split {z : Char} {pre r u v : List Char}
    (h : pre ++ r = u ++ z :: v) (hp : z ∉ pre) :
    ∃ u2, u = pre ++ u2 ∧ r = u2 ++ z :: v := by
  rcases List.append_eq_append_iff.mp h with ⟨a, ha1, ha2⟩ | ⟨c, hc1, hc2⟩
  · exact ⟨a, ha1, ha2⟩
  · cases c with
    | nil =>
      rw [List.append_nil] at hc1
      rw [List.nil_append] at hc2
      refine ⟨[], ?_, ?_⟩
      · rw [List.append_nil]
        exact hc1.symm
      · rw [List.nil_append]
        exact hc2.symm
    | cons x c2 =>
      rw [List.cons_append] at hc2
      injection hc2 with h1 _
      exact absurd (show z ∈ pre by rw [hc1, ← h1]; simp) hp

theorem replaceAll_surv {z : Char} (pat rep : List Char) (hne : pat ≠ [])
    (hz : z ∉ pat) :
    ∀ (n : Nat) (u v : List Char), u.length ≤ n →
    ∃ u2, replaceAllAux pat rep 0 (u ++ z :: v) =
      u2 ++ z :: replaceAllAux pat rep 0 v := by
  have hlz : ∀ v : List Char, leadsWith pat (z :: v) = false := by
    intro v
    cases pat with
    | nil => exact absurd rfl hne
    | cons a l =>
      by_contra hc
      rw [Bool.not_eq_false] at hc
      have ha := leadsWith_head hc
      exact hz (by rw [ha]; simp)
  intro n
  induction n with
  | zero =>
    intro u v hlen
    have hu : u = [] := by
      cases u with
      | nil => rfl
      | cons c u1 => simp at hlen
    subst hu
    exact ⟨[], by rw [List.nil_append, replaceAllAux_no (hlz v)]; rfl⟩
  | succ n ih =>
    intro u v hlen
    cases u with
    | nil =>
      exact ⟨[], by rw [List.nil_append, replaceAllAux_no (hlz v)]; rfl⟩
    | cons c u1 =>
      by_cases hm : leadsWith pat ((c :: u1) ++ z :: v) = true
      · obtain ⟨t, ht⟩ := (leadsWith_iff _ _).mp hm
        obtain ⟨u2, hu2, ht2⟩ := match_pre_split ht.symm hz
        have hlen2 : u2.length ≤ n := by
          have hl2 := congrArg List.length hu2
          simp only [List.length_cons, List.length_append] at hl2
          have hp : 0 < pat.length := List.length_pos.mpr hne
          simp only [List.length_cons] at hlen
          omega
        obtain ⟨u3, hu3⟩ := ih u2 v hlen2
        refine ⟨rep ++ u3, ?_⟩
        calc replaceAllAux pat rep 0 ((c :: u1) ++ z :: v)
            = replaceAllAux pat rep 0 (pat ++ (u2 ++ z :: v)) := by
              rw [show (c :: u1) ++ z :: v = pat ++ (u2 ++ z :: v) by
                rw [hu2, List.append_assoc]]
          _ = rep ++ replaceAllAux pat rep 0 (u2 ++ z :: v) :=
              replaceAllAux_match pat rep _ hne
          _ = rep ++ (u3 ++ z :: replaceAllAux pat rep 0 v) := by rw [hu3]
          _ = (rep ++ u3) ++ z :: replaceAllAux pat rep 0 v := by
              rw [List.append_assoc]
      · have hm2 : leadsWith pat (c :: (u1 ++ z :: v)) = false := by
          simpa using hm
        obtain ⟨u3, hu3⟩ := ih u1 v (by simp only [List.length_cons] at hlen; omega)
        refine ⟨c :: u3, ?_⟩
        calc replaceAllAux pat rep 0 ((c :: u1) ++ z :: v)
            = c :: replaceAllAux pat rep 0 (u1 ++ z :: v) := replaceAllAux_no hm2
          _ = c :: (u3 ++ z :: replaceAllAux pat rep 0 v) := by rw [hu3]
          _ = (c :: u3) ++ z :: replaceAllAux pat rep 0 v := rfl

theorem removeYearAux_surv {z : Char} (hz : yearChar z = false) :
    ∀ (n : Nat) (u : List Char) (p : Bool) (v : List Char), u.length ≤ n →
    ∃ u2, removeYearAux 0 p (u ++ z :: v) =
      u2 ++ z :: removeYearAux 0 (wordChar z) v := by
  intro n
  induction n with
  | zero =>
    intro u p v hlen
    have hu : u = [] := by
      cases u with
      | nil => rfl
      | cons c u1 => simp at hlen
    subst hu
    exact ⟨[], by
      rw [List.nil_append, removeYearAux_no (matchYearClause_head_not_year hz)]; rfl⟩
  | succ n ih =>
    intro u p v hlen
    cases u with
    | nil =>
      exact ⟨[], by
        rw [List.nil_append, removeYearAux_no (matchYearClause_head_not_year hz)]; rfl⟩
    | cons c u1 =>
      cases hm : matchYearClause p ((c :: u1) ++ z :: v) with
      | some out =>
        obtain ⟨k, r⟩ := out
        obtain ⟨pre, hpre, hlenp, hpos, hyear, _, _⟩ := matchYearClause_spec hm
        have hzpre : z ∉ pre := by
          intro hmem
          rw [hyear z hmem] at hz
          exact absurd hz (by simp)
        obtain ⟨u2, hu2, hr⟩ := match_pre_split hpre.symm hzpre
        have hlen2 : u2.length ≤ n := by
          have hl2 := congrArg List.length hu2
          simp only [List.length_cons, List.length_append] at hl2
          simp only [List.length_cons] at hlen
          omega
        obtain ⟨u3, hu3⟩ := ih u2 true v hlen2
        refine ⟨u3, ?_⟩
        have hm2 : matchYearClause p (c :: (u1 ++ z :: v)) = some (k, r) := hm
        have hstep : removeYearAux 0 p ((c :: u1) ++ z :: v) = removeYearAux 0 true r :=
          removeYearAux_match hm2
        rw [hstep, hr]
        exact hu3
      | none =>
        have hm2 : matchYearClause p (c :: (u1 ++ z :: v)) = none := hm
        obtain ⟨u3, hu3⟩ := ih u1 (wordChar c) v
          (by simp only [List.length_cons] at hlen; omega)
        refine ⟨c :: u3, ?_⟩
        calc removeYearAux 0 p ((c :: u1) ++ z :: v)
            = c :: removeYearAux 0 (wordChar c) (u1 ++ z :: v) := removeYearAux_no hm2
          _ = c :: (u3 ++ z :: removeYearAux 0 (wordChar z) v) := by rw [hu3]
          _ = (c :: u3) ++ z :: removeYearAux 0 (wordChar z) v := rfl

theorem subAllYearRange_surv {z : Char} (rep : List Char) (hz : yearChar z = false) :
    ∀ (n : Nat) (u v : List Char), u.length ≤ n →
    ∃ u2, subAllYearRange rep 0 (u ++ z :: v) =
      u2 ++ z :: subAllYearRange rep 0 v := by
  intro n
  induction n with
  | zero =>
    intro u v hlen
    have hu : u = [] := by
      cases u with
      | nil => rfl
      | cons c u1 => simp at hlen
    subst hu
    exact ⟨[], by
      rw [List.nil_append, subAllYearRange_no (matchYearRange_head_not_year hz)]; rfl⟩
  | succ n ih =>
    intro u v hlen
    cases u with
    | nil =>
      exact ⟨[], by
        rw [List.nil_append, subAllYearRange_no (matchYearRange_head_not_year hz)]; rfl⟩
    | cons c u1 =>
      cases hm : matchYearRange ((c :: u1) ++ z :: v) with
      | some out =>
        obtain ⟨d1, d2, r⟩ := out
        obtain ⟨hs, hn1, hn2, hd1, hd2, _⟩ := matchYearRange_spec hm
        have hpre : (("PUBYEAR AFT ").data ++ d1 ++
            ((" AND PUBYEAR BEF ").data ++ d2)) ++ r = (c :: u1) ++ z :: v := by
          rw [hs]
          simp [List.append_assoc]
        have hzpre : z ∉ ("PUBYEAR AFT ").data ++ d1 ++
            ((" AND PUBYEAR BEF ").data ++ d2) := by
          intro hmem
          simp only [List.mem_append] at hmem
          have hyz : yearChar z = true := by
            rcases hmem with (hm1 | hm1) | hm1 | hm1
            · have hall : ∀ x ∈ ("PUBYEAR AFT ").data, yearChar x = true := by decide
              exact hall z hm1
            · simp [yearChar, hd1 z hm1]
            · have hall : ∀ x ∈ (" AND PUBYEAR BEF ").data, yearChar x = true := by
                decide
              exact hall z hm1
            · simp [yearChar, hd2 z hm1]
          rw [hyz] at hz
          exact absurd hz (by simp)
        obtain ⟨u2, hu2, hr⟩ := match_pre_split hpre hzpre
        have hlen2 : u2.length ≤ n := by
          have hl2 := congrArg List.length hu2
          simp only [List.length_cons, List.length_append, List.length_nil] at hl2
          simp only [List.length_cons] at hlen
          omega
        obtain ⟨u3, hu3⟩ := ih u2 v hlen2
        refine ⟨rep ++ u3, ?_⟩
        have hm2 : matchYearRange (c :: (u1 ++ z :: v)) = some (d1, d2, r) := hm
        calc subAllYearRange rep 0 ((c :: u1) ++ z :: v)
            = rep ++ subAllYearRange rep 0 r := subAllYearRange_match hm2
          _ = rep ++ (u3 ++ z :: subAllYearRange rep 0 v) := by rw [hr, hu3]
          _ = (rep ++ u3) ++ z :: subAllYearRange rep 0 v := by rw [List.append_assoc]
      | none =>
        have hm2 : matchYearRange (c :: (u1 ++ z :: v)) = none := hm
        obtain ⟨u3, hu3⟩ := ih u1 v (by simp only [List.length_cons] at hlen; omega)
        refine ⟨c :: u3, ?_⟩
        calc subAllYearRange rep 0 ((c :: u1) ++ z :: v)
            = c :: subAllYearRange rep 0 (u1 ++ z :: v) := subAllYearRange_no hm2
          _ = c :: (u3 ++ z :: subAllYearRange rep 0 v) := by rw [hu3]
          _ = (c :: u3) ++ z :: subAllYearRange rep 0 v := rfl

/-! ### No pattern occurrence across the clause boundary of a built query -/

theorem sep_AND {P r : List Char} (hP : containsSub (("AND").data) P = false)
    (hr : containsSub ((" AND ").data) (' ' :: r) = false) :
    containsSub ((" AND ").data) (P ++ ' ' :: r) = false := by
  by_contra hc
  rw [Bool.not_eq_false] at hc
  rcases containsSub_append_split hc with h1 | h1 | ⟨k, hk1, hk2, hk3, hk4⟩
  · have hPA : containsSub ((" AND ").data) P = false :=
      containsSub_weaken (by decide) hP
    rw [h1] at hPA
    exact absurd hPA (by simp)
  · rw [h1] at hr
    exact absurd hr (by simp)
  · rw [show ((" AND ").data).length = 5 from rfl] at hk2
    interval_cases k
    · rw [show ((" AND ").data).drop 1 = 'A' :: ("ND ").data from rfl,
        leadsWith_ne_head _ _ (by decide)] at hk4
      exact absurd hk4 (by simp)
    · rw [show ((" AND ").data).drop 2 = 'N' :: ("D ").data from rfl,
        leadsWith_ne_head _ _ (by decide)] at hk4
      exact absurd hk4 (by simp)
    · rw [show ((" AND ").data).drop 3 = 'D' :: (" ").data from rfl,
        leadsWith_ne_head _ _ (by decide)] at hk4
      exact absurd hk4 (by simp)
    · rw [show ((" AND ").data).take 4 = (" AND").data from rfl] at hk3
      have h5 := containsSub_of_endsWith hk3
      have h6 := containsSub_trans
        (show containsSub (("AND").data) ((" AND").data) = true by decide) h5
      rw [h6] at hP
      exact absurd hP (by simp)

theorem sep_OR {P r : List Char} (hP : containsSub (("OR").data) P = false)
    (hr : containsSub ((" OR ").data) (' ' :: r) = false) :
    containsSub ((" OR ").data) (P ++ ' ' :: r) = false := by
  by_contra hc
  rw [Bool.not_eq_false] at hc
  rcases containsSub_append_split hc with h1 | h1 | ⟨k, hk1, hk2, hk3, hk4⟩
  · have hPA : containsSub ((" OR ").data) P = false :=
      containsSub_weaken (by decide) hP
    rw [h1] at hPA
    exact absurd hPA (by simp)
  · rw [h1] at hr
    exact absurd hr (by simp)
  · rw [show ((" OR ").data).length = 4 from rfl] at hk2
    interval_cases k
    · rw [show ((" OR ").data).drop 1 = 'O' :: ("R ").data from rfl,
        leadsWith_ne_head _ _ (by decide)] at hk4
      exact absurd hk4 (by simp)
    · rw [show ((" OR ").data).drop 2 = 'R' :: (" ").data from rfl,
        leadsWith_ne_head _ _ (by decide)] at hk4
      exact absurd hk4 (by simp)
    · rw [show ((" OR ").data).take 3 = (" OR").data from rfl] at hk3
      have h5 := containsSub_of_endsWith hk3
      have h6 := containsSub_trans
        (show containsSub (("OR").data) ((" OR").data) = true by decide) h5
      rw [h6] at hP
      exact absurd hP (by simp)

theorem sep_PUBYEAR {P r : List Char} (hP : containsSub (("PUBYEAR").data) P = false)
    (hr : containsSub (("PUBYEAR").data) (' ' :: r) = false) :
    containsSub (("PUBYEAR").data) (P ++ ' ' :: r) = false := by
  by_contra hc
  rw [Bool.not_eq_false] at hc
  rcases containsSub_append_split hc with h1 | h1 | ⟨k, hk1, hk2, hk3, hk4⟩
  · rw [h1] at hP
    exact absurd hP (by simp)
  · rw [h1] at hr
    exact absurd hr (by simp)
  · rw [show (("PUBYEAR").data).length = 7 from rfl] at hk2
    interval_cases k
    · rw [show (("PUBYEAR").data).drop 1 = 'U' :: ("BYEAR").data from rfl,
        leadsWith_ne_head _ _ (by decide)] at hk4
      exact absurd hk4 (by simp)
    · rw [show (("PUBYEAR").data).drop 2 = 'B' :: ("YEAR").data from rfl,
        leadsWith_ne_head _ _ (by decide)] at hk4
      exact absurd hk4 (by simp)
    · rw [show (("PUBYEAR").data).drop 3 = 'Y' :: ("EAR").data from rfl,
        leadsWith_ne_head _ _ (by decide)] at hk4
      exact absurd hk4 (by simp)
    · rw [show (("PUBYEAR").data).drop 4 = 'E' :: ("AR").data from rfl,
        leadsWith_ne_head _ _ (by decide)] at hk4
      exact absurd hk4 (by simp)
    · rw [show (("PUBYEAR").data).drop 5 = 'A' :: ("R").data from rfl,
        leadsWith_ne_head _ _ (by decide)] at hk4
      exact absurd hk4 (by simp)
    · rw [show (("PUBYEAR").data).drop 6 = 'R' :: ([] : List Char) from rfl,
        leadsWith_ne_head _ _ (by decide)] at hk4
      exact absurd hk4 (by simp)

theorem searchYearRange_spec {s d1 d2 : List Char}
    (h : searchYearRange s = some (d1, d2)) :
    d1 ≠ [] ∧ d2 ≠ [] ∧ (∀ c ∈ d1, c.isDigit = true) ∧ ∀ c ∈ d2, c.isDigit = true := by
  induction s with
  | nil =>
    rw [show searchYearRange ([] : List Char) = none from rfl] at h
    exact absurd h (by simp)
  | cons c rest ih =>
    cases hm : matchYearRange (c :: rest) with
    | some out =>
      obtain ⟨e1, e2, r⟩ := out
      rw [searchYearRange_some hm] at h
      simp only [Option.some.injEq, Prod.mk.injEq] at h
      obtain ⟨h1, h2⟩ := h
      subst h1
      subst h2
      obtain ⟨_, hn1, hn2, hd1, hd2, _⟩ := matchYearRange_spec hm
      exact ⟨hn1, hn2, hd1, hd2⟩
    | none =>
      rw [searchYearRange_no hm] at h
      exact ih h

/-! ### Shape of the combined clause built by build_search_query -/

theorem orClause_concat (ts : List (List Char)) (h : ts ≠ []) :
    orClause ts = ('(' :: List.intercalate ((" OR ").data) (format_terms ts)) ++ [')'] := by
  rw [orClause, if_neg (by simpa using h)]
  rfl

theorem combined_query_concat (w t : List (List Char)) :
    combined_query w t = [] ∨ ∃ y, combined_query w t = y ++ [')'] := by
  rw [combined_query]
  by_cases hw : w = []
  · by_cases ht : t = []
    · subst hw
      subst ht
      left
      rfl
    · subst hw
      right
      have hoc := orClause_concat t ht
      have hfe : (orClause t).isEmpty = false := by rw [hoc]; simp
      have hf : (([orClause ([] : List (List Char)), orClause t]).filter
          (fun c => !c.isEmpty)) = [orClause t] := by
        rw [show orClause ([] : List (List Char)) = [] from rfl,
          List.filter_cons, List.filter_cons]
        simp [hfe]
      rw [hf]
      refine ⟨'(' :: List.intercalate ((" OR ").data) (format_terms t), ?_⟩
      rw [show List.intercalate ((" AND ").data) [orClause t] = orClause t by
        simp [List.intercalate, List.intersperse]]
      exact hoc
  · have hocw := orClause_concat w hw
    have hfw : (orClause w).isEmpty = false := by rw [hocw]; simp
    by_cases ht : t = []
    · subst ht
      right
      have hf : (([orClause w, orClause ([] : List (List Char))]).filter
          (fun c => !c.isEmpty)) = [orClause w] := by
        rw [show orClause ([] : List (List Char)) = [] from rfl,
          List.filter_cons, List.filter_cons]
        simp [hfw]
      rw [hf]
      refine ⟨'(' :: List.intercalate ((" OR ").data) (format_terms w), ?_⟩
      rw [show List.intercalate ((" AND ").data) [orClause w] = orClause w by
        simp [List.intercalate, List.intersperse]]
      exact hocw
    · right
      have hoct := orClause_concat t ht
      have hft : (orClause t).isEmpty = false := by rw [hoct]; simp
      have hf : (([orClause w, orClause t]).filter (fun c => !c.isEmpty)) =
          [orClause w, orClause t] := by
        rw [List.filter_cons, List.filter_cons]
        simp [hfw, hft]
      rw [hf]
      refine ⟨orClause w ++ ((" AND ").data ++
        ('(' :: List.intercalate ((" OR ").data) (format_terms t))), ?_⟩
      rw [show List.intercalate ((" AND ").data) [orClause w, orClause t] =
        orClause w ++ ((" AND ").data ++ orClause t) by
        simp [List.intercalate, List.intersperse]]
      rw [hoct]
      simp [List.append_assoc]

/-! ### The three translation branches never end in a dangling operator -/

theorem wos_no_dangle (q db r : List Char) (hdb : pyLower db = ("wos").data)
    (h : convert_query_for_database q db = Except.ok r) : endsInOp r = false := by
  rw [convert_query_for_database] at h
  have hg : ¬ pyLower db = ("google_scholar").data := by
    rw [hdb]; decide
  rw [if_neg hg, if_pos hdb] at h
  simp only [clean_boolean_query_eq_pyStrip] at h
  obtain ⟨z1, hz1⟩ : ∃ z1, extract_term_query q = z1 ++ [')'] := by
    rw [extract_term_query, clean_boolean_query_eq_pyStrip]
    exact pyStrip_concat (("TS=(").data ++ remove_year_clause q)
      (show isWS ')' = false from rfl)
  have htq0e : (extract_term_query q).isEmpty = false := by rw [hz1]; simp
  obtain ⟨z2, hz2⟩ : ∃ z2, pyStrip (extract_term_query q) = z2 ++ [')'] := by
    rw [hz1]
    exact pyStrip_concat z1 (show isWS ')' = false from rfl)
  have hpse : (pyStrip (extract_term_query q)).isEmpty = false := by
    rw [hz2]; simp
  cases hy : extract_year_query_wos q with
  | none =>
    simp only [hy, htq0e, hpse, Bool.false_eq_true, if_false, Bool.not_false,
      List.isEmpty_nil, Bool.not_true, Bool.and_false, Bool.and_true, if_true,
      Except.ok.injEq] at h
    subst h
    obtain ⟨z3, hz3⟩ : ∃ z3, pyStrip (z2 ++ [')']) = z3 ++ [')'] :=
      pyStrip_concat z2 (show isWS ')' = false from rfl)
    exact endsInOp_of_strip_concat
      (show pyStrip (pyStrip (pyStrip (extract_term_query q))) = z3 ++ [')'] by
        rw [pyStrip_idem, hz2, hz3])
      (by decide) (by decide)
  | some y =>
    obtain ⟨d1, d2, hsr, hyv⟩ : ∃ d1 d2, searchYearRange q = some (d1, d2) ∧
        y = ("PY=").data ++ d1 ++ '-' :: d2 := by
      rw [extract_year_query_wos] at hy
      cases hsr : searchYearRange q with
      | none => rw [hsr] at hy; exact absurd hy (by simp)
      | some out =>
        obtain ⟨e1, e2⟩ := out
        rw [hsr] at hy
        simp only [Option.map_some', Option.some.injEq] at hy
        exact ⟨e1, e2, rfl, hy.symm⟩
    obtain ⟨hn1, hn2, hd1, hd2⟩ := searchYearRange_spec hsr
    obtain ⟨l, b, hl⟩ : ∃ l b, d2 = l ++ [b] := by
      rcases List.eq_nil_or_concat d2 with hcase | ⟨l, b, hcase⟩
      · exact absurd hcase hn2
      · exact ⟨l, b, by rw [hcase, List.concat_eq_append]⟩
    have hbdig : b.isDigit = true := hd2 b (by rw [hl]; simp)
    have hy2 : y = 'P' :: ((("Y=").data ++ d1 ++ '-' :: l) ++ [b]) := by
      rw [hyv, hl]
      simp [List.append_assoc]
    have hye : y.isEmpty = false := by rw [hy2]; simp
    have hpy : pyStrip y = y := by
      rw [hy2]
      exact pyStrip_cons_concat _ (by decide) (isWS_of_digit hbdig)
    have hpye : (pyStrip y).isEmpty = false := by rw [hpy, hy2]; simp
    simp only [hy, htq0e, hpse, hye, hpye, Bool.false_eq_true, if_false,
      Bool.not_false, Bool.and_self, if_true, Except.ok.injEq] at h
    subst h
    obtain ⟨z4, hz4⟩ : ∃ z4, pyStrip ((pyStrip (extract_term_query q) ++
        (" AND ").data ++ ('P' :: (("Y=").data ++ d1 ++ '-' :: l))) ++ [b]) =
        z4 ++ [b] :=
      pyStrip_concat _ (isWS_of_digit hbdig)
    exact endsInOp_of_strip_concat
      (show pyStrip (pyStrip (pyStrip (extract_term_query q) ++ (" AND ").data ++
          pyStrip y)) = z4 ++ [b] by
        rw [pyStrip_idem, hpy, hy2,
          show pyStrip (extract_term_query q) ++ (" AND ").data ++
            ('P' :: ((("Y=").data ++ d1 ++ '-' :: l) ++ [b])) =
            (pyStrip (extract_term_query q) ++ (" AND ").data ++
              ('P' :: (("Y=").data ++ d1 ++ '-' :: l))) ++ [b] by
            simp [List.append_assoc]]
        exact hz4)
      (ne_of_digit hbdig (by decide)) (ne_of_digit hbdig (by decide))

theorem scholar_tail_chain (zs T A B ws : List Char)
    (hA : replaceAllAux ((" AND ").data) [' '] 0 T = A)
    (hB : replaceAllAux ((" OR ").data) [' '] 0 A = B)
    (hC : removeYearAux 0 false B = ws)
    (hws : ∀ c ∈ ws, isWS c = true) :
    endsInOp (pyStrip (remove_year_clause (replaceAll ((" OR ").data) [' ']
      (replaceAll ((" AND ").data) [' '] (zs ++ ')' :: T))))) = false := by
  simp only [replaceAll]
  obtain ⟨u1, hu1⟩ := replaceAll_surv (z := ')') ((" AND ").data) [' ']
    (by decide) (by decide) zs.length zs T (le_refl _)
  rw [hu1, hA]
  obtain ⟨u2, hu2⟩ := replaceAll_surv (z := ')') ((" OR ").data) [' ']
    (by decide) (by decide) u1.length u1 A (le_refl _)
  rw [hu2, hB]
  rw [remove_year_clause]
  obtain ⟨u3, hu3⟩ := removeYearAux_surv (z := ')') (by decide)
    u2.length u2 false B (le_refl _)
  rw [hu3, show wordChar ')' = false from rfl, hC]
  rw [show u3 ++ ')' :: ws = (u3 ++ [')']) ++ ws by simp]
  rw [pyStrip_ws_append _ ws hws]
  obtain ⟨z2, hz2⟩ : ∃ z2, pyStrip (u3 ++ [')']) = z2 ++ [')'] :=
    pyStrip_concat u3 (by decide)
  rw [hz2]
  obtain ⟨z3, hz3⟩ : ∃ z3, pyStrip (z2 ++ [')']) = z3 ++ [')'] :=
    pyStrip_concat z2 (by decide)
  rw [hz3]
  exact endsInOp_concat_false z3 (by decide) (by decide) (by decide)

theorem scholar_no_dangle (w t : List (List Char)) (when : Option (Nat × Nat))
    (db r : List Char) (hdb : pyLower db = ("google_scholar").data)
    (h : convert_query_for_database (build_search_query w t when) db = Except.ok r) :
    endsInOp r = false := by
  rw [convert_query_for_database, if_pos hdb] at h
  simp only [Except.ok.injEq] at h
  subst h
  rw [build_search_query]
  rcases combined_query_concat w t with hc | ⟨y, hc⟩
  · rw [hc, show pyStrip ([] : List Char) = [] from rfl, List.nil_append]
    cases when with
    | none => decide
    | some se =>
      obtain ⟨s, e⟩ := se
      rw [when_clause_eq]
      simp only [replaceAll]
      rw [replaceAND_sp_clause (natDigits s) (natDigits e) (natDigits_digits s)
        (natDigits_ne_nil s) (natDigits_digits e) (natDigits_ne_nil e)]
      rw [replaceOR_sp_id (natDigits s) (natDigits e) (natDigits_digits s)
        (natDigits_ne_nil s) (natDigits_digits e) (natDigits_ne_nil e)]
      rw [remove_year_clause]
      rw [removeYear_sp_replaced false (natDigits s) (natDigits e) (natDigits_digits s)
        (natDigits_ne_nil s) (natDigits_digits e) (natDigits_ne_nil e)]
      decide
  · obtain ⟨zs, hzs⟩ : ∃ zs, pyStrip (combined_query w t) = zs ++ [')'] := by
      rw [hc]
      exact pyStrip_concat y (by decide)
    rw [hzs]
    cases when with
    | none =>
      rw [show (zs ++ [')']) ++ ' ' :: when_clause none = zs ++ ')' :: [' '] by
        simp [when_clause]]
      exact scholar_tail_chain zs [' '] [' '] [' '] [' ']
        (by decide) (by decide) (by decide) (by decide)
    | some se =>
      obtain ⟨s, e⟩ := se
      rw [when_clause_eq]
      rw [show (zs ++ [')']) ++ ' ' :: yearClauseOf (natDigits s) (natDigits e) =
        zs ++ ')' :: (' ' :: yearClauseOf (natDigits s) (natDigits e)) by simp]
      exact scholar_tail_chain zs (' ' :: yearClauseOf (natDigits s) (natDigits e))
        (' ' :: (("PUBYEAR AFT ").data ++ natDigits s ++
          (' ' :: (("PUBYEAR BEF ").data ++ natDigits e))))
        (' ' :: (("PUBYEAR AFT ").data ++ natDigits s ++
          (' ' :: (("PUBYEAR BEF ").data ++ natDigits e))))
        [' ', ' ']
        (replaceAND_sp_clause (natDigits s) (natDigits e) (natDigits_digits s)
          (natDigits_ne_nil s) (natDigits_digits e) (natDigits_ne_nil e))
        (replaceOR_sp_id (natDigits s) (natDigits e) (natDigits_digits s)
          (natDigits_ne_nil s) (natDigits_digits e) (natDigits_ne_nil e))
        (removeYear_sp_replaced false (natDigits s) (natDigits e) (natDigits_digits s)
          (natDigits_ne_nil s) (natDigits_digits e) (natDigits_ne_nil e))
        (by decide)

theorem scopus_no_dangle (w t : List (List Char)) (when : Option (Nat × Nat))
    (db r : List Char) (hdb : pyLower db = ("scopus").data)
    (h : convert_query_for_database (build_search_query w t when) db = Except.ok r) :
    endsInOp r = false := by
  rw [convert_query_for_database] at h
  have hg : ¬ pyLower db = ("google_scholar").data := by rw [hdb]; decide
  have hw2 : ¬ pyLower db = ("wos").data := by rw [hdb]; decide
  rw [if_neg hg, if_neg hw2, if_pos hdb] at h
  simp only [Except.ok.injEq] at h
  subst h
  rw [replace_years_with_scopus_format]
  cases hsr : searchYearRange (build_search_query w t when) with
  | none =>
    show endsInOp (build_search_query w t when) = false
    cases when with
    | none =>
      rw [build_search_query]
      rcases combined_query_concat w t with hc | ⟨y, hc⟩
      · rw [hc]
        decide
      · obtain ⟨zs, hzs⟩ : ∃ zs, pyStrip (combined_query w t) = zs ++ [')'] := by
          rw [hc]
          exact pyStrip_concat y (by decide)
        rw [hzs, show (zs ++ [')']) ++ ' ' :: when_clause none = (zs ++ [')']) ++ [' ']
          by simp [when_clause]]
        obtain ⟨z2, hz2⟩ : ∃ z2, pyStrip (zs ++ [')']) = z2 ++ [')'] :=
          pyStrip_concat zs (by decide)
        exact endsInOp_of_strip_concat
          (show pyStrip ((zs ++ [')']) ++ [' ']) = z2 ++ [')'] by
            rw [pyStrip_ws_append _ [' '] (by decide), hz2])
          (by decide) (by decide)
    | some se =>
      obtain ⟨s, e⟩ := se
      rw [build_search_query, when_clause_eq]
      obtain ⟨l, b, hl⟩ : ∃ l b, natDigits e = l ++ [b] := by
        rcases List.eq_nil_or_concat (natDigits e) with hcase | ⟨l, b, hcase⟩
        · exact absurd hcase (natDigits_ne_nil e)
        · exact ⟨l, b, by rw [hcase, List.concat_eq_append]⟩
      have hbdig : b.isDigit = true := natDigits_digits e b (by rw [hl]; simp)
      rw [hl]
      rw [show pyStrip (combined_query w t) ++
          ' ' :: yearClauseOf (natDigits s) (l ++ [b]) =
          (pyStrip (combined_query w t) ++ (' ' :: (("PUBYEAR AFT ").data ++
            natDigits s ++ (" AND PUBYEAR BEF ").data ++ l))) ++ [b] by
        rw [yearClauseOf]
        simp [List.append_assoc]]
      obtain ⟨z2, hz2⟩ := pyStrip_concat (pyStrip (combined_query w t) ++
        (' ' :: (("PUBYEAR AFT ").data ++ natDigits s ++ (" AND PUBYEAR BEF ").data
          ++ l))) (isWS_of_digit hbdig)
      exact endsInOp_of_strip_concat hz2
        (ne_of_digit hbdig (by decide)) (ne_of_digit hbdig (by decide))
  | some out =>
    obtain ⟨d1, d2⟩ := out
    show endsInOp (subAllYearRange (("AND PUBYEAR > ").data ++ d1 ++
      (" AND PUBYEAR < ").data ++ d2) 0 (build_search_query w t when)) = false
    obtain ⟨hn1, hn2, hd1, hd2⟩ := searchYearRange_spec hsr
    obtain ⟨l, b, hl⟩ : ∃ l b, d2 = l ++ [b] := by
      rcases List.eq_nil_or_concat d2 with hcase | ⟨l, b, hcase⟩
      · exact absurd hcase hn2
      · exact ⟨l, b, by rw [hcase, List.concat_eq_append]⟩
    have hbdig : b.isDigit = true := hd2 b (by rw [hl]; simp)
    cases when with
    | some se =>
      obtain ⟨s, e⟩ := se
      rw [build_search_query, when_clause_eq]
      rcases combined_query_concat w t with hc | ⟨y, hc⟩
      · rw [hc, show pyStrip ([] : List Char) = [] from rfl, List.nil_append]
        rw [subAll_sp_clause _ (natDigits s) (natDigits e) (natDigits_digits s)
          (natDigits_ne_nil s) (natDigits_digits e) (natDigits_ne_nil e)]
        rw [hl]
        rw [show ' ' :: (("AND PUBYEAR > ").data ++ d1 ++ (" AND PUBYEAR < ").data ++
            (l ++ [b])) = (' ' :: (("AND PUBYEAR > ").data ++ d1 ++
            (" AND PUBYEAR < ").data ++ l)) ++ [b] by simp [List.append_assoc]]
        exact endsInOp_concat_false _ (isWS_of_digit hbdig)
          (ne_of_digit hbdig (by decide)) (ne_of_digit hbdig (by decide))
      · obtain ⟨zs, hzs⟩ : ∃ zs, pyStrip (combined_query w t) = zs ++ [')'] := by
          rw [hc]
          exact pyStrip_concat y (by decide)
        rw [hzs, show (zs ++ [')']) ++ ' ' :: yearClauseOf (natDigits s) (natDigits e) =
          zs ++ ')' :: (' ' :: yearClauseOf (natDigits s) (natDigits e)) by simp]
        obtain ⟨u2, hu2⟩ := subAllYearRange_surv (z := ')')
          (("AND PUBYEAR > ").data ++ d1 ++ (" AND PUBYEAR < ").data ++ d2)
          (by decide) zs.length zs
          (' ' :: yearClauseOf (natDigits s) (natDigits e)) (le_refl _)
        rw [hu2]
        rw [subAll_sp_clause _ (natDigits s) (natDigits e) (natDigits_digits s)
          (natDigits_ne_nil s) (natDigits_digits e) (natDigits_ne_nil e)]
        rw [hl]
        rw [show u2 ++ ')' :: ' ' :: (("AND PUBYEAR > ").data ++ d1 ++
            (" AND PUBYEAR < ").data ++ (l ++ [b])) =
            (u2 ++ ')' :: ' ' :: (("AND PUBYEAR > ").data ++ d1 ++
              (" AND PUBYEAR < ").data ++ l)) ++ [b] by simp [List.append_assoc]]
        exact endsInOp_concat_false _ (isWS_of_digit hbdig)
          (ne_of_digit hbdig (by decide)) (ne_of_digit hbdig (by decide))
    | none =>
      rw [build_search_query] at hsr ⊢
      rcases combined_query_concat w t with hc | ⟨y, hc⟩
      · rw [hc] at hsr
        rw [show pyStrip ([] : List Char) ++ ' ' :: when_clause none = [' ']
          from rfl] at hsr
        rw [show searchYearRange [' '] = none from rfl] at hsr
        exact absurd hsr (by simp)
      · obtain ⟨zs, hzs⟩ : ∃ zs, pyStrip (combined_query w t) = zs ++ [')'] := by
          rw [hc]
          exact pyStrip_concat y (by decide)
        rw [hzs, show (zs ++ [')']) ++ ' ' :: when_clause none = zs ++ ')' :: [' '] by
          simp [when_clause]]
        obtain ⟨u2, hu2⟩ := subAllYearRange_surv (z := ')')
          (("AND PUBYEAR > ").data ++ d1 ++ (" AND PUBYEAR < ").data ++ d2)
          (by decide) zs.length zs [' '] (le_refl _)
        rw [hu2]
        rw [show subAllYearRange (("AND PUBYEAR > ").data ++ d1 ++
            (" AND PUBYEAR < ").data ++ d2) 0 [' '] = [' '] by
          rw [subAllYearRange_no (matchYearRange_ne_head _ (by decide))]; rfl]
        rw [show u2 ++ ')' :: [' '] = (u2 ++ [')']) ++ [' '] by simp]
        obtain ⟨z2, hz2⟩ : ∃ z2, pyStrip (u2 ++ [')']) = z2 ++ [')'] :=
          pyStrip_concat u2 (by decide)
        exact endsInOp_of_strip_concat
          (show pyStrip ((u2 ++ [')']) ++ [' ']) = z2 ++ [')'] by
            rw [pyStrip_ws_append _ [' '] (by decide), hz2])
          (by decide) (by decide)

theorem yearClauseOf_take (ds de : List Char) (k : Nat) (hk : k ≤ 12) :
    (yearClauseOf ds de).take k = (("PUBYEAR AFT ").data).take k := by
  rw [yearClauseOf,
    List.take_append_of_le_length (by simp; omega),
    List.take_append_of_le_length (by simp; omega),
    List.take_append_of_le_length (by simp; omega)]

theorem replacedTail_take (ds de : List Char) (k : Nat) (hk : k ≤ 12) :
    (("PUBYEAR AFT ").data ++ ds ++ (' ' :: (("PUBYEAR BEF ").data ++ de))).take k =
      (("PUBYEAR AFT ").data).take k := by
  rw [List.take_append_of_le_length (by simp; omega),
    List.take_append_of_le_length (by simp; omega)]

theorem replace_years_eq_subAll {q d1 d2 : List Char}
    (h : searchYearRange q = some (d1, d2)) :
    replace_years_with_scopus_format q =
      subAllYearRange (("AND PUBYEAR > ").data ++ d1 ++ (" AND PUBYEAR < ").data ++ d2)
        0 q := by
  rw [replace_years_with_scopus_format, h]

theorem replace_years_eq_self {q : List Char} (h : searchYearRange q = none) :
    replace_years_with_scopus_format q = q := by
  rw [replace_years_with_scopus_format, h]

/-- C4: amended.  clean_boolean_query (build_query.py lines 129-142) strips
surrounding whitespace but removes no trailing operator blocks: the anchored
regex demands a trailing space, which the preceding strip has already removed,
so the function equals str.strip (the claim's per-string cleanup behaviour is
refuted by C4_clean_cex).  The invariant nevertheless holds: for every query
produced by build_search_query, a successful translation by
convert_query_for_database never ends in a dangling boolean operator. -/
theorem C4_no_dangling_operator :
    (∀ q, clean_boolean_query q = pyStrip q) ∧
    ∀ (w t : List (List Char)) (when : Option (Nat × Nat)) (db r : List Char),
      convert_query_for_database (build_search_query w t when) db = Except.ok r →
      endsInOp r = false := by
  refine ⟨clean_boolean_query_eq_pyStrip, ?_⟩
  intro w t when db r h
  by_cases h1 : pyLower db = ("google_scholar").data
  · exact scholar_no_dangle w t when db r h1 h
  · by_cases h2 : pyLower db = ("wos").data
    · exact wos_no_dangle _ db r h2 h
    · by_cases h3 : pyLower db = ("scopus").data
      · exact scopus_no_dangle w t when db r h3 h
      · rw [convert_query_for_database, if_neg h1, if_neg h2, if_neg h3] at h
        exact absurd h (by simp)

/-- Witness for C4 at concrete inputs: the strip identity on a dangling query,
and the WoS translation of a built query, which ends in a year digit. -/
theorem C4_no_dangling_operator_witness :
    clean_boolean_query (("A AND ").data) = pyStrip (("A AND ").data) ∧
    endsInOp (("TS=((\"a\") AND (b*)) AND PY=2018-2022").data) = false := by
  constructor
  · exact C4_no_dangling_operator.1 (("A AND ").data)
  · exact C4_no_dangling_operator.2 [("a").data] [("b*").data] (some (2018, 2022))
      (("wos").data) (("TS=((\"a\") AND (b*)) AND PY=2018-2022").data) rfl

/-- C5: amended.  For queries built by build_search_query whose combined term
clause contains no PUBYEAR text (refuted otherwise by C5_wos_cex, where a term
containing a year clause hijacks the year extraction), the WoS translation of
the build with years (s, e) is exactly TS=(terms) AND PY=s-e: the term part is
wrapped in TS=(...), the year clause is rewritten to PY=s-e, the halves are
joined with AND, the result contains the PY=s-e substring and does not end in
a dangling boolean operator. -/
theorem C5_wos_year_range (w t : List (List Char)) (s e : Nat)
    (hno : containsSub (("PUBYEAR").data) (combined_query w t) = false) :
    ∃ r, convert_query_for_database (build_search_query w t (some (s, e)))
        (("wos").data) = Except.ok r ∧
      r = ("TS=(").data ++ pyStrip (combined_query w t) ++ (") AND PY=").data ++
        natDigits s ++ '-' :: natDigits e ∧
      containsSub (("PY=").data ++ natDigits s ++ '-' :: natDigits e) r = true ∧
      endsInOp r = false := by
  have hP : containsSub (("PUBYEAR").data) (pyStrip (combined_query w t)) = false :=
    containsSub_strip_not hno
  have hregion : containsSub (("PUBYEAR").data) (pyStrip (combined_query w t) ++
      (' ' :: yearClauseOf (natDigits s) (natDigits e)).take 6) = false := by
    rw [List.take_succ_cons, yearClauseOf_take _ _ 5 (by omega),
      show ((("PUBYEAR AFT ").data).take 5) = ("PUBYE").data from rfl]
    exact sep_PUBYEAR hP (by decide)
  have hremove : remove_year_clause (build_search_query w t (some (s, e))) =
      pyStrip (combined_query w t) := by
    rw [remove_year_clause, build_search_query, when_clause_eq]
    rw [removeYearAux_region (pyStrip (combined_query w t)) false
      (' ' :: yearClauseOf (natDigits s) (natDigits e)) hregion]
    rw [removeYear_sp_clause (prevW false (pyStrip (combined_query w t)))
      (natDigits s) (natDigits e) (natDigits_digits s) (natDigits_ne_nil s)
      (natDigits_digits e) (natDigits_ne_nil e)]
    rw [pyStrip_ws_append _ [' '] (by decide)]
    exact pyStrip_idem _
  have hterm : extract_term_query (build_search_query w t (some (s, e))) =
      ("TS=(").data ++ pyStrip (combined_query w t) ++ [')'] := by
    rw [extract_term_query, hremove, clean_boolean_query_eq_pyStrip]
    rw [show ("TS=(").data ++ pyStrip (combined_query w t) ++ [')'] =
      'T' :: ((("S=(").data ++ pyStrip (combined_query w t)) ++ [')']) from rfl]
    exact pyStrip_cons_concat _ (by decide) (by decide)
  have htermne : ((("TS=(").data ++ pyStrip (combined_query w t) ++ [')'])).isEmpty =
      false := rfl
  have hcleant : clean_boolean_query (("TS=(").data ++ pyStrip (combined_query w t) ++
      [')']) = ("TS=(").data ++ pyStrip (combined_query w t) ++ [')'] := by
    rw [clean_boolean_query_eq_pyStrip]
    rw [show ("TS=(").data ++ pyStrip (combined_query w t) ++ [')'] =
      'T' :: ((("S=(").data ++ pyStrip (combined_query w t)) ++ [')']) from rfl]
    exact pyStrip_cons_concat _ (by decide) (by decide)
  have hsearch : searchYearRange (build_search_query w t (some (s, e))) =
      some (natDigits s, natDigits e) := by
    rw [build_search_query, when_clause_eq]
    rw [searchYearRange_region (pyStrip (combined_query w t))
      (' ' :: yearClauseOf (natDigits s) (natDigits e)) hregion]
    exact search_sp_clause (natDigits s) (natDigits e) (natDigits_digits s)
      (natDigits_ne_nil s) (natDigits_digits e) (natDigits_ne_nil e)
  have hyear : extract_year_query_wos (build_search_query w t (some (s, e))) =
      some (("PY=").data ++ natDigits s ++ '-' :: natDigits e) := by
    rw [extract_year_query_wos, hsearch]
    rfl
  obtain ⟨l, b, hl⟩ : ∃ l b, natDigits e = l ++ [b] := by
    rcases List.eq_nil_or_concat (natDigits e) with hcase | ⟨l, b, hcase⟩
    · exact absurd hcase (natDigits_ne_nil e)
    · exact ⟨l, b, by rw [hcase, List.concat_eq_append]⟩
  have hbdig : b.isDigit = true := natDigits_digits e b (by rw [hl]; simp)
  have hy2 : ("PY=").data ++ natDigits s ++ '-' :: natDigits e =
      'P' :: (((("Y=").data ++ natDigits s ++ '-' :: l) ++ [b])) := by
    rw [hl]
    simp [List.append_assoc]
  have hyne : ((("PY=").data ++ natDigits s ++ '-' :: natDigits e)).isEmpty = false :=
    rfl
  have hcleany : clean_boolean_query (("PY=").data ++ natDigits s ++ '-' ::
      natDigits e) = ("PY=").data ++ natDigits s ++ '-' :: natDigits e := by
    rw [clean_boolean_query_eq_pyStrip, hy2]
    exact pyStrip_cons_concat _ (by decide) (isWS_of_digit hbdig)
  have hwq : clean_boolean_query ((("TS=(").data ++ pyStrip (combined_query w t) ++
      [')']) ++ (" AND ").data ++ (("PY=").data ++ natDigits s ++ '-' :: natDigits e)) =
      ("TS=(").data ++ pyStrip (combined_query w t) ++ (") AND PY=").data ++
        natDigits s ++ '-' :: natDigits e := by
    rw [clean_boolean_query_eq_pyStrip]
    rw [show (("TS=(").data ++ pyStrip (combined_query w t) ++ [')']) ++
        (" AND ").data ++ (("PY=").data ++ natDigits s ++ '-' :: natDigits e) =
        'T' :: ((("S=(").data ++ pyStrip (combined_query w t) ++ (") AND PY=").data ++
          natDigits s ++ '-' :: l) ++ [b]) from by
      rw [hl]
      simp [List.append_assoc]]
    rw [pyStrip_cons_concat _ (by decide) (isWS_of_digit hbdig)]
    rw [hl]
    simp [List.append_assoc]
  refine ⟨("TS=(").data ++ pyStrip (combined_query w t) ++ (") AND PY=").data ++
    natDigits s ++ '-' :: natDigits e, ?_, rfl, ?_, ?_⟩
  · rw [convert_query_for_database, if_neg (by decide), if_pos (by decide)]
    simp only [hterm, htermne, hcleant, hyear, hyne, hcleany, Bool.false_eq_true,
      if_false, Bool.not_false, Bool.and_self, if_true, Except.ok.injEq]
    exact hwq
  · rw [show ("TS=(").data ++ pyStrip (combined_query w t) ++ (") AND PY=").data ++
      natDigits s ++ '-' :: natDigits e =
      (("TS=(").data ++ pyStrip (combined_query w t) ++ (") AND ").data) ++
        (("PY=").data ++ natDigits s ++ '-' :: natDigits e) by
      simp [List.append_assoc]]
    exact containsSub_append_right _ (containsSub_self _)
  · have hshape : ("TS=(").data ++ pyStrip (combined_query w t) ++
        (") AND PY=").data ++ natDigits s ++ '-' :: natDigits e =
        'T' :: (((("S=(").data ++ pyStrip (combined_query w t) ++
          (") AND PY=").data ++ natDigits s ++ '-' :: l)) ++ [b]) := by
      rw [hl]
      simp [List.append_assoc]
    exact endsInOp_of_strip_concat
      (show pyStrip (("TS=(").data ++ pyStrip (combined_query w t) ++
          (") AND PY=").data ++ natDigits s ++ '-' :: natDigits e) =
        ('T' :: ((("S=(").data ++ pyStrip (combined_query w t) ++
          (") AND PY=").data ++ natDigits s ++ '-' :: l))) ++ [b] by
        rw [hshape, pyStrip_cons_concat _ (by decide) (isWS_of_digit hbdig)]
        rfl)
      (ne_of_digit hbdig (by decide)) (ne_of_digit hbdig (by decide))

/-- Witness for C5: a built query with one quoted location term and years
2018-2022, whose WoS translation is TS=(("urban")) AND PY=2018-2022. -/
theorem C5_wos_year_range_witness :
    containsSub (("PUBYEAR").data) (combined_query [("urban").data] []) = false ∧
    ∃ r, convert_query_for_database (build_search_query [("urban").data] []
        (some (2018, 2022))) (("wos").data) = Except.ok r ∧
      r = ("TS=(").data ++ pyStrip (combined_query [("urban").data] []) ++
        (") AND PY=").data ++ natDigits 2018 ++ '-' :: natDigits 2022 ∧
      containsSub (("PY=").data ++ natDigits 2018 ++ '-' :: natDigits 2022) r = true ∧
      endsInOp r = false :=
  ⟨by decide, C5_wos_year_range [("urban").data] [] 2018 2022 (by decide)⟩

/-- C6: amended.  For a query that splits as u PUBYEAR AFT ds AND PUBYEAR BEF de v
where u and v contain no further PUBYEAR text and v does not start with a digit,
the Scopus translation replaces exactly the year clause in place: u and v are
byte-identical, and the clause becomes AND PUBYEAR > ds AND PUBYEAR < de — with
the replacement's leading AND from the format string of build_query.py line 159
(refuted without it by C6_scopus_cex).  A query containing no PUBYEAR text is
returned unchanged. -/
theorem C6_scopus_inplace (u v ds de : List Char)
    (hds : ∀ c ∈ ds, c.isDigit = true) (hdsn : ds ≠ [])
    (hde : ∀ c ∈ de, c.isDigit = true) (hden : de ≠ [])
    (hvh : headIsDigit v = false)
    (hu : containsSub (("PUBYEAR").data) (u ++ ("PUBYEA").data) = false)
    (hv : containsSub (("PUBYEAR").data) v = false) :
    replace_years_with_scopus_format
        (u ++ (("PUBYEAR AFT ").data ++ ds ++ (" AND PUBYEAR BEF ").data ++ de) ++ v) =
      u ++ (("AND PUBYEAR > ").data ++ ds ++ (" AND PUBYEAR < ").data ++ de) ++ v ∧
    ∀ q, containsSub (("PUBYEAR").data) q = false →
      replace_years_with_scopus_format q = q := by
  constructor
  · have hgroup : u ++ (("PUBYEAR AFT ").data ++ ds ++ (" AND PUBYEAR BEF ").data ++
        de) ++ v = u ++ (yearClauseOf ds de ++ v) := by
      rw [yearClauseOf, List.append_assoc]
    have htk : (yearClauseOf ds de ++ v).take 6 = ("PUBYEA").data := by
      rw [List.take_append_of_le_length (by rw [yearClauseOf]; simp),
        yearClauseOf_take ds de 6 (by omega)]
      rfl
    have hreg : containsSub (("PUBYEAR").data)
        (u ++ (yearClauseOf ds de ++ v).take 6) = false := by
      rw [htk]
      exact hu
    have hmatch2 : matchYearRange ('P' :: ((("UBYEAR AFT ").data ++ ds ++
        (" AND PUBYEAR BEF ").data ++ de) ++ v)) = some (ds, de, v) :=
      matchYearRange_clause ds de v hds hdsn hde hden hvh
    have hsearch : searchYearRange (u ++ (yearClauseOf ds de ++ v)) =
        some (ds, de) := by
      rw [searchYearRange_region u (yearClauseOf ds de ++ v) hreg,
        show yearClauseOf ds de ++ v = 'P' :: ((("UBYEAR AFT ").data ++ ds ++
          (" AND PUBYEAR BEF ").data ++ de) ++ v) from rfl]
      exact searchYearRange_some hmatch2
    rw [hgroup, replace_years_eq_subAll hsearch]
    rw [subAllYearRange_region _ u (yearClauseOf ds de ++ v) hreg]
    rw [show yearClauseOf ds de ++ v = 'P' :: ((("UBYEAR AFT ").data ++ ds ++
      (" AND PUBYEAR BEF ").data ++ de) ++ v) from rfl]
    rw [subAllYearRange_match hmatch2]
    rw [subAllYearRange_id _ v hv]
    rw [← List.append_assoc]
  · intro q hq
    exact replace_years_eq_self (searchYearRange_none q hq)

/-- Witness for C6: the clause between a term prefix and an empty tail is
rewritten in place with the leading AND, and a PUBYEAR-free query is returned
unchanged. -/
theorem C6_scopus_inplace_witness :
    replace_years_with_scopus_format
        ((("(x) AND ").data) ++ (("PUBYEAR AFT ").data ++ ("2018").data ++
          (" AND PUBYEAR BEF ").data ++ ("2022").data) ++ []) =
      (("(x) AND ").data) ++ (("AND PUBYEAR > ").data ++ ("2018").data ++
        (" AND PUBYEAR < ").data ++ ("2022").data) ++ [] ∧
    replace_years_with_scopus_format (("TS=(x)").data) = ("TS=(x)").data := by
  have h := C6_scopus_inplace (("(x) AND ").data) [] (("2018").data) (("2022").data)
    (by decide) (by decide) (by decide) (by decide) (by decide) (by decide) (by decide)
  exact ⟨h.1, h.2 (("TS=(x)").data) (by decide)⟩

/-! ### Tokens absent from the assembled clauses -/

theorem intercalate_nil_sep (sep : List Char) : List.intercalate sep [] = [] := by
  simp [List.intercalate]

theorem intercalate_one (sep a : List Char) : List.intercalate sep [a] = a := by
  simp [List.intercalate]

theorem intercalate_cons2 (sep a b : List Char) (l : List (List Char)) :
    List.intercalate sep (a :: b :: l) = a ++ (sep ++ List.intercalate sep (b :: l)) := by
  simp [List.intercalate, List.intersperse_cons_cons]

theorem containsSub_short {p s : List Char} (h : s.length < p.length) :
    containsSub p s = false := by
  by_contra hc
  rw [Bool.not_eq_false] at hc
  have := containsSub_length hc
  omega

theorem containsSub_nil_right {p : List Char} (hp : p ≠ []) :
    containsSub p [] = false := by
  cases p with
  | nil => exact absurd rfl hp
  | cons c ct => rfl

theorem noTok_inter {tok s2 s3 : List Char} (htok : tok ≠ []) (hsp : ' ' ∉ tok)
    (hsep : ' ' :: s2 = s3 ++ [' ']) (hin : containsSub tok (' ' :: s2) = false) :
    ∀ items : List (List Char), (∀ i ∈ items, containsSub tok i = false) →
    containsSub tok (List.intercalate (' ' :: s2) items) = false := by
  intro items
  induction items with
  | nil =>
    intro _
    rw [intercalate_nil_sep]
    exact containsSub_nil_right htok
  | cons a l ih =>
    intro h
    cases l with
    | nil =>
      rw [intercalate_one]
      exact h a (by simp)
    | cons b l2 =>
      rw [intercalate_cons2]
      by_contra hc
      rw [Bool.not_eq_false] at hc
      rcases containsSub_append_split hc with h1 | h1 | ⟨k, hk1, hk2, hk3, hk4⟩
      · have ha := h a (by simp)
        rw [h1] at ha
        exact absurd ha (by simp)
      · rcases containsSub_append_split h1 with h2 | h2 | ⟨k, hk1, hk2, hk3, hk4⟩
        · rw [h2] at hin
          exact absurd hin (by simp)
        · have hih := ih fun i hi => h i (by simp [hi])
          rw [h2] at hih
          exact absurd hih (by simp)
        · have htkne : tok.take k ≠ [] := by
            intro hnil
            rw [List.take_eq_nil_iff] at hnil
            rcases hnil with h3 | h3
            · omega
            · exact htok h3
          rw [hsep] at hk3
          obtain ⟨bb, hb1, hb2⟩ := endsWith_last_mem hk3 htkne (by simp)
          simp only [List.mem_singleton] at hb2
          subst hb2
          exact hsp (List.take_subset _ _ hb1)
      · have hdne : tok.drop k ≠ [] := by
          intro hnil
          rw [List.drop_eq_nil_iff] at hnil
          omega
        obtain ⟨c, ct, hct⟩ : ∃ c ct, tok.drop k = c :: ct := by
          cases hcase : tok.drop k with
          | nil => exact absurd hcase hdne
          | cons c ct => exact ⟨c, ct, rfl⟩
        rw [hct] at hk4
        have hk4b : leadsWith (c :: ct) (' ' :: (s2 ++
            List.intercalate (' ' :: s2) (b :: l2))) = true := hk4
        have hcsp := leadsWith_head hk4b
        have hcmem : c ∈ tok := by
          have : c ∈ tok.drop k := by rw [hct]; simp
          exact List.drop_subset k tok this
        rw [hcsp] at hcmem
        exact hsp hcmem

theorem noTok_addq {tok x : List Char} (htok : tok ≠ []) (hq : '"' ∉ tok)
    (h : containsSub tok x = false) : containsSub tok (add_quotes x) = false := by
  rw [add_quotes]
  by_cases hs : '*' ∈ x
  · rw [if_pos hs]
    exact h
  · rw [if_neg hs]
    have h2 : containsSub tok (x ++ ['"']) = false :=
      containsSub_sep2 htok (by simp)
        (fun c hc => by simp only [List.mem_singleton] at hc; subst hc; exact hq) h
    have h3 : containsSub tok ([] ++ (['"'] ++ (x ++ ['"']))) = false :=
      containsSub_sep htok (by simp)
        (fun c hc => by simp only [List.mem_singleton] at hc; subst hc; exact hq)
        (containsSub_nil_right htok) h2
    simpa using h3

theorem noTok_format {tok : List Char} (htok : tok ≠ []) (hq : '"' ∉ tok)
    {ts : List (List Char)} (h : ∀ x ∈ ts, containsSub tok x = false) :
    ∀ i ∈ format_terms ts, containsSub tok i = false := by
  intro i hi
  rw [format_terms] at hi
  obtain ⟨x, hx, hxi⟩ := List.mem_map.mp hi
  rw [← hxi]
  exact noTok_addq htok hq (h x hx)

theorem noTok_wrap_paren {tok I : List Char} (htok : tok ≠ []) (hpo : '(' ∉ tok)
    (hpc : ')' ∉ tok) (h : containsSub tok I = false) :
    containsSub tok ('(' :: (I ++ [')'])) = false := by
  have h2 : containsSub tok (I ++ [')']) = false :=
    containsSub_sep2 htok (by simp)
      (fun c hc => by simp only [List.mem_singleton] at hc; subst hc; exact hpc) h
  have h3 : containsSub tok ([] ++ (['('] ++ (I ++ [')']))) = false :=
    containsSub_sep htok (by simp)
      (fun c hc => by simp only [List.mem_singleton] at hc; subst hc; exact hpo)
      (containsSub_nil_right htok) h2
  simpa using h3

theorem noTok_orClause {tok : List Char} (htok : tok ≠ []) (hsp : ' ' ∉ tok)
    (hq : '"' ∉ tok) (hpo : '(' ∉ tok) (hpc : ')' ∉ tok)
    (hsepin : containsSub tok ((" OR ").data) = false)
    (ts : List (List Char)) (h : ∀ x ∈ ts, containsSub tok x = false) :
    containsSub tok (orClause ts) = false := by
  by_cases hts : ts = []
  · subst hts
    rw [show orClause ([] : List (List Char)) = [] from rfl]
    exact containsSub_nil_right htok
  · rw [orClause_concat ts hts]
    have hin : containsSub tok (List.intercalate ((" OR ").data)
        (format_terms ts)) = false := by
      have := noTok_inter htok hsp
        (show ' ' :: ("OR ").data = (" OR").data ++ [' '] from rfl)
        (show containsSub tok (' ' :: ("OR ").data) = false from hsepin)
        (format_terms ts) (noTok_format htok hq h)
      exact this
    have h4 := noTok_wrap_paren htok hpo hpc hin
    simpa using h4

theorem noTok_spClause {tok : List Char} (htok : tok ≠ []) (hsp : ' ' ∉ tok)
    (hq : '"' ∉ tok) (hpo : '(' ∉ tok) (hpc : ')' ∉ tok)
    (ts : List (List Char)) (h : ∀ x ∈ ts, containsSub tok x = false) :
    containsSub tok ('(' :: (List.intercalate [' '] (format_terms ts) ++ [')'])) =
      false := by
  have hin : containsSub tok (List.intercalate [' '] (format_terms ts)) = false := by
    have hsp1 : containsSub tok (' ' :: ([] : List Char)) = false := by
      by_contra hc
      rw [Bool.not_eq_false] at hc
      obtain ⟨c, hcm⟩ : ∃ c, c ∈ tok := by
        cases tok with
        | nil => exact absurd rfl htok
        | cons a l => exact ⟨a, by simp⟩
      have hc2 := containsSub_mem hc c hcm
      simp only [List.mem_singleton] at hc2
      rw [hc2] at hcm
      exact hsp hcm
    have := noTok_inter htok hsp (show ' ' :: ([] : List Char) = [] ++ [' '] from rfl)
      hsp1 (format_terms ts) (noTok_format htok hq h)
    exact this
  exact noTok_wrap_paren htok hpo hpc hin

theorem combined_query_left (w : List (List Char)) (hw : w ≠ []) :
    combined_query w [] = orClause w := by
  rw [combined_query]
  have hfw : (orClause w).isEmpty = false := by
    rw [orClause_concat w hw]
    rfl
  have hf : (([orClause w, orClause ([] : List (List Char))]).filter
      (fun c => !c.isEmpty)) = [orClause w] := by
    rw [show orClause ([] : List (List Char)) = [] from rfl,
      List.filter_cons, List.filter_cons]
    simp [hfw]
  rw [hf, intercalate_one]

theorem combined_query_right (t : List (List Char)) (ht : t ≠ []) :
    combined_query [] t = orClause t := by
  rw [combined_query]
  have hft : (orClause t).isEmpty = false := by
    rw [orClause_concat t ht]
    rfl
  have hf : (([orClause ([] : List (List Char)), orClause t]).filter
      (fun c => !c.isEmpty)) = [orClause t] := by
    rw [show orClause ([] : List (List Char)) = [] from rfl,
      List.filter_cons, List.filter_cons]
    simp [hft]
  rw [hf, intercalate_one]

theorem combined_query_two (w t : List (List Char)) (hw : w ≠ []) (ht : t ≠ []) :
    combined_query w t = orClause w ++ ((" AND ").data ++ orClause t) := by
  rw [combined_query]
  have hfw : (orClause w).isEmpty = false := by
    rw [orClause_concat w hw]
    rfl
  have hft : (orClause t).isEmpty = false := by
    rw [orClause_concat t ht]
    rfl
  have hf : (([orClause w, orClause t]).filter (fun c => !c.isEmpty)) =
      [orClause w, orClause t] := by
    rw [List.filter_cons, List.filter_cons]
    simp [hfw, hft]
  rw [hf, intercalate_cons2, intercalate_one]

theorem pyStrip_orClause (ts : List (List Char)) (hts : ts ≠ []) :
    pyStrip (orClause ts) = orClause ts := by
  rw [orClause_concat ts hts]
  exact pyStrip_cons_concat _ (by decide) (by decide)

theorem pyStrip_two_clause (w t : List (List Char)) (hw : w ≠ []) (ht : t ≠ []) :
    pyStrip (combined_query w t) = combined_query w t := by
  rw [combined_query_two w t hw ht, orClause_concat w hw, orClause_concat t ht]
  have hshape : (('(' :: List.intercalate ((" OR ").data) (format_terms w)) ++ [')'])
      ++ ((" AND ").data ++ (('(' :: List.intercalate ((" OR ").data)
        (format_terms t)) ++ [')'])) =
      '(' :: ((List.intercalate ((" OR ").data) (format_terms w) ++
        (')' :: ((" AND ").data ++ ('(' :: List.intercalate ((" OR ").data)
          (format_terms t))))) ++ [')']) := by
    simp
  rw [hshape]
  exact pyStrip_cons_concat _ (by decide) (by decide)

theorem leadsWith_OR_sp_paren (X : List Char) :
    leadsWith ((" OR ").data) (' ' :: ('(' :: X)) = false := by
  by_contra hc
  rw [Bool.not_eq_false] at hc
  obtain ⟨u, hu⟩ := (leadsWith_iff _ _).mp hc
  have h2 : ' ' :: ('(' :: X) = ' ' :: ('O' :: (("R ").data ++ u)) := hu
  simp at h2

theorem removeYear_sp_nil (p : Bool) :
    removeYearAux 0 p (' ' :: ([] : List Char)) = [' '] := by
  rw [removeYearAux_no (matchYearClause_ne_head p _ (by decide))]
  rfl

theorem replaceOR_inter : ∀ (items : List (List Char)) (rr : List Char),
    (∀ i ∈ items, containsSub (("OR").data) i = false) →
    replaceAllAux ((" OR ").data) [' '] 0
        (List.intercalate ((" OR ").data) items ++ ')' :: rr) =
      List.intercalate [' '] items ++ ')' ::
        replaceAllAux ((" OR ").data) [' '] 0 rr := by
  intro items
  induction items with
  | nil =>
    intro rr _
    rw [intercalate_nil_sep, intercalate_nil_sep, List.nil_append, List.nil_append]
    exact replaceAllAux_no (leadsWith_ne_head _ _ (by decide))
  | cons a l ih =>
    intro rr h
    cases l with
    | nil =>
      rw [intercalate_one, intercalate_one]
      have hno : containsSub ((" OR ").data)
          (a ++ (')' :: rr).take (((" OR ").data).length - 1)) = false := by
        rw [show ((" OR ").data).length - 1 = 3 from rfl, List.take_succ_cons]
        by_contra hc
        rw [Bool.not_eq_false] at hc
        rcases containsSub_append_split hc with h1 | h1 | ⟨k, hk1, hk2, hk3, hk4⟩
        · have hOA : containsSub ((" OR ").data) a = false :=
            containsSub_weaken (by decide) (h a (by simp))
          rw [h1] at hOA
          exact absurd hOA (by simp)
        · have hsh : containsSub ((" OR ").data) (')' :: rr.take 2) = false := by
            apply containsSub_short
            show (')' :: rr.take 2).length < 4
            have := List.length_take_le 2 rr
            simp only [List.length_cons]
            omega
          rw [h1] at hsh
          exact absurd hsh (by simp)
        · rw [show (((" OR ").data).length) = 4 from rfl] at hk2
          interval_cases k
          · rw [show ((" OR ").data).drop 1 = 'O' :: ("R ").data from rfl] at hk4
            rw [leadsWith_ne_head _ _ (by decide)] at hk4
            exact absurd hk4 (by simp)
          · rw [show ((" OR ").data).drop 2 = 'R' :: (" ").data from rfl] at hk4
            rw [leadsWith_ne_head _ _ (by decide)] at hk4
            exact absurd hk4 (by simp)
          · rw [show ((" OR ").data).drop 3 = ' ' :: ([] : List Char) from rfl] at hk4
            rw [leadsWith_ne_head _ _ (by decide)] at hk4
            exact absurd hk4 (by simp)
      rw [replaceAll_region ((" OR ").data) [' '] a (')' :: rr) hno]
      rw [replaceAllAux_no (leadsWith_ne_head _ _ (by decide))]
    | cons b l2 =>
      rw [intercalate_cons2, intercalate_cons2]
      have hform : (a ++ ((" OR ").data ++ List.intercalate ((" OR ").data) (b :: l2)))
          ++ ')' :: rr =
          a ++ ((" OR ").data ++ (List.intercalate ((" OR ").data) (b :: l2) ++
            ')' :: rr)) := by
        simp
      rw [hform]
      have hno : containsSub ((" OR ").data)
          (a ++ ((" OR ").data ++ (List.intercalate ((" OR ").data) (b :: l2) ++
            ')' :: rr)).take (((" OR ").data).length - 1)) = false := by
        rw [show ((" OR ").data).length - 1 = 3 from rfl,
          List.take_append_of_le_length (by decide),
          show ((" OR ").data).take 3 = ' ' :: ("OR").data from rfl]
        exact sep_OR (h a (by simp)) (by decide)
      rw [replaceAll_region ((" OR ").data) [' '] a _ hno]
      rw [replaceAllAux_match ((" OR ").data) [' '] _ (by decide)]
      rw [ih rr (fun i hi => h i (by simp [hi]))]
      simp

theorem replaceOR_clause (ts : List (List Char)) (hts : ts ≠ [])
    (hO : ∀ x ∈ ts, containsSub (("OR").data) x = false) (rr : List Char) :
    replaceAllAux ((" OR ").data) [' '] 0 (orClause ts ++ rr) =
      ('(' :: (List.intercalate [' '] (format_terms ts) ++ [')'])) ++
        replaceAllAux ((" OR ").data) [' '] 0 rr := by
  rw [orClause_concat ts hts]
  have hform : (('(' :: List.intercalate ((" OR ").data) (format_terms ts)) ++ [')'])
      ++ rr = '(' :: (List.intercalate ((" OR ").data) (format_terms ts) ++
        ')' :: rr) := by
    simp
  rw [hform]
  rw [replaceAllAux_no (leadsWith_ne_head _ _ (by decide))]
  rw [replaceOR_inter (format_terms ts) rr (noTok_format (by decide) (by decide) hO)]
  simp

theorem noTok_front {tok : List Char} (htok : tok ≠ []) (hsp : ' ' ∉ tok)
    (hq : '"' ∉ tok) (hpo : '(' ∉ tok) (hpc : ')' ∉ tok)
    {w t : List (List Char)}
    (hw : ∀ x ∈ w, containsSub tok x = false)
    (ht : ∀ x ∈ t, containsSub tok x = false) :
    containsSub tok ('(' :: (List.intercalate [' '] (format_terms w) ++
      (')' :: (' ' :: ('(' :: (List.intercalate [' '] (format_terms t) ++
        [')'])))))) = false := by
  have h1 := noTok_spClause htok hsp hq hpo hpc w hw
  have h2 := noTok_spClause htok hsp hq hpo hpc t ht
  have h3 : containsSub tok (('(' :: (List.intercalate [' ']
      (format_terms w) ++ [')'])) ++ ([' '] ++ ('(' :: (List.intercalate [' ']
      (format_terms t) ++ [')'])))) = false :=
    containsSub_sep htok (by simp)
      (fun c hc => by simp only [List.mem_singleton] at hc; subst hc; exact hsp) h1 h2
  have h4 : (('(' :: (List.intercalate [' '] (format_terms w) ++ [')'])) ++
      ([' '] ++ ('(' :: (List.intercalate [' '] (format_terms t) ++ [')'])))) =
      '(' :: (List.intercalate [' '] (format_terms w) ++
        (')' :: (' ' :: ('(' :: (List.intercalate [' '] (format_terms t) ++
          [')']))))) := by
    simp
  rw [h4] at h3
  exact h3

theorem scholar_single (ts : List (List Char)) (hts : ts ≠ [])
    (hA : ∀ x ∈ ts, containsSub (("AND").data) x = false)
    (hO : ∀ x ∈ ts, containsSub (("OR").data) x = false)
    (hP : ∀ x ∈ ts, containsSub (("PUBYEAR").data) x = false)
    (when : Option (Nat × Nat)) :
    pyStrip (remove_year_clause (replaceAll ((" OR ").data) [' ']
        (replaceAll ((" AND ").data) [' ']
          (pyStrip (orClause ts) ++ ' ' :: when_clause when)))) =
      '(' :: (List.intercalate [' '] (format_terms ts) ++ [')']) ∧
    replaceAll ((" OR ").data) [' '] (replaceAll ((" AND ").data) [' ']
        (pyStrip (orClause ts))) =
      '(' :: (List.intercalate [' '] (format_terms ts) ++ [')']) := by
  have hOA : containsSub (("AND").data) (orClause ts) = false :=
    noTok_orClause (by decide) (by decide) (by decide) (by decide) (by decide)
      (by decide) ts hA
  rw [pyStrip_orClause ts hts]
  have hpass1 : ∀ W : List Char, replaceAllAux ((" AND ").data) [' '] 0
      (orClause ts ++ ' ' :: W) =
      orClause ts ++ replaceAllAux ((" AND ").data) [' '] 0 (' ' :: W) := by
    intro W
    apply replaceAll_region
    rw [show ((" AND ").data).length - 1 = 4 from rfl, List.take_succ_cons]
    refine sep_AND hOA (containsSub_short ?_)
    show (' ' :: W.take 3).length < 5
    have := List.length_take_le 3 W
    simp only [List.length_cons]
    omega
  have hpass1id : replaceAllAux ((" AND ").data) [' '] 0 (orClause ts) =
      orClause ts :=
    replaceAll_id _ _ _ (containsSub_weaken (by decide) hOA)
  have hpass2 := replaceOR_clause ts hts hO
  refine ⟨?_, ?_⟩
  · cases when with
    | none =>
      rw [show when_clause none = ([] : List Char) from rfl]
      simp only [replaceAll]
      rw [hpass1 []]
      rw [show replaceAllAux ((" AND ").data) [' '] 0 (' ' :: ([] : List Char)) =
        ' ' :: ([] : List Char) by decide]
      rw [hpass2 (' ' :: ([] : List Char))]
      rw [show replaceAllAux ((" OR ").data) [' '] 0 (' ' :: ([] : List Char)) =
        ' ' :: ([] : List Char) by decide]
      rw [remove_year_clause]
      have hnoP : containsSub (("PUBYEAR").data)
          (('(' :: (List.intercalate [' '] (format_terms ts) ++ [')'])) ++
            (' ' :: ([] : List Char)).take 6) = false := by
        rw [show ((' ' :: ([] : List Char))).take 6 = ' ' :: ([] : List Char) from rfl]
        exact sep_PUBYEAR (noTok_spClause (by decide) (by decide) (by decide)
          (by decide) (by decide) ts hP) (by decide)
      rw [removeYearAux_region _ false _ hnoP]
      rw [removeYear_sp_nil]
      rw [pyStrip_ws_append _ [' '] (by decide)]
      rw [pyStrip_idem]
      exact pyStrip_cons_concat _ (by decide) (by decide)
    | some se =>
      obtain ⟨s, e⟩ := se
      rw [when_clause_eq]
      simp only [replaceAll]
      rw [hpass1 (yearClauseOf (natDigits s) (natDigits e))]
      rw [replaceAND_sp_clause (natDigits s) (natDigits e) (natDigits_digits s)
        (natDigits_ne_nil s) (natDigits_digits e) (natDigits_ne_nil e)]
      rw [hpass2 (' ' :: (("PUBYEAR AFT ").data ++ natDigits s ++
        (' ' :: (("PUBYEAR BEF ").data ++ natDigits e))))]
      rw [replaceOR_sp_id (natDigits s) (natDigits e) (natDigits_digits s)
        (natDigits_ne_nil s) (natDigits_digits e) (natDigits_ne_nil e)]
      rw [remove_year_clause]
      have hnoP : containsSub (("PUBYEAR").data)
          (('(' :: (List.intercalate [' '] (format_terms ts) ++ [')'])) ++
            (' ' :: (("PUBYEAR AFT ").data ++ natDigits s ++
              (' ' :: (("PUBYEAR BEF ").data ++ natDigits e)))).take 6) = false := by
        rw [List.take_succ_cons, replacedTail_take _ _ 5 (by omega),
          show ((("PUBYEAR AFT ").data).take 5) = ("PUBYE").data from rfl]
        exact sep_PUBYEAR (noTok_spClause (by decide) (by decide) (by decide)
          (by decide) (by decide) ts hP) (by decide)
      rw [removeYearAux_region _ false _ hnoP]
      rw [removeYear_sp_replaced _ (natDigits s) (natDigits e) (natDigits_digits s)
        (natDigits_ne_nil s) (natDigits_digits e) (natDigits_ne_nil e)]
      rw [pyStrip_ws_append _ [' ', ' '] (by decide)]
      rw [pyStrip_idem]
      exact pyStrip_cons_concat _ (by decide) (by decide)
  · simp only [replaceAll]
    rw [hpass1id]
    have h0 := hpass2 []
    rw [List.append_nil] at h0
    rw [h0, show replaceAllAux ((" OR ").data) [' '] 0 ([] : List Char) = [] from rfl,
      List.append_nil]
theorem scholar_two (w t : List (List Char)) (hwn : w ≠ []) (htn : t ≠ [])
    (hwA : ∀ x ∈ w, containsSub (("AND").data) x = false)
    (hwO : ∀ x ∈ w, containsSub (("OR").data) x = false)
    (hwP : ∀ x ∈ w, containsSub (("PUBYEAR").data) x = false)
    (htA : ∀ x ∈ t, containsSub (("AND").data) x = false)
    (htO : ∀ x ∈ t, containsSub (("OR").data) x = false)
    (htP : ∀ x ∈ t, containsSub (("PUBYEAR").data) x = false)
    (when : Option (Nat × Nat)) :
    pyStrip (remove_year_clause (replaceAll ((" OR ").data) [' ']
        (replaceAll ((" AND ").data) [' ']
          (pyStrip (combined_query w t) ++ ' ' :: when_clause when)))) =
      '(' :: (List.intercalate [' '] (format_terms w) ++
        (')' :: (' ' :: ('(' :: (List.intercalate [' '] (format_terms t) ++
          [')'])))))  ∧
    replaceAll ((" OR ").data) [' '] (replaceAll ((" AND ").data) [' ']
        (pyStrip (combined_query w t))) =
      '(' :: (List.intercalate [' '] (format_terms w) ++
        (')' :: (' ' :: ('(' :: (List.intercalate [' '] (format_terms t) ++
          [')'])))))  := by
  have howA : containsSub (("AND").data) (orClause w) = false :=
    noTok_orClause (by decide) (by decide) (by decide) (by decide) (by decide)
      (by decide) w hwA
  have hotA : containsSub (("AND").data) (orClause t) = false :=
    noTok_orClause (by decide) (by decide) (by decide) (by decide) (by decide)
      (by decide) t htA
  rw [pyStrip_two_clause w t hwn htn, combined_query_two w t hwn htn]
  have hpass1 : ∀ V : List Char,
      containsSub ((" AND ").data) (orClause t ++ V.take 4) = false →
      replaceAllAux ((" AND ").data) [' '] 0
        (orClause w ++ ((" AND ").data ++ (orClause t ++ V))) =
      orClause w ++ ([' '] ++ (orClause t ++
        replaceAllAux ((" AND ").data) [' '] 0 V)) := by
    intro V hV
    have h1 : containsSub ((" AND ").data)
        (orClause w ++ ((" AND ").data ++ (orClause t ++ V)).take
          (((" AND ").data).length - 1)) = false := by
      rw [show ((" AND ").data).length - 1 = 4 from rfl,
        List.take_append_of_le_length (by decide),
        show ((" AND ").data).take 4 = ' ' :: ("AND").data from rfl]
      exact sep_AND howA (by decide)
    rw [replaceAll_region ((" AND ").data) [' '] (orClause w) _ h1]
    rw [replaceAllAux_match ((" AND ").data) [' '] _ (by decide)]
    rw [replaceAll_region ((" AND ").data) [' '] (orClause t) V (by
      rw [show ((" AND ").data).length - 1 = 4 from rfl]
      exact hV)]
  have hpass2 : ∀ T : List Char,
      replaceAllAux ((" OR ").data) [' '] 0
        (orClause w ++ ([' '] ++ (orClause t ++ T))) =
      '(' :: (List.intercalate [' '] (format_terms w) ++
        (')' :: (' ' :: ('(' :: (List.intercalate [' '] (format_terms t) ++
          (')' :: replaceAllAux ((" OR ").data) [' '] 0 T)))))) := by
    intro T
    rw [replaceOR_clause w hwn hwO ([' '] ++ (orClause t ++ T))]
    have hsh : ([' '] ++ (orClause t ++ T)) = ' ' :: ('(' ::
        (List.intercalate ((" OR ").data) (format_terms t) ++ (')' :: T))) := by
      rw [orClause_concat t htn]
      simp
    rw [hsh]
    rw [replaceAllAux_no (leadsWith_OR_sp_paren _)]
    rw [replaceAllAux_no (leadsWith_ne_head _ _ (by decide))]
    rw [replaceOR_inter (format_terms t) T (noTok_format (by decide) (by decide) htO)]
    simp
  refine ⟨?_, ?_⟩
  · cases when with
    | none =>
      rw [show when_clause none = ([] : List Char) from rfl]
      simp only [replaceAll]
      have hform : (orClause w ++ ((" AND ").data ++ orClause t)) ++
          ' ' :: ([] : List Char) =
          orClause w ++ ((" AND ").data ++ (orClause t ++
            ' ' :: ([] : List Char))) := by
        simp
      rw [hform]
      rw [hpass1 (' ' :: ([] : List Char)) (by
        rw [show ((' ' :: ([] : List Char))).take 4 = ' ' :: ([] : List Char) from rfl]
        exact sep_AND hotA (by decide))]
      rw [show replaceAllAux ((" AND ").data) [' '] 0 (' ' :: ([] : List Char)) =
        ' ' :: ([] : List Char) by decide]
      rw [hpass2 (' ' :: ([] : List Char))]
      rw [show replaceAllAux ((" OR ").data) [' '] 0 (' ' :: ([] : List Char)) =
        ' ' :: ([] : List Char) by decide]
      rw [remove_year_clause]
      have hform2 : ('(' :: (List.intercalate [' '] (format_terms w) ++
          (')' :: (' ' :: ('(' :: (List.intercalate [' '] (format_terms t) ++
            (')' :: (' ' :: ([] : List Char))))))))) =
          ('(' :: (List.intercalate [' '] (format_terms w) ++
            (')' :: (' ' :: ('(' :: (List.intercalate [' '] (format_terms t) ++
              [')'])))))) ++ ' ' :: ([] : List Char) := by
        simp
      rw [hform2]
      have hnoP : containsSub (("PUBYEAR").data)
          (('(' :: (List.intercalate [' '] (format_terms w) ++
            (')' :: (' ' :: ('(' :: (List.intercalate [' '] (format_terms t) ++
              [')'])))))) ++ (' ' :: ([] : List Char)).take 6) = false := by
        rw [show ((' ' :: ([] : List Char))).take 6 = ' ' :: ([] : List Char) from rfl]
        exact sep_PUBYEAR (noTok_front (by decide) (by decide) (by decide)
          (by decide) (by decide) hwP htP) (by decide)
      rw [removeYearAux_region _ false _ hnoP]
      rw [removeYear_sp_nil]
      rw [pyStrip_ws_append _ [' '] (by decide)]
      rw [pyStrip_idem]
      have hfr : ('(' :: (List.intercalate [' '] (format_terms w) ++
          (')' :: (' ' :: ('(' :: (List.intercalate [' '] (format_terms t) ++
            [')'])))))) =
          '(' :: ((List.intercalate [' '] (format_terms w) ++
            (')' :: (' ' :: ('(' :: List.intercalate [' '] (format_terms t))))) ++
            [')']) := by
        simp
      rw [hfr]
      exact pyStrip_cons_concat _ (by decide) (by decide)
    | some se =>
      obtain ⟨s, e⟩ := se
      rw [when_clause_eq]
      simp only [replaceAll]
      have hform : (orClause w ++ ((" AND ").data ++ orClause t)) ++
          ' ' :: yearClauseOf (natDigits s) (natDigits e) =
          orClause w ++ ((" AND ").data ++ (orClause t ++
            ' ' :: yearClauseOf (natDigits s) (natDigits e))) := by
        simp
      rw [hform]
      rw [hpass1 (' ' :: yearClauseOf (natDigits s) (natDigits e)) (by
        rw [List.take_succ_cons, yearClauseOf_take _ _ 3 (by omega),
          show ((("PUBYEAR AFT ").data).take 3) = ("PUB").data from rfl]
        exact sep_AND hotA (by decide))]
      rw [replaceAND_sp_clause (natDigits s) (natDigits e) (natDigits_digits s)
        (natDigits_ne_nil s) (natDigits_digits e) (natDigits_ne_nil e)]
      rw [hpass2 (' ' :: (("PUBYEAR AFT ").data ++ natDigits s ++
        (' ' :: (("PUBYEAR BEF ").data ++ natDigits e))))]
      rw [replaceOR_sp_id (natDigits s) (natDigits e) (natDigits_digits s)
        (natDigits_ne_nil s) (natDigits_digits e) (natDigits_ne_nil e)]
      rw [remove_year_clause]
      have hform2 : ('(' :: (List.intercalate [' '] (format_terms w) ++
          (')' :: (' ' :: ('(' :: (List.intercalate [' '] (format_terms t) ++
            (')' :: (' ' :: (("PUBYEAR AFT ").data ++ natDigits s ++
              (' ' :: (("PUBYEAR BEF ").data ++ natDigits e))))))))))) =
          ('(' :: (List.intercalate [' '] (format_terms w) ++
            (')' :: (' ' :: ('(' :: (List.intercalate [' '] (format_terms t) ++
              [')'])))))) ++ (' ' :: (("PUBYEAR AFT ").data ++ natDigits s ++
                (' ' :: (("PUBYEAR BEF ").data ++ natDigits e)))) := by
        simp
      rw [hform2]
      have hnoP : containsSub (("PUBYEAR").data)
          (('(' :: (List.intercalate [' '] (format_terms w) ++
            (')' :: (' ' :: ('(' :: (List.intercalate [' '] (format_terms t) ++
              [')'])))))) ++ (' ' :: (("PUBYEAR AFT ").data ++ natDigits s ++
                (' ' :: (("PUBYEAR BEF ").data ++ natDigits e)))).take 6) = false := by
        rw [List.take_succ_cons, replacedTail_take _ _ 5 (by omega),
          show ((("PUBYEAR AFT ").data).take 5) = ("PUBYE").data from rfl]
        exact sep_PUBYEAR (noTok_front (by decide) (by decide) (by decide)
          (by decide) (by decide) hwP htP) (by decide)
      rw [removeYearAux_region _ false _ hnoP]
      rw [removeYear_sp_replaced _ (natDigits s) (natDigits e) (natDigits_digits s)
        (natDigits_ne_nil s) (natDigits_digits e) (natDigits_ne_nil e)]
      rw [pyStrip_ws_append _ [' ', ' '] (by decide)]
      rw [pyStrip_idem]
      have hfr : ('(' :: (List.intercalate [' '] (format_terms w) ++
          (')' :: (' ' :: ('(' :: (List.intercalate [' '] (format_terms t) ++
            [')'])))))) =
          '(' :: ((List.intercalate [' '] (format_terms w) ++
            (')' :: (' ' :: ('(' :: List.intercalate [' '] (format_terms t))))) ++
            [')']) := by
        simp
      rw [hfr]
      exact pyStrip_cons_concat _ (by decide) (by decide)
  · simp only [replaceAll]
    have hform3 : orClause w ++ ((" AND ").data ++ orClause t) =
        orClause w ++ ((" AND ").data ++ (orClause t ++ ([] : List Char))) := by
      simp
    rw [hform3]
    rw [hpass1 [] (by
      rw [show (([] : List Char)).take 4 = ([] : List Char) from rfl, List.append_nil]
      exact containsSub_weaken (by decide) hotA)]
    rw [show replaceAllAux ((" AND ").data) [' '] 0 ([] : List Char) = [] from rfl]
    rw [hpass2 []]
    rw [show replaceAllAux ((" OR ").data) [' '] 0 ([] : List Char) = [] from rfl]

/-- C7: amended.  For queries built by build_search_query whose individual
location and topic terms contain no AND, OR or PUBYEAR text of their own
(refuted otherwise by C7_scholar_cex, where a term smuggles such a token
through the pipeline), the Google Scholar translation succeeds, equals the
stripped combined clause with every joining AND and OR token replaced by a
space and the year clause removed entirely, and the result contains no AND,
no OR and no PUBYEAR substring. -/
theorem C7_scholar_tokens (w t : List (List Char)) (when : Option (Nat × Nat))
    (hw : ∀ x ∈ w, containsSub (("AND").data) x = false ∧
      containsSub (("OR").data) x = false ∧
      containsSub (("PUBYEAR").data) x = false)
    (ht : ∀ x ∈ t, containsSub (("AND").data) x = false ∧
      containsSub (("OR").data) x = false ∧
      containsSub (("PUBYEAR").data) x = false) :
    ∃ r, convert_query_for_database (build_search_query w t when)
        (("google_scholar").data) = Except.ok r ∧
      r = replaceAll ((" OR ").data) [' ']
        (replaceAll ((" AND ").data) [' '] (pyStrip (combined_query w t))) ∧
      containsSub (("AND").data) r = false ∧
      containsSub (("OR").data) r = false ∧
      containsSub (("PUBYEAR").data) r = false := by
  have hwA : ∀ x ∈ w, containsSub (("AND").data) x = false :=
    fun x hx => (hw x hx).1
  have hwO : ∀ x ∈ w, containsSub (("OR").data) x = false :=
    fun x hx => (hw x hx).2.1
  have hwP : ∀ x ∈ w, containsSub (("PUBYEAR").data) x = false :=
    fun x hx => (hw x hx).2.2
  have htA : ∀ x ∈ t, containsSub (("AND").data) x = false :=
    fun x hx => (ht x hx).1
  have htO : ∀ x ∈ t, containsSub (("OR").data) x = false :=
    fun x hx => (ht x hx).2.1
  have htP : ∀ x ∈ t, containsSub (("PUBYEAR").data) x = false :=
    fun x hx => (ht x hx).2.2
  by_cases hwe : w = []
  · by_cases hte : t = []
    · subst hwe
      subst hte
      cases when with
      | none => exact ⟨[], rfl, rfl, rfl, rfl, rfl⟩
      | some se =>
        obtain ⟨s, e⟩ := se
        refine ⟨[], ?_, rfl, rfl, rfl, rfl⟩
        rw [convert_query_for_database, if_pos (by decide)]
        rw [build_search_query, when_clause_eq]
        rw [show pyStrip (combined_query [] []) = [] from rfl, List.nil_append]
        simp only [replaceAll]
        rw [replaceAND_sp_clause (natDigits s) (natDigits e) (natDigits_digits s)
          (natDigits_ne_nil s) (natDigits_digits e) (natDigits_ne_nil e)]
        rw [replaceOR_sp_id (natDigits s) (natDigits e) (natDigits_digits s)
          (natDigits_ne_nil s) (natDigits_digits e) (natDigits_ne_nil e)]
        rw [remove_year_clause]
        rw [show removeYearAux 0 false
            (' ' :: (("PUBYEAR AFT ").data ++ natDigits s ++
              (' ' :: (("PUBYEAR BEF ").data ++ natDigits e)))) = [' ', ' '] from
          removeYear_sp_replaced false (natDigits s) (natDigits e)
            (natDigits_digits s) (natDigits_ne_nil s) (natDigits_digits e)
            (natDigits_ne_nil e)]
        rfl
    · subst hwe
      obtain ⟨hfull, hplain⟩ := scholar_single t hte htA htO htP when
      refine ⟨'(' :: (List.intercalate [' '] (format_terms t) ++ [')']), ?_, ?_,
        noTok_spClause (by decide) (by decide) (by decide) (by decide) (by decide)
          t htA,
        noTok_spClause (by decide) (by decide) (by decide) (by decide) (by decide)
          t htO,
        noTok_spClause (by decide) (by decide) (by decide) (by decide) (by decide)
          t htP⟩
      · rw [convert_query_for_database, if_pos (by decide), build_search_query,
          combined_query_right t hte]
        exact congrArg Except.ok hfull
      · rw [combined_query_right t hte]
        exact hplain.symm
  · by_cases hte : t = []
    · subst hte
      obtain ⟨hfull, hplain⟩ := scholar_single w hwe hwA hwO hwP when
      refine ⟨'(' :: (List.intercalate [' '] (format_terms w) ++ [')']), ?_, ?_,
        noTok_spClause (by decide) (by decide) (by decide) (by decide) (by decide)
          w hwA,
        noTok_spClause (by decide) (by decide) (by decide) (by decide) (by decide)
          w hwO,
        noTok_spClause (by decide) (by decide) (by decide) (by decide) (by decide)
          w hwP⟩
      · rw [convert_query_for_database, if_pos (by decide), build_search_query,
          combined_query_left w hwe]
        exact congrArg Except.ok hfull
      · rw [combined_query_left w hwe]
        exact hplain.symm
    · obtain ⟨hfull, hplain⟩ := scholar_two w t hwe hte hwA hwO hwP htA htO htP when
      refine ⟨'(' :: (List.intercalate [' '] (format_terms w) ++
          (')' :: (' ' :: ('(' :: (List.intercalate [' '] (format_terms t) ++
            [')']))))), ?_, ?_,
        noTok_front (by decide) (by decide) (by decide) (by decide) (by decide)
          hwA htA,
        noTok_front (by decide) (by decide) (by decide) (by decide) (by decide)
          hwO htO,
        noTok_front (by decide) (by decide) (by decide) (by decide) (by decide)
          hwP htP⟩
      · rw [convert_query_for_database, if_pos (by decide), build_search_query]
        exact congrArg Except.ok hfull
      · exact hplain.symm

/-- Witness for C7: a built query with one location term, one topic term and a
year range, none of whose terms contain an operator token, translates for
Google Scholar to the two parenthesized terms joined by a space. -/
theorem C7_scholar_tokens_witness :
    ((∀ x ∈ [("urban").data], containsSub (("AND").data) x = false ∧
        containsSub (("OR").data) x = false ∧
        containsSub (("PUBYEAR").data) x = false) ∧
      (∀ x ∈ [("city").data], containsSub (("AND").data) x = false ∧
        containsSub (("OR").data) x = false ∧
        containsSub (("PUBYEAR").data) x = false)) ∧
    ∃ r, convert_query_for_database (build_search_query [("urban").data]
        [("city").data] (some (2018, 2022))) (("google_scholar").data) =
        Except.ok r ∧
      r = replaceAll ((" OR ").data) [' '] (replaceAll ((" AND ").data) [' ']
        (pyStrip (combined_query [("urban").data] [("city").data]))) ∧
      containsSub (("AND").data) r = false ∧
      containsSub (("OR").data) r = false ∧
      containsSub (("PUBYEAR").data) r = false :=
  ⟨⟨by decide, by decide⟩,
   C7_scholar_tokens [("urban").data] [("city").data] (some (2018, 2022))
     (by decide) (by decide)⟩

end BibQuery
